import Mathlib

/-!
# Multi-group joint trajectory action server (motoman_driver)

Shallow embedding of
`motoman_driver/src/industrial_robot_client/joint_trajectory_action.cpp`.

Conventions of the embedding.

* A `double` is only stored, copied and zero-filled by this file, so it is a
  rational number here (`Scalar`).
* Every `std::map<int, T>` member that is read through `operator[]` is a total
  function from the key to `T`; an absent key reads as the value-initialised
  `T` (`false`, a null pointer, an empty trajectory, an uninitialised handle).
* `robot_groups_` is indexed by the loop counter `0 .. size-1` in the
  constructor and in the fan-out callback, so it is the list of its values in
  key order and `robot_groups_[k]` is the `k`-th entry (a default-constructed
  `RobotGroup` past the end).
* A callback returns the new member state together with the ordered list of
  calls it made on goal handles and publishers (`Effect`).  `none` stands for
  undefined behaviour of the C++ code: a dereferenced null feedback pointer, an
  index into an empty vector, an iterator range past the end of a vector.
* Log statements are not modelled.
-/

namespace Motoman

/-- A `double` payload value. -/
abbrev Scalar := ℚ

/-- The `std_msgs/Header` of a message. -/
structure Header where
  seq : Nat
  stamp : Nat
  frame_id : String
deriving DecidableEq, Repr, Inhabited

/-- The `trajectory_msgs/JointTrajectoryPoint`; durations are in nanoseconds. -/
structure JointTrajectoryPoint where
  positions : List Scalar
  velocities : List Scalar
  accelerations : List Scalar
  effort : List Scalar
  time_from_start : Int
deriving DecidableEq, Repr, Inhabited

/-- The `trajectory_msgs/JointTrajectory`. -/
structure JointTrajectory where
  header : Header
  joint_names : List String
  points : List JointTrajectoryPoint
deriving DecidableEq, Repr, Inhabited

/-- The `control_msgs/FollowJointTrajectoryGoal`; its tolerance fields are only
read by log statements. -/
structure FollowJointTrajectoryGoal where
  trajectory : JointTrajectory
deriving DecidableEq, Repr, Inhabited

/-- An initialised `GoalHandle` of the action server: the goal id it compares
by and the goal it carries (`getGoal()`). -/
structure GoalHandle where
  goal_id : Nat
  getGoal : FollowJointTrajectoryGoal
deriving DecidableEq, Repr, Inhabited

/-- The `motoman_msgs/DynamicJointsGroup`. -/
structure DynamicJointsGroup where
  group_number : Nat
  num_joints : Nat
  positions : List Scalar
  velocities : List Scalar
  accelerations : List Scalar
  effort : List Scalar
  time_from_start : Int
deriving DecidableEq, Repr, Inhabited

/-- The `motoman_msgs/DynamicJointPoint`. -/
structure DynamicJointPoint where
  num_groups : Nat
  groups : List DynamicJointsGroup
deriving DecidableEq, Repr, Inhabited

/-- The `motoman_msgs/DynamicJointTrajectory`. -/
structure DynamicJointTrajectory where
  header : Header
  joint_names : List String
  points : List DynamicJointPoint
deriving DecidableEq, Repr, Inhabited

/-- The `control_msgs/FollowJointTrajectoryFeedback` (the fields the file reads). -/
structure FollowJointTrajectoryFeedback where
  header : Header
  joint_names : List String
  actual : JointTrajectoryPoint
deriving DecidableEq, Repr, Inhabited

/-- The `industrial_msgs/RobotStatus` (the field the file reads): `in_motion.val`. -/
structure RobotStatus where
  in_motion : Int
deriving DecidableEq, Repr, Inhabited

/-- The `motoman_msgs/MotionReplyResult` (the field the file reads). -/
structure MotionReplyResult where
  val : Int
deriving DecidableEq, Repr, Inhabited

/-- Modelled from the spec: the tri-state constant `TRUE` of `in_motion`
(section 6: `in_motion ∈ {TRUE, FALSE, UNKNOWN}`); the message declaration is
not part of the source file.  Of the numbers of the three constants only that
they differ is used. -/
def TriState.TRUE : Int := 1

/-- Modelled from the spec: the tri-state constant `FALSE` of `in_motion`. -/
def TriState.FALSE : Int := 0

/-- Modelled from the spec: the tri-state constant `UNKNOWN` of `in_motion`. -/
def TriState.UNKNOWN : Int := -1

/-- Modelled from the spec: the motion-reply value `SUCCESS` (section 6: `val`
drawn from `{SUCCESS, INVALID, NOT_READY, …other failures}`); the message
declaration is not part of the source file.  Of the numbers of the three
constants only that they differ is used. -/
def MotionReplyResult.SUCCESS : Int := 0

/-- Modelled from the spec: the motion-reply value `INVALID`. -/
def MotionReplyResult.INVALID : Int := 3

/-- Modelled from the spec: the motion-reply value `NOT_READY`. -/
def MotionReplyResult.NOT_READY : Int := 5

/-- Modelled from the spec: the action result code `SUCCESSFUL` (section 6),
which a default-constructed result carries. -/
def FollowJointTrajectoryResult.SUCCESSFUL : Int := 0

/-- Modelled from the spec: the action result code `INVALID_GOAL` (section 6). -/
def FollowJointTrajectoryResult.INVALID_GOAL : Int := -1

/-- Modelled from the spec: the action result code `INVALID_JOINTS` (section 6). -/
def FollowJointTrajectoryResult.INVALID_JOINTS : Int := -2

/-- A configured motion group (`RobotGroup`). -/
structure RobotGroup where
  group_id : Nat
  ns : String
  name : String
  joint_names : List String
deriving DecidableEq, Repr

/-- A default-constructed `RobotGroup`, which `robot_groups_[k]` yields for a
key that is not configured. -/
instance : Inhabited RobotGroup := ⟨⟨0, "", "", []⟩⟩

/-- The two functions of the `industrial_core` library that the file calls:
`industrial_utils::isSimilar(lhs, rhs)` and
`industrial_robot_client::utils::isWithinRange(lhs_keys, lhs_values, rhs_keys,
rhs_values, full_range)`.  They are not part of this repository. -/
structure Lib where
  isSimilar : List String → List String → Bool
  isWithinRange : List String → List Scalar → List String → List Scalar → Scalar → Bool

/-- The members of `JointTrajectoryAction` that are fixed by the constructor. -/
structure Node where
  lib : Lib
  robot_groups : List RobotGroup
  goal_threshold : Scalar

/-- The value of `robot_groups_[group_number]`. -/
def Node.group (n : Node) (group_number : Nat) : RobotGroup :=
  n.robot_groups.getD group_number default

/-- The member `all_joint_names_`, filled by the constructor (line 74). -/
def Node.all_joint_names (n : Node) : List String :=
  (n.robot_groups.map RobotGroup.joint_names).flatten

/-- A call made by a callback on a goal handle or on a publisher:
`pub_trajectories_[group_number].publish` and
`pub_trajectory_command_.publish`. -/
inductive Effect where
  | setAccepted (gh : GoalHandle)
  | setRejected (gh : GoalHandle) (error_code : Int) (text : String)
  | setSucceeded (gh : GoalHandle)
  | setCanceled (gh : GoalHandle)
  | setAborted (gh : GoalHandle)
  | publish (group_number : Nat) (msg : DynamicJointTrajectory)
  | publishCommand (msg : DynamicJointTrajectory)
deriving DecidableEq, Repr

/-- The mutable members of `JointTrajectoryAction`. -/
structure State where
  has_active_goal_map : Nat → Bool
  active_goal_map : Nat → Option GoalHandle
  current_traj_map : Nat → JointTrajectory
  last_trajectory_state_map : Nat → Option FollowJointTrajectoryFeedback
  trajectory_state_recvd_map : Nat → Bool
  trajectory_state_recvd : Bool
  last_robot_status : Option RobotStatus

/-- The members after construction: every map is empty. -/
def State.init : State where
  has_active_goal_map := fun _ => false
  active_goal_map := fun _ => none
  current_traj_map := fun _ => default
  last_trajectory_state_map := fun _ => none
  trajectory_state_recvd_map := fun _ => false
  trajectory_state_recvd := false
  last_robot_status := none

/-- A default-constructed `DynamicJointTrajectory`. -/
def emptyTrajectory : DynamicJointTrajectory := default

/-- A method call on the stored handle `active_goal_map_[k]`; on an
uninitialised handle the action library returns without doing anything. -/
def onHandle (h : Option GoalHandle) (call : GoalHandle → Effect) : List Effect :=
  match h with
  | some a => [call a]
  | none => []

/-- The comparison `active_goal_map_[k] == gh` of the action library: by goal id;
an uninitialised handle differs from an initialised one. -/
def handleEq (h : Option GoalHandle) (gh : GoalHandle) : Bool :=
  match h with
  | some a => a.goal_id == gh.goal_id
  | none => false

/-- The initialisation `std::vector<double> v(num_joints, 0.0)`. -/
def zeros (num_joints : Nat) : List Scalar := List.replicate num_joints 0

/-- The function `abortGoal(int robot_id)` (lines 551-560). -/
def abortGoal (s : State) (robot_id : Nat) : State × List Effect :=
  ({ s with has_active_goal_map := Function.update s.has_active_goal_map robot_id false },
   Effect.publish robot_id emptyTrajectory
     :: onHandle (s.active_goal_map robot_id) Effect.setAborted)

/-- The function `withinGoalConstraints(msg, traj, robot_id)` (lines 562-591).
The argument `msg` is not read: the feedback is taken from
`last_trajectory_state_map_[robot_id]`, and dereferenced without a null check. -/
def withinGoalConstraints (n : Node) (s : State)
    (_msg : Option FollowJointTrajectoryFeedback) (traj : JointTrajectory)
    (robot_id : Nat) : Option Bool :=
  if traj.points.isEmpty then some false
  else
    match s.last_trajectory_state_map robot_id, traj.points[traj.points.length - 1]? with
    | some fb, some last =>
        some (n.lib.isWithinRange (n.group robot_id).joint_names fb.actual.positions
                traj.joint_names last.positions n.goal_threshold)
    | _, _ => none

/-- One channel of the per-group translation (lines 362-390): the input channel,
or zeros when it is empty. -/
def channelOrZeros (num_joints : Nat) (c : List Scalar) : List Scalar :=
  if c.isEmpty then zeros num_joints else c

/-- The body of the translation loop of `goalCB(gh, group_number)` (lines
359-397) for one input point. -/
def dynPointOf (n : Node) (group_number : Nat) (p : JointTrajectoryPoint) :
    DynamicJointPoint :=
  let num_joints := (n.group group_number).joint_names.length
  { num_groups := 1
    groups := [{ group_number := group_number
                 num_joints := (n.group group_number).joint_names.length
                 positions := channelOrZeros num_joints p.positions
                 velocities := channelOrZeros num_joints p.velocities
                 accelerations := channelOrZeros num_joints p.accelerations
                 effort := channelOrZeros num_joints p.effort
                 time_from_start := p.time_from_start }] }

/-- The message built by `goalCB(gh, group_number)` (lines 355-400).  The loop
runs over `current_traj_map_[group_number].points`, which line 351 has just
copied from the goal, and reads the goal's point at the same index. -/
def dynTrajOf (n : Node) (gh : GoalHandle) (group_number : Nat) : DynamicJointTrajectory :=
  { header := gh.getGoal.trajectory.header
    joint_names := gh.getGoal.trajectory.joint_names
    points := gh.getGoal.trajectory.points.map (dynPointOf n group_number) }

/-- The callback `goalCB(gh, group_number)` (lines 320-434). -/
def goalCB (n : Node) (s : State) (gh : GoalHandle) (group_number : Nat) :
    Option (State × List Effect) :=
  if !gh.getGoal.trajectory.points.isEmpty then
    if n.lib.isSimilar (n.group group_number).joint_names gh.getGoal.trajectory.joint_names then
      let (s1, e1) :=
        if s.has_active_goal_map group_number then abortGoal s group_number else (s, [])
      match withinGoalConstraints n s1 (s1.last_trajectory_state_map group_number)
              gh.getGoal.trajectory group_number with
      | none => none
      | some true =>
          some ({ s1 with has_active_goal_map :=
                    Function.update s1.has_active_goal_map group_number false },
                e1 ++ [Effect.setAccepted gh, Effect.setSucceeded gh])
      | some false =>
          some ({ s1 with
                    active_goal_map := Function.update s1.active_goal_map group_number (some gh)
                    has_active_goal_map :=
                      Function.update s1.has_active_goal_map group_number true
                    current_traj_map :=
                      Function.update s1.current_traj_map group_number gh.getGoal.trajectory },
                e1 ++ [Effect.setAccepted gh,
                       Effect.publish group_number (dynTrajOf n gh group_number)])
    else
      some (s, [Effect.setRejected gh FollowJointTrajectoryResult.INVALID_JOINTS
                  "Joint names do not match"])
  else
    some (s, [Effect.setRejected gh FollowJointTrajectoryResult.INVALID_GOAL
                "Empty trajectory"])

/-- The callback `cancelCB(gh, group_number)` (lines 436-455). -/
def cancelCB (n : Node) (s : State) (gh : GoalHandle) (group_number : Nat) :
    Option (State × List Effect) :=
  if handleEq (s.active_goal_map group_number) gh then
    some ({ s with has_active_goal_map :=
              Function.update s.has_active_goal_map group_number false },
          Effect.publish group_number
              { emptyTrajectory with joint_names := (n.group group_number).joint_names }
            :: onHandle (s.active_goal_map group_number) Effect.setCanceled)
  else
    some (s, [])

/-- The callback `controllerStateCB(msg, robot_id)` (lines 457-520). -/
def controllerStateCB (n : Node) (s : State) (msg : FollowJointTrajectoryFeedback)
    (robot_id : Nat) : Option (State × List Effect) :=
  let s1 : State :=
    { s with
        last_trajectory_state_map :=
          Function.update s.last_trajectory_state_map robot_id (some msg)
        trajectory_state_recvd_map :=
          Function.update s.trajectory_state_recvd_map robot_id true }
  if !s1.has_active_goal_map robot_id then some (s1, [])
  else if (s1.current_traj_map robot_id).points.isEmpty then some (s1, [])
  else if !n.lib.isSimilar (n.group robot_id).joint_names msg.joint_names then some (s1, [])
  else
    match withinGoalConstraints n s1 (s1.last_trajectory_state_map robot_id)
            (s1.current_traj_map robot_id) robot_id with
    | none => none
    | some false => some (s1, [])
    | some true =>
        let succeed : State × List Effect :=
          ({ s1 with has_active_goal_map :=
               Function.update s1.has_active_goal_map robot_id false },
           onHandle (s1.active_goal_map robot_id) Effect.setSucceeded)
        match s1.last_robot_status with
        | some st =>
            if st.in_motion = TriState.FALSE then some succeed
            else if st.in_motion = TriState.UNKNOWN then some succeed
            else some (s1, [])
        | none => some succeed

/-- The callback `motionReplyCB(msg, robot_id)` (lines 529-549). -/
def motionReplyCB (s : State) (msg : MotionReplyResult) (robot_id : Nat) :
    Option (State × List Effect) :=
  if !s.has_active_goal_map robot_id then some (s, [])
  else if msg.val = MotionReplyResult.INVALID ∨ msg.val = MotionReplyResult.NOT_READY then
    some ({ s with has_active_goal_map :=
              Function.update s.has_active_goal_map robot_id false },
          onHandle (s.active_goal_map robot_id)
            (fun a => Effect.setRejected a FollowJointTrajectoryResult.SUCCESSFUL ""))
  else if msg.val ≠ MotionReplyResult.SUCCESS then some (abortGoal s robot_id)
  else some (s, [])

/-- The timer callback `watchdog(e, group_number)` (lines 163-195).  Its last
statement clears the member `trajectory_state_recvd_`, not the entry
`trajectory_state_recvd_map_[group_number]` that the test above reads. -/
def watchdog (s : State) (group_number : Nat) : Option (State × List Effect) :=
  let (s1, e1) :=
    if s.has_active_goal_map group_number then
      if !s.trajectory_state_recvd_map group_number then abortGoal s group_number
      else (s, [])
    else (s, [])
  some ({ s1 with trajectory_state_recvd := false }, e1)

/-- Modelled from the spec: the base-class callback `robotStatusCB`, which is
not part of the source file; section 4.6 has the shared robot-status
subscription feed the latest robot status. -/
def robotStatusCB (s : State) (msg : RobotStatus) : Option (State × List Effect) :=
  some ({ s with last_robot_status := some msg }, [])

/-- A `for` loop that runs `body` once for each element, in order, and
`push_back`s each result; it is undefined as soon as one run of the body is. -/
def forPush {α β : Type} (body : α → Option β) : List α → Option (List β)
  | [] => some []
  | a :: l =>
      match body a with
      | none => none
      | some b =>
          match forPush body l with
          | none => none
          | some r => some (b :: r)

namespace FanOut

/-- The iterator-range insertion `v.insert(v.begin(), c.begin() + ros_idx,
c.begin() + ros_idx + size)` into an empty vector (lines 236-240); a range that
ends past the end of `c` is undefined behaviour. -/
def sliceRange (c : List Scalar) (ros_idx size : Nat) : Option (List Scalar) :=
  if ros_idx + size ≤ c.length then some ((c.drop ros_idx).take size) else none

/-- One channel of a group that was found in the goal (lines 230-275). -/
def channel (num_joints ros_idx size : Nat) (c : List Scalar) : Option (List Scalar) :=
  if c.isEmpty then some (zeros num_joints) else sliceRange c ros_idx size

/-- The body of the inner loop of `goalCB(gh)` (lines 215-299) for the input
point `p` and the group at `rbt_idx`. -/
def dynGroupOf (n : Node) (traj : JointTrajectory) (p : JointTrajectoryPoint)
    (rbt_idx : Nat) : Option DynamicJointsGroup :=
  match (n.group rbt_idx).joint_names.head? with
  | none => none
  | some first =>
      let ros_idx := traj.joint_names.indexOf first
      let is_found := decide (ros_idx < traj.joint_names.length)
      let group_number := rbt_idx
      let num_joints := (n.group group_number).joint_names.length
      let size := (n.group rbt_idx).joint_names.length
      if is_found then
        match channel num_joints ros_idx size p.positions,
              channel num_joints ros_idx size p.velocities,
              channel num_joints ros_idx size p.accelerations,
              channel num_joints ros_idx size p.effort with
        | some positions, some velocities, some accelerations, some effort =>
            some { group_number := group_number
                   num_joints := positions.length
                   positions := positions
                   velocities := velocities
                   accelerations := accelerations
                   effort := effort
                   time_from_start := p.time_from_start }
        | _, _, _, _ => none
      else
        some { group_number := group_number
               num_joints := num_joints
               positions := zeros num_joints
               velocities := zeros num_joints
               accelerations := zeros num_joints
               effort := zeros num_joints
               time_from_start := p.time_from_start }

/-- The body of the outer loop of `goalCB(gh)` (lines 211-302) for one point. -/
def dynPointOf (n : Node) (traj : JointTrajectory) (p : JointTrajectoryPoint) :
    Option DynamicJointPoint :=
  match forPush (dynGroupOf n traj p) (List.range n.robot_groups.length) with
  | none => none
  | some groups => some { num_groups := groups.length, groups := groups }

/-- The message built by `goalCB(gh)` (lines 207-307); `now` is the value of
`ros::Time::now()`. -/
def dynTrajOf (n : Node) (now : Nat) (traj : JointTrajectory) :
    Option DynamicJointTrajectory :=
  match forPush (dynPointOf n traj) traj.points with
  | none => none
  | some points =>
      some { header := { traj.header with stamp := now }
             joint_names := n.all_joint_names
             points := points }

/-- The callback `goalCB(gh)` of the top-level action server (lines 197-310). -/
def goalCB (n : Node) (s : State) (now : Nat) (gh : GoalHandle) :
    Option (State × List Effect) :=
  match dynTrajOf n now gh.getGoal.trajectory with
  | none => none
  | some dyn_traj => some (s, [Effect.setAccepted gh, Effect.publishCommand dyn_traj])

end FanOut

/-- An inbound event of one of the per-group callbacks, or a robot status. -/
inductive Event where
  | goal (gh : GoalHandle) (group_number : Nat)
  | cancel (gh : GoalHandle) (group_number : Nat)
  | feedback (msg : FollowJointTrajectoryFeedback) (robot_id : Nat)
  | motionReply (msg : MotionReplyResult) (robot_id : Nat)
  | robotStatus (msg : RobotStatus)
  | watchdog (group_number : Nat)
deriving DecidableEq, Repr

/-- The callback that the event loop runs for an event. -/
def step (n : Node) (s : State) : Event → Option (State × List Effect)
  | .goal gh g => goalCB n s gh g
  | .cancel gh g => cancelCB n s gh g
  | .feedback msg g => controllerStateCB n s msg g
  | .motionReply msg g => motionReplyCB s msg g
  | .robotStatus msg => robotStatusCB s msg
  | .watchdog g => watchdog s g

/-- The serialized event loop: the callbacks run one after the other in
receipt order, and the calls they make are collected in order. -/
def run (n : Node) (s : State) : List Event → Option (State × List Effect)
  | [] => some (s, [])
  | e :: es =>
      match step n s e with
      | none => none
      | some (s1, e1) =>
          match run n s1 es with
          | none => none
          | some (s2, e2) => some (s2, e1 ++ e2)

/-- Modelled from the spec: `isSimilar(A, B)` of the `industrial_core` library
(glossary: the two joint-name sequences are the same multiset, order
irrelevant). -/
def specIsSimilar (lhs rhs : List String) : Bool := lhs.isPerm rhs

/-- Modelled from the spec: `isWithinRange` of the `industrial_core` library
(section 4.3): every key of the left side is paired with its index in the right
keys, the values of a pair differ by at most the threshold, and a key that is
not on both sides fails the check. -/
def specIsWithinRange (lhs_keys : List String) (lhs_values : List Scalar)
    (rhs_keys : List String) (rhs_values : List Scalar) (full_range : Scalar) : Bool :=
  (List.range lhs_keys.length).all fun i =>
    match lhs_keys[i]?, lhs_values[i]? with
    | some k, some v =>
        match rhs_values[rhs_keys.indexOf k]? with
        | some w => decide (rhs_keys.indexOf k < rhs_keys.length) && decide (|v - w| ≤ full_range)
        | none => false
    | _, _ => false

/-- The library functions as the spec describes them. -/
def specLib : Lib := ⟨specIsSimilar, specIsWithinRange⟩

/-! ## Calls seen by one goal handle -/

/-- The goal id of the handle a call is made on; publications have none. -/
def Effect.goalId? : Effect → Option Nat
  | .setAccepted gh => some gh.goal_id
  | .setRejected gh _ _ => some gh.goal_id
  | .setSucceeded gh => some gh.goal_id
  | .setCanceled gh => some gh.goal_id
  | .setAborted gh => some gh.goal_id
  | .publish _ _ => none
  | .publishCommand _ => none

/-- A terminal call: reject, succeed, cancel or abort. -/
def Effect.isTerminal : Effect → Bool
  | .setRejected _ _ _ => true
  | .setSucceeded _ => true
  | .setCanceled _ => true
  | .setAborted _ => true
  | _ => false

/-- The calls of a trace that are made on the handle with goal id `h`, in order:
what the client of that goal sees. -/
def history (h : Nat) (tr : List Effect) : List Effect :=
  tr.filter (fun e => decide (e.goalId? = some h))

/-- The terminal calls that the callbacks make on a stored active goal:
succeed (feedback), abort (watchdog, preemption, motion reply), cancel, and the
reject of a motion reply, which carries a default result. -/
def terminalsOf (a : GoalHandle) : List Effect :=
  [Effect.setSucceeded a, Effect.setAborted a, Effect.setCanceled a,
   Effect.setRejected a FollowJointTrajectoryResult.SUCCESSFUL ""]

/-- The goal ids that an event submits. -/
def Event.goalIds : Event → List Nat
  | .goal gh _ => [gh.goal_id]
  | _ => []

/-- The event sequences in which every goal arrives with a fresh handle (its
goal id is not among `seen`, the ids submitted before) and a cancel arrives
only for a handle that has not yet received a terminal call in the trace `tr`
so far.  The check follows the run of the callbacks from `s`. -/
def admissible (n : Node) (s : State) (tr : List Effect) (seen : List Nat) :
    List Event → Bool
  | [] => true
  | e :: es =>
      (match e with
       | .goal gh _ => decide (gh.goal_id ∉ seen)
       | .cancel gh _ => (history gh.goal_id tr).all (fun x => !x.isTerminal)
       | _ => true) &&
      (match step n s e with
       | none => true
       | some (s1, e1) => admissible n s1 (tr ++ e1) (e.goalIds ++ seen) es)

/-- The invariant of the runs of `admissible` event sequences, on the active
flags `has`, the stored handles `stored`, the trace `tr` and the submitted goal
ids `seen`: a stored handle has seen its accept and nothing else while its
group is active, and its accept and one terminal call afterwards; no goal id is
stored for two groups; and every goal id has one of the four call histories of
`life`. -/
structure TraceInv (has : Nat → Bool) (stored : Nat → Option GoalHandle)
    (tr : List Effect) (seen : List Nat) : Prop where
  stored_of_active : ∀ g, has g = true → ∃ a, stored g = some a
  stored_hist : ∀ g a, stored g = some a →
    (has g = true ∧ history a.goal_id tr = [Effect.setAccepted a]) ∨
    (has g = false ∧ ∃ t, t ∈ terminalsOf a ∧ history a.goal_id tr = [Effect.setAccepted a, t])
  stored_inj : ∀ g1 g2 a1 a2, stored g1 = some a1 → stored g2 = some a2 →
    a1.goal_id = a2.goal_id → g1 = g2
  unseen : ∀ h, h ∉ seen → history h tr = []
  life : ∀ h, history h tr = [] ∨
    (∃ gh code text, gh.goal_id = h ∧ history h tr = [Effect.setRejected gh code text] ∧
      (code = FollowJointTrajectoryResult.INVALID_GOAL ∨
       code = FollowJointTrajectoryResult.INVALID_JOINTS)) ∨
    (∃ gh g, gh.goal_id = h ∧ history h tr = [Effect.setAccepted gh] ∧
      has g = true ∧ stored g = some gh) ∨
    (∃ gh t, gh.goal_id = h ∧ t ∈ terminalsOf gh ∧
      history h tr = [Effect.setAccepted gh, t])

/-! ## Accepted and ended goals of a trace -/

/-- The call is an accept. -/
def Effect.isAccept : Effect → Bool
  | .setAccepted _ => true
  | _ => false

/-- The call is one of succeed, abort and reject. -/
def Effect.isEnd : Effect → Bool
  | .setRejected _ _ _ => true
  | .setSucceeded _ => true
  | .setAborted _ => true
  | _ => false

/-- The call is made on the handle with goal id `h`. -/
def Effect.onGoal (h : Nat) (e : Effect) : Bool := decide (e.goalId? = some h)

/-- The handle with goal id `h` has been accepted in the trace. -/
def accepted (h : Nat) (tr : List Effect) : Bool :=
  tr.any (fun e => e.isAccept && e.onGoal h)

/-- The handle with goal id `h` has received a terminal call (succeed, abort,
cancel or reject) in the trace. -/
def terminated (h : Nat) (tr : List Effect) : Bool :=
  tr.any (fun e => e.isTerminal && e.onGoal h)

/-- The number of succeed, abort and reject calls that the handle with goal id
`h` has received in the trace. -/
def endCount (h : Nat) (tr : List Effect) : Nat :=
  tr.countP (fun e => e.isEnd && e.onGoal h)

/-- The goal handles that an event sequence submits, each with the group whose
action server receives it, in order. -/
def submitted : List Event → List (GoalHandle × Nat)
  | [] => []
  | .goal gh g :: es => (gh, g) :: submitted es
  | _ :: es => submitted es

/-- The goal ids of a list of submitted handles. -/
def goalIdsOf (sub : List (GoalHandle × Nat)) : List Nat := sub.map (fun q => q.1.goal_id)

/-- The group that a per-group event is addressed to; a robot status is
addressed to none. -/
def Event.group? : Event → Option Nat
  | .goal _ g => some g
  | .cancel _ g => some g
  | .feedback _ g => some g
  | .motionReply _ g => some g
  | .robotStatus _ => none
  | .watchdog g => some g

/-- The invariant of the runs in which every goal arrives with a fresh handle,
on the active flags `has`, the stored handles `stored`, the trace `tr` and the
submitted handles `sub`: the handle stored for a group was submitted to that
group and accepted, and has received a terminal call exactly when the group is
not active; a submitted handle that is accepted and has no terminal call is the
stored handle of its active group; and no handle has received more than one of
succeed, abort and reject. -/
structure SessionInv (has : Nat → Bool) (stored : Nat → Option GoalHandle)
    (tr : List Effect) (sub : List (GoalHandle × Nat)) : Prop where
  stored_of_active : ∀ g, has g = true → ∃ a, stored g = some a
  stored_sub : ∀ g a, stored g = some a → (a, g) ∈ sub
  stored_acc : ∀ g a, stored g = some a → accepted a.goal_id tr = true
  stored_term : ∀ g a, stored g = some a → terminated a.goal_id tr = !has g
  sub_nodup : (goalIdsOf sub).Nodup
  clean : ∀ h, h ∉ goalIdsOf sub → accepted h tr = false ∧ terminated h tr = false
  pending_stored : ∀ gh g, (gh, g) ∈ sub → accepted gh.goal_id tr = true →
    terminated gh.goal_id tr = false → has g = true ∧ stored g = some gh
  end_le : ∀ h, endCount h tr ≤ 1

/-! ## Frame of a per-group step -/

/-- What a step for group `g` leaves alone for another group `g'`: the five
per-group members of `g'` keep their values, every publication of the step is
on the topic of `g`, and nothing is published on the top-level topic. -/
def Framed (s s1 : State) (e1 : List Effect) (g g' : Nat) : Prop :=
  s1.has_active_goal_map g' = s.has_active_goal_map g' ∧
  s1.active_goal_map g' = s.active_goal_map g' ∧
  s1.current_traj_map g' = s.current_traj_map g' ∧
  s1.last_trajectory_state_map g' = s.last_trajectory_state_map g' ∧
  s1.trajectory_state_recvd_map g' = s.trajectory_state_recvd_map g' ∧
  (∀ k m, Effect.publish k m ∈ e1 → k = g) ∧
  (∀ m, Effect.publishCommand m ∉ e1)

/-- The calls of a step for group `g` are made on the submitted handle `own`
or on the stored handle of `g`. -/
def OwnCalls (s : State) (g : Nat) (own : Option Nat) (e1 : List Effect) : Prop :=
  ∀ x ∈ e1, ∀ h, x.goalId? = some h →
    own = some h ∨ ∃ a, s.active_goal_map g = some a ∧ a.goal_id = h

/-! ## Scenario data (section 8 of the specification) -/

namespace Scenario

/-- The group `G0` with joints `j1`, `j2`. -/
def G0 : RobotGroup := ⟨0, "", "G0", ["j1", "j2"]⟩

/-- The group `G1` with joint `k1`. -/
def G1 : RobotGroup := ⟨1, "", "G1", ["k1"]⟩

/-- A node with the single group `G0` and `goal_threshold = 0.01`. -/
def node : Node := ⟨specLib, [G0], 1 / 100⟩

/-- A node with the groups `G0` and `G1`. -/
def node2 : Node := ⟨specLib, [G0, G1], 1 / 100⟩

/-- The trajectory of scenario 1: two points, ending at `[1.0, 2.0]` after 2 s. -/
def T1 : JointTrajectory :=
  ⟨⟨0, 0, "base"⟩, ["j1", "j2"],
   [⟨[0, 0], [], [], [], 0⟩, ⟨[1, 2], [], [], [], 2000000000⟩]⟩

/-- A second trajectory for `G0`, with its joints in the other order. -/
def T2 : JointTrajectory :=
  ⟨⟨1, 5, "base"⟩, ["j2", "j1"], [⟨[4, 3], [1, 1], [], [], 1000000000⟩]⟩

/-- A trajectory without points. -/
def Tempty : JointTrajectory := ⟨⟨0, 0, "base"⟩, ["j1", "j2"], []⟩

/-- The trajectory of scenario 2: a joint that `G0` does not have. -/
def Tjx : JointTrajectory := ⟨⟨0, 0, "base"⟩, ["jx"], [⟨[1], [], [], [], 0⟩]⟩

/-- The fan-out trajectory of scenario 4. -/
def Tfan : JointTrajectory :=
  ⟨⟨0, 0, "base"⟩, ["j1", "j2"], [⟨[1 / 2, 3 / 5], [], [], [], 1000000000⟩]⟩

/-- The goal handle carrying `T1`. -/
def gh1 : GoalHandle := ⟨1, ⟨T1⟩⟩

/-- The goal handle carrying `T2`. -/
def gh2 : GoalHandle := ⟨2, ⟨T2⟩⟩

/-- The goal handle carrying the empty trajectory. -/
def ghEmpty : GoalHandle := ⟨3, ⟨Tempty⟩⟩

/-- The goal handle carrying `Tjx`. -/
def ghJx : GoalHandle := ⟨4, ⟨Tjx⟩⟩

/-- The goal handle carrying the fan-out trajectory. -/
def ghFan : GoalHandle := ⟨5, ⟨Tfan⟩⟩

/-- Feedback of `G0` at the start position `[0, 0]`. -/
def fbStart : FollowJointTrajectoryFeedback :=
  ⟨⟨0, 0, ""⟩, ["j1", "j2"], ⟨[0, 0], [], [], [], 0⟩⟩

/-- Feedback of `G0` at the end position `[1, 2]` of `T1`. -/
def fbEnd : FollowJointTrajectoryFeedback :=
  ⟨⟨0, 0, ""⟩, ["j1", "j2"], ⟨[1, 2], [], [], [], 0⟩⟩

/-- The members after the feedback `fbStart` has been received for group 0. -/
def sFed : State :=
  { State.init with
      last_trajectory_state_map := Function.update State.init.last_trajectory_state_map 0 (some fbStart)
      trajectory_state_recvd_map := Function.update State.init.trajectory_state_recvd_map 0 true }

/-- The members while `gh1` is the active goal of group 0. -/
def sActive : State :=
  { sFed with
      active_goal_map := Function.update sFed.active_goal_map 0 (some gh1)
      has_active_goal_map := Function.update sFed.has_active_goal_map 0 true
      current_traj_map := Function.update sFed.current_traj_map 0 T1 }

/-- Feedback of `G0` at the end position of `T1`, with the joints listed in the
other order: `fbEnd` with the same permutation applied to its joint names and
to its positions. -/
def fbEndSwapped : FollowJointTrajectoryFeedback :=
  ⟨⟨0, 0, ""⟩, ["j2", "j1"], ⟨[2, 1], [], [], [], 0⟩⟩

/-- The members when `fb` is the latest feedback of group 0. -/
def sWith (fb : FollowJointTrajectoryFeedback) : State :=
  { State.init with
      last_trajectory_state_map :=
        Function.update State.init.last_trajectory_state_map 0 (some fb) }

/-- The members while `gh1` is the active goal of group 0 and no feedback has
been seen for the group since the flag was last clear. -/
def sSilent : State :=
  { sActive with trajectory_state_recvd_map := fun _ => false }

/-- Feedback of `G0` listed as `j2 = 1, j1 = 2`: away from the end of `T1` by 1
in each joint, with the numbers of that end in array order. -/
def fbCross : FollowJointTrajectoryFeedback :=
  ⟨⟨0, 0, ""⟩, ["j2", "j1"], ⟨[1, 2], [], [], [], 0⟩⟩

/-- A further goal handle carrying `T1`. -/
def gh3 : GoalHandle := ⟨6, ⟨T1⟩⟩

end Scenario

/-! ## Auxiliary lemmas -/

theorem update_same_value {β : Type} (f : Nat → β) (g : Nat) (v : β) (h : f g = v) :
    Function.update f g v = f := by
  subst h
  exact Function.update_eq_self g f

theorem getElem?_length_sub_one {α : Type} (l : List α) (x : α) (h : l.getLast? = some x) :
    l[l.length - 1]? = some x := by
  rw [← List.getLast?_eq_getElem?]
  exact h

theorem isEmpty_false_of_getLast? {α : Type} (l : List α) (x : α) (h : l.getLast? = some x) :
    l.isEmpty = false := by
  cases l with
  | nil => simp at h
  | cons a t => rfl

theorem ne_nil_of_getLast? {α : Type} (l : List α) (x : α) (h : l.getLast? = some x) :
    l ≠ [] := by
  intro e
  simp [e] at h

theorem withinGoalConstraints_of_feedback (n : Node) (s : State)
    (m : Option FollowJointTrajectoryFeedback) (traj : JointTrajectory) (g : Nat)
    (fb : FollowJointTrajectoryFeedback) (last : JointTrajectoryPoint)
    (hfb : s.last_trajectory_state_map g = some fb)
    (hlast : traj.points.getLast? = some last) :
    withinGoalConstraints n s m traj g =
      some (n.lib.isWithinRange (n.group g).joint_names fb.actual.positions
              traj.joint_names last.positions n.goal_threshold) := by
  simp [withinGoalConstraints, hfb, isEmpty_false_of_getLast? _ _ hlast,
    getElem?_length_sub_one _ _ hlast]

theorem goalCB_valid_idle (n : Node) (s : State) (gh : GoalHandle) (g : Nat)
    (hpts : gh.getGoal.trajectory.points ≠ [])
    (hsim : n.lib.isSimilar (n.group g).joint_names gh.getGoal.trajectory.joint_names = true)
    (hidle : s.has_active_goal_map g = false) (b : Bool)
    (hw : withinGoalConstraints n s (s.last_trajectory_state_map g)
            gh.getGoal.trajectory g = some b) :
    goalCB n s gh g =
      if b then
        some ({ s with has_active_goal_map := Function.update s.has_active_goal_map g false },
              [Effect.setAccepted gh, Effect.setSucceeded gh])
      else
        some ({ s with
                  active_goal_map := Function.update s.active_goal_map g (some gh)
                  has_active_goal_map := Function.update s.has_active_goal_map g true
                  current_traj_map :=
                    Function.update s.current_traj_map g gh.getGoal.trajectory },
              [Effect.setAccepted gh, Effect.publish g (dynTrajOf n gh g)]) := by
  have h1 : gh.getGoal.trajectory.points.isEmpty = false := by
    simpa [List.isEmpty_iff] using hpts
  cases b <;> simp [goalCB, h1, hsim, hidle, hw]

theorem goalCB_valid_active (n : Node) (s : State) (gh : GoalHandle) (g : Nat)
    (hpts : gh.getGoal.trajectory.points ≠ [])
    (hsim : n.lib.isSimilar (n.group g).joint_names gh.getGoal.trajectory.joint_names = true)
    (hact : s.has_active_goal_map g = true) (b : Bool)
    (hw : withinGoalConstraints n s (s.last_trajectory_state_map g)
            gh.getGoal.trajectory g = some b) :
    goalCB n s gh g =
      if b then
        some ({ s with has_active_goal_map :=
                  Function.update (Function.update s.has_active_goal_map g false) g false },
              (abortGoal s g).2 ++ [Effect.setAccepted gh, Effect.setSucceeded gh])
      else
        some ({ s with
                  active_goal_map := Function.update s.active_goal_map g (some gh)
                  has_active_goal_map :=
                    Function.update (Function.update s.has_active_goal_map g false) g true
                  current_traj_map :=
                    Function.update s.current_traj_map g gh.getGoal.trajectory },
              (abortGoal s g).2
                ++ [Effect.setAccepted gh, Effect.publish g (dynTrajOf n gh g)]) := by
  have h1 : gh.getGoal.trajectory.points.isEmpty = false := by
    simpa [List.isEmpty_iff] using hpts
  have hw1 : withinGoalConstraints n
      { s with has_active_goal_map := Function.update s.has_active_goal_map g false }
      (s.last_trajectory_state_map g) gh.getGoal.trajectory g = some b := by
    simp only [withinGoalConstraints] at hw ⊢
    exact hw
  cases b <;> simp [goalCB, abortGoal, h1, hsim, hact, hw1]

theorem channelOrZeros_eq (k : Nat) (c : List Scalar) :
    channelOrZeros k c = if c = [] then List.replicate k 0 else c := by
  cases c <;> simp [channelOrZeros, zeros]

theorem forPush_some {α β : Type} (body : α → Option β) :
    ∀ (l : List α) (r : List β), forPush body l = some r →
      r.length = l.length ∧
      ∀ (i : Nat) (y : β), r[i]? = some y → ∃ x, l[i]? = some x ∧ body x = some y := by
  intro l
  induction l with
  | nil =>
    intro r h
    simp only [forPush, Option.some.injEq] at h
    subst h
    simp
  | cons a t ih =>
    intro r h
    cases hfa : body a with
    | none => simp [forPush, hfa] at h
    | some b =>
      cases ht : forPush body t with
      | none => simp [forPush, hfa, ht] at h
      | some r1 =>
        simp only [forPush, hfa, ht, Option.some.injEq] at h
        subst h
        obtain ⟨hl, hi⟩ := ih r1 ht
        refine ⟨by simp [hl], ?_⟩
        intro i y hy
        cases i with
        | zero =>
          simp only [List.getElem?_cons_zero, Option.some.injEq] at hy
          subst hy
          exact ⟨a, by simp, hfa⟩
        | succ i =>
          simp only [List.getElem?_cons_succ] at hy
          obtain ⟨x, hx1, hx2⟩ := hi i y hy
          exact ⟨x, by simpa using hx1, hx2⟩

theorem forPush_total {α β : Type} (body : α → Option β) :
    ∀ (l : List α), (∀ x ∈ l, ∃ y, body x = some y) → ∃ r, forPush body l = some r := by
  intro l
  induction l with
  | nil => intro _; exact ⟨[], rfl⟩
  | cons a t ih =>
    intro h
    obtain ⟨b, hb⟩ := h a (by simp)
    obtain ⟨r, hr⟩ := ih (fun x hx => h x (by simp [hx]))
    exact ⟨b :: r, by simp [forPush, hb, hr]⟩

theorem goalCB_of_no_points (n : Node) (s : State) (gh : GoalHandle) (g : Nat)
    (h : gh.getGoal.trajectory.points = []) :
    goalCB n s gh g =
      some (s, [Effect.setRejected gh FollowJointTrajectoryResult.INVALID_GOAL
                  "Empty trajectory"]) := by
  simp [goalCB, h]

theorem goalCB_of_other_joints (n : Node) (s : State) (gh : GoalHandle) (g : Nat)
    (h : gh.getGoal.trajectory.points ≠ [])
    (hs : n.lib.isSimilar (n.group g).joint_names gh.getGoal.trajectory.joint_names = false) :
    goalCB n s gh g =
      some (s, [Effect.setRejected gh FollowJointTrajectoryResult.INVALID_JOINTS
                  "Joint names do not match"]) := by
  have h1 : gh.getGoal.trajectory.points.isEmpty = false := by
    simpa [List.isEmpty_iff] using h
  simp [goalCB, h1, hs]

/-! ## Per-group goal callback -/

/-- C4: in any state an invalid goal is rejected and nothing else happens: a goal
without points is rejected with `INVALID_GOAL` and "Empty trajectory", a goal
whose joint names are not similar to the group's with `INVALID_JOINTS` and
"Joint names do not match"; the reject is the only call made (no accept, no
publish, no abort) and the members are unchanged. -/
theorem goalCB_invalid_rejected (n : Node) (s : State) (gh : GoalHandle) (g : Nat) :
    (gh.getGoal.trajectory.points = [] →
      goalCB n s gh g =
        some (s, [Effect.setRejected gh FollowJointTrajectoryResult.INVALID_GOAL
                    "Empty trajectory"])) ∧
    (gh.getGoal.trajectory.points ≠ [] →
      n.lib.isSimilar (n.group g).joint_names gh.getGoal.trajectory.joint_names = false →
      goalCB n s gh g =
        some (s, [Effect.setRejected gh FollowJointTrajectoryResult.INVALID_JOINTS
                    "Joint names do not match"])) := by
  constructor
  · intro h
    simp [goalCB, h]
  · intro h hs
    have h1 : gh.getGoal.trajectory.points.isEmpty = false := by
      simpa [List.isEmpty_iff] using h
    simp [goalCB, h1, hs]

theorem goalCB_invalid_rejected_witness :
    goalCB Scenario.node Scenario.sActive Scenario.ghEmpty 0 =
        some (Scenario.sActive,
          [Effect.setRejected Scenario.ghEmpty FollowJointTrajectoryResult.INVALID_GOAL
             "Empty trajectory"]) ∧
    goalCB Scenario.node Scenario.sActive Scenario.ghJx 0 =
        some (Scenario.sActive,
          [Effect.setRejected Scenario.ghJx FollowJointTrajectoryResult.INVALID_JOINTS
             "Joint names do not match"]) :=
  ⟨(goalCB_invalid_rejected Scenario.node Scenario.sActive Scenario.ghEmpty 0).1 rfl,
   (goalCB_invalid_rejected Scenario.node Scenario.sActive Scenario.ghJx 0).2
     (by decide) (by decide)⟩

/-- What `goalCB(gh, group_number)` does on an IDLE group that has a latest
feedback message `fb`, for a goal with a last point `last` and joint names
similar to the group's, by the answer of the library check on the group's joint
names and the positions of `fb`: on true it accepts and succeeds the goal and
changes nothing; on false it accepts the goal, stores the handle and the
trajectory, publishes the message it builds on the group's topic, and the
active flag is set. -/
theorem goalCB_idle_valid (n : Node) (s : State) (gh : GoalHandle) (g : Nat)
    (fb : FollowJointTrajectoryFeedback) (last : JointTrajectoryPoint)
    (hlast : gh.getGoal.trajectory.points.getLast? = some last)
    (hsim : n.lib.isSimilar (n.group g).joint_names gh.getGoal.trajectory.joint_names = true)
    (hidle : s.has_active_goal_map g = false)
    (hfb : s.last_trajectory_state_map g = some fb) :
    (n.lib.isWithinRange (n.group g).joint_names fb.actual.positions
        gh.getGoal.trajectory.joint_names last.positions n.goal_threshold = true →
      goalCB n s gh g = some (s, [Effect.setAccepted gh, Effect.setSucceeded gh])) ∧
    (n.lib.isWithinRange (n.group g).joint_names fb.actual.positions
        gh.getGoal.trajectory.joint_names last.positions n.goal_threshold = false →
      ∃ s1, goalCB n s gh g =
          some (s1, [Effect.setAccepted gh, Effect.publish g (dynTrajOf n gh g)]) ∧
        s1.has_active_goal_map g = true ∧
        s1.active_goal_map g = some gh ∧
        s1.current_traj_map g = gh.getGoal.trajectory ∧
        s1 = { s with
                 active_goal_map := Function.update s.active_goal_map g (some gh)
                 has_active_goal_map := Function.update s.has_active_goal_map g true
                 current_traj_map :=
                   Function.update s.current_traj_map g gh.getGoal.trajectory }) := by
  have hpts := ne_nil_of_getLast? _ _ hlast
  have hwgc := withinGoalConstraints_of_feedback n s (s.last_trajectory_state_map g)
    gh.getGoal.trajectory g fb last hfb hlast
  constructor
  · intro hw
    rw [hw] at hwgc
    rw [goalCB_valid_idle n s gh g hpts hsim hidle true hwgc]
    simp only [if_true]
    rw [update_same_value s.has_active_goal_map g false hidle]
  · intro hw
    rw [hw] at hwgc
    refine ⟨_, ?_, ?_, ?_, ?_, rfl⟩
    · rw [goalCB_valid_idle n s gh g hpts hsim hidle false hwgc]
      simp
    · simp
    · simp
    · simp

theorem goalCB_idle_valid_witness :
    (∃ s1, goalCB Scenario.node Scenario.sFed Scenario.gh1 0 =
          some (s1, [Effect.setAccepted Scenario.gh1,
                     Effect.publish 0 (dynTrajOf Scenario.node Scenario.gh1 0)]) ∧
        s1.has_active_goal_map 0 = true ∧
        s1.active_goal_map 0 = some Scenario.gh1 ∧
        s1.current_traj_map 0 = Scenario.gh1.getGoal.trajectory ∧
        s1 = { Scenario.sFed with
                 active_goal_map :=
                   Function.update Scenario.sFed.active_goal_map 0 (some Scenario.gh1)
                 has_active_goal_map :=
                   Function.update Scenario.sFed.has_active_goal_map 0 true
                 current_traj_map :=
                   Function.update Scenario.sFed.current_traj_map 0
                     Scenario.gh1.getGoal.trajectory }) :=
  (goalCB_idle_valid Scenario.node Scenario.sFed Scenario.gh1 0 Scenario.fbStart
    ⟨[1, 2], [], [], [], 2000000000⟩
    (by decide) (by decide) (by decide) (by decide)).2 (by decide!)

/-- C1: per-group translation.  For a valid goal (with a last point `last`, and
joint names similar to the group's) of which the latest feedback `fb` is not
within tolerance, the last two calls of `goalCB(gh, group_number)` are the
accept of the goal and the publication of one trajectory `t` on the group's
topic (preceded only by the abort of a previously active goal); `t` has the
input's header and joint names and one point per input point, in order; the
point at index `i` has `num_groups = 1` and exactly one group, whose four
channels equal the input point's channel when that is non-empty and a zero
vector of the group's joint count otherwise, whose `group_number` is the target
group, whose `num_joints` is the group's joint count and whose
`time_from_start` is the input point's. -/
theorem goalCB_translation (n : Node) (s : State) (gh : GoalHandle) (g : Nat)
    (fb : FollowJointTrajectoryFeedback) (last : JointTrajectoryPoint)
    (hlast : gh.getGoal.trajectory.points.getLast? = some last)
    (hsim : n.lib.isSimilar (n.group g).joint_names gh.getGoal.trajectory.joint_names = true)
    (hfb : s.last_trajectory_state_map g = some fb)
    (hnot : n.lib.isWithinRange (n.group g).joint_names fb.actual.positions
        gh.getGoal.trajectory.joint_names last.positions n.goal_threshold = false) :
    ∃ s1 pre t,
      goalCB n s gh g = some (s1, pre ++ [Effect.setAccepted gh, Effect.publish g t]) ∧
      pre = (if s.has_active_goal_map g = true then (abortGoal s g).2 else []) ∧
      t.header = gh.getGoal.trajectory.header ∧
      t.joint_names = gh.getGoal.trajectory.joint_names ∧
      t.points.length = gh.getGoal.trajectory.points.length ∧
      ∀ (i : Nat) (p : JointTrajectoryPoint), gh.getGoal.trajectory.points[i]? = some p →
        ∃ grp : DynamicJointsGroup,
          t.points[i]? = some (DynamicJointPoint.mk 1 [grp]) ∧
          grp.positions =
            (if p.positions = [] then List.replicate (n.group g).joint_names.length 0
             else p.positions) ∧
          grp.velocities =
            (if p.velocities = [] then List.replicate (n.group g).joint_names.length 0
             else p.velocities) ∧
          grp.accelerations =
            (if p.accelerations = [] then List.replicate (n.group g).joint_names.length 0
             else p.accelerations) ∧
          grp.effort =
            (if p.effort = [] then List.replicate (n.group g).joint_names.length 0
             else p.effort) ∧
          grp.group_number = g ∧
          grp.num_joints = (n.group g).joint_names.length ∧
          grp.time_from_start = p.time_from_start := by
  have hpts := ne_nil_of_getLast? _ _ hlast
  have hw := withinGoalConstraints_of_feedback n s (s.last_trajectory_state_map g)
    gh.getGoal.trajectory g fb last hfb hlast
  rw [hnot] at hw
  have hcall : ∃ s1, goalCB n s gh g =
      some (s1, (if s.has_active_goal_map g = true then (abortGoal s g).2 else [])
                  ++ [Effect.setAccepted gh, Effect.publish g (dynTrajOf n gh g)]) := by
    cases hact : s.has_active_goal_map g
    · exact ⟨{ s with
                 active_goal_map := Function.update s.active_goal_map g (some gh)
                 has_active_goal_map := Function.update s.has_active_goal_map g true
                 current_traj_map :=
                   Function.update s.current_traj_map g gh.getGoal.trajectory },
        by rw [goalCB_valid_idle n s gh g hpts hsim hact false hw]; simp⟩
    · exact ⟨{ s with
                 active_goal_map := Function.update s.active_goal_map g (some gh)
                 has_active_goal_map :=
                   Function.update (Function.update s.has_active_goal_map g false) g true
                 current_traj_map :=
                   Function.update s.current_traj_map g gh.getGoal.trajectory },
        by rw [goalCB_valid_active n s gh g hpts hsim hact false hw]; simp⟩
  obtain ⟨s1, hs1⟩ := hcall
  refine ⟨s1, _, dynTrajOf n gh g, hs1, rfl, rfl, rfl, ?_, ?_⟩
  · simp [dynTrajOf]
  · intro i p hp
    refine ⟨{ group_number := g
              num_joints := (n.group g).joint_names.length
              positions := channelOrZeros (n.group g).joint_names.length p.positions
              velocities := channelOrZeros (n.group g).joint_names.length p.velocities
              accelerations := channelOrZeros (n.group g).joint_names.length p.accelerations
              effort := channelOrZeros (n.group g).joint_names.length p.effort
              time_from_start := p.time_from_start }, ?_, ?_, ?_, ?_, ?_, rfl, rfl, rfl⟩
    · simp only [dynTrajOf, List.getElem?_map, hp, Option.map_some', dynPointOf]
    · exact channelOrZeros_eq _ _
    · exact channelOrZeros_eq _ _
    · exact channelOrZeros_eq _ _
    · exact channelOrZeros_eq _ _

theorem goalCB_translation_witness :
    ∃ s1 pre t,
      goalCB Scenario.node Scenario.sActive Scenario.gh2 0 =
        some (s1, pre ++ [Effect.setAccepted Scenario.gh2, Effect.publish 0 t]) ∧
      pre = [Effect.publish 0 emptyTrajectory, Effect.setAborted Scenario.gh1] ∧
      t.header = Scenario.T2.header ∧
      t.joint_names = ["j2", "j1"] ∧
      t.points = [{ num_groups := 1
                    groups := [{ group_number := 0, num_joints := 2, positions := [4, 3]
                                 velocities := [1, 1], accelerations := [0, 0]
                                 effort := [0, 0], time_from_start := 1000000000 }] }] := by
  obtain ⟨s1, pre, t, h1, h2, h3, h4, h5, h6⟩ :=
    goalCB_translation Scenario.node Scenario.sActive Scenario.gh2 0 Scenario.fbStart
      ⟨[4, 3], [1, 1], [], [], 1000000000⟩ (by decide) (by decide) (by decide) (by decide!)
  refine ⟨s1, pre, t, h1, ?_, h3, h4, ?_⟩
  · rw [h2]
    rfl
  · obtain ⟨grp, hg, p1, p2, p3, p4, p5, p6, p7⟩ :=
      h6 0 ⟨[4, 3], [1, 1], [], [], 1000000000⟩ rfl
    have hlen : t.points.length = 1 := h5
    match hpt : t.points, hlen with
    | [x], _ =>
        rw [hpt] at hg
        simp only [List.getElem?_cons_zero, Option.some.injEq] at hg
        subst hg
        obtain ⟨a, b, c, d, e, f, k⟩ := grp
        simp only at p1 p2 p3 p4 p5 p6 p7
        subst p1 p2 p3 p4 p5 p6 p7
        simp [Scenario.node, Node.group, Scenario.G0]

/-- What `goalCB(gh, group_number)` does on a group that is ACTIVE with goal
`a` and has a latest feedback message `fb`, for a goal with a last point `last`
and joint names similar to the group's, when the library check on the group's
joint names and the positions of `fb` answers false: it publishes an empty
trajectory on the group's topic, marks `a` aborted, accepts `gh` and publishes
the message it builds for `gh`; afterwards `gh` and its trajectory are stored
and the active flag is set. -/
theorem goalCB_preempts (n : Node) (s : State) (a gh : GoalHandle) (g : Nat)
    (fb : FollowJointTrajectoryFeedback) (last : JointTrajectoryPoint)
    (hact : s.has_active_goal_map g = true)
    (hgoal : s.active_goal_map g = some a)
    (hlast : gh.getGoal.trajectory.points.getLast? = some last)
    (hsim : n.lib.isSimilar (n.group g).joint_names gh.getGoal.trajectory.joint_names = true)
    (hfb : s.last_trajectory_state_map g = some fb)
    (hnot : n.lib.isWithinRange (n.group g).joint_names fb.actual.positions
        gh.getGoal.trajectory.joint_names last.positions n.goal_threshold = false) :
    ∃ s1, goalCB n s gh g =
        some (s1, [Effect.publish g emptyTrajectory, Effect.setAborted a,
                   Effect.setAccepted gh, Effect.publish g (dynTrajOf n gh g)]) ∧
      emptyTrajectory.points = [] ∧
      s1.has_active_goal_map g = true ∧
      s1.active_goal_map g = some gh ∧
      s1.current_traj_map g = gh.getGoal.trajectory := by
  have hpts := ne_nil_of_getLast? _ _ hlast
  have hw := withinGoalConstraints_of_feedback n s (s.last_trajectory_state_map g)
    gh.getGoal.trajectory g fb last hfb hlast
  rw [hnot] at hw
  refine ⟨{ s with
              active_goal_map := Function.update s.active_goal_map g (some gh)
              has_active_goal_map :=
                Function.update (Function.update s.has_active_goal_map g false) g true
              current_traj_map :=
                Function.update s.current_traj_map g gh.getGoal.trajectory },
    ?_, rfl, ?_, ?_, ?_⟩
  · rw [goalCB_valid_active n s gh g hpts hsim hact false hw]
    simp [abortGoal, hgoal, onHandle]
  · simp
  · simp
  · simp

theorem goalCB_preempts_witness :
    ∃ s1, goalCB Scenario.node Scenario.sActive Scenario.gh2 0 =
        some (s1, [Effect.publish 0 emptyTrajectory, Effect.setAborted Scenario.gh1,
                   Effect.setAccepted Scenario.gh2,
                   Effect.publish 0 (dynTrajOf Scenario.node Scenario.gh2 0)]) ∧
      emptyTrajectory.points = [] ∧
      s1.has_active_goal_map 0 = true ∧
      s1.active_goal_map 0 = some Scenario.gh2 ∧
      s1.current_traj_map 0 = Scenario.gh2.getGoal.trajectory :=
  goalCB_preempts Scenario.node Scenario.sActive Scenario.gh1 Scenario.gh2 0
    Scenario.fbStart ⟨[4, 3], [1, 1], [], [], 1000000000⟩
    (by decide) (by decide) (by decide) (by decide) (by decide) (by decide!)

/-! ## Feedback, cancel and motion reply -/

/-- What `controllerStateCB(msg, robot_id)` does on a group that is ACTIVE with
goal `a`, for a message whose joint names are similar to the group's, by the
answer of the library check on the group's joint names and the positions of
the message against the last point of `current_traj`: on true it marks `a`
succeeded and clears the active flag if no robot status has been received or
the latest one has `in_motion` equal to `FALSE` or `UNKNOWN`, and makes no call
with `in_motion = TRUE`; on false it makes no call.  In every case the message
becomes the latest feedback and the feedback flag of the group is set. -/
theorem controllerStateCB_active (n : Node) (s : State) (a : GoalHandle)
    (msg : FollowJointTrajectoryFeedback) (g : Nat) (last : JointTrajectoryPoint)
    (hact : s.has_active_goal_map g = true)
    (hgoal : s.active_goal_map g = some a)
    (hlast : (s.current_traj_map g).points.getLast? = some last)
    (hsim : n.lib.isSimilar (n.group g).joint_names msg.joint_names = true) :
    (n.lib.isWithinRange (n.group g).joint_names msg.actual.positions
        (s.current_traj_map g).joint_names last.positions n.goal_threshold = true →
      ((s.last_robot_status = none ∨ s.last_robot_status = some ⟨TriState.FALSE⟩ ∨
          s.last_robot_status = some ⟨TriState.UNKNOWN⟩) →
        controllerStateCB n s msg g =
          some ({ s with
                    last_trajectory_state_map :=
                      Function.update s.last_trajectory_state_map g (some msg)
                    trajectory_state_recvd_map :=
                      Function.update s.trajectory_state_recvd_map g true
                    has_active_goal_map := Function.update s.has_active_goal_map g false },
                [Effect.setSucceeded a])) ∧
      (s.last_robot_status = some ⟨TriState.TRUE⟩ →
        controllerStateCB n s msg g =
          some ({ s with
                    last_trajectory_state_map :=
                      Function.update s.last_trajectory_state_map g (some msg)
                    trajectory_state_recvd_map :=
                      Function.update s.trajectory_state_recvd_map g true },
                []))) ∧
    (n.lib.isWithinRange (n.group g).joint_names msg.actual.positions
        (s.current_traj_map g).joint_names last.positions n.goal_threshold = false →
      controllerStateCB n s msg g =
        some ({ s with
                  last_trajectory_state_map :=
                    Function.update s.last_trajectory_state_map g (some msg)
                  trajectory_state_recvd_map :=
                    Function.update s.trajectory_state_recvd_map g true },
              [])) := by
  have hne := isEmpty_false_of_getLast? _ _ hlast
  have hidx := getElem?_length_sub_one _ _ hlast
  refine ⟨fun hw => ⟨?_, ?_⟩, fun hw => ?_⟩
  · rintro (h | h | h) <;>
      simp [controllerStateCB, withinGoalConstraints, hact, hgoal, hne, hidx, hsim, hw, h,
        onHandle, TriState.FALSE, TriState.UNKNOWN]
  · intro h
    simp [controllerStateCB, withinGoalConstraints, hact, hgoal, hne, hidx, hsim, hw, h,
      onHandle, TriState.FALSE, TriState.UNKNOWN, TriState.TRUE]
  · simp [controllerStateCB, withinGoalConstraints, hact, hgoal, hne, hidx, hsim, hw]

theorem controllerStateCB_active_witness :
    controllerStateCB Scenario.node Scenario.sActive Scenario.fbEnd 0 =
      some ({ Scenario.sActive with
                last_trajectory_state_map :=
                  Function.update Scenario.sActive.last_trajectory_state_map 0
                    (some Scenario.fbEnd)
                trajectory_state_recvd_map :=
                  Function.update Scenario.sActive.trajectory_state_recvd_map 0 true
                has_active_goal_map :=
                  Function.update Scenario.sActive.has_active_goal_map 0 false },
            [Effect.setSucceeded Scenario.gh1]) :=
  ((controllerStateCB_active Scenario.node Scenario.sActive Scenario.gh1 Scenario.fbEnd 0
      ⟨[1, 2], [], [], [], 2000000000⟩ (by decide) (by decide) (by decide) (by decide)).1
    (by decide!)).1 (Or.inl rfl)

/-- C7: cancel on a group whose stored goal handle is `a`, as on every ACTIVE
group.  If `gh` is the active handle, the callback publishes exactly one trajectory on the group's topic,
with no points and the group's joint names, marks the goal canceled, and the
group becomes IDLE; if `gh` is another handle, nothing is published, no call is
made on a goal and the members are unchanged, also after any number of such
cancels. -/
theorem cancelCB_active (n : Node) (s : State) (a gh : GoalHandle) (g : Nat)
    (hgoal : s.active_goal_map g = some a) :
    (gh.goal_id = a.goal_id →
      cancelCB n s gh g =
        some ({ s with has_active_goal_map := Function.update s.has_active_goal_map g false },
              [Effect.publish g { header := default
                                  joint_names := (n.group g).joint_names
                                  points := [] },
               Effect.setCanceled a])) ∧
    (gh.goal_id ≠ a.goal_id →
      cancelCB n s gh g = some (s, []) ∧
      ∀ k, run n s (List.replicate k (Event.cancel gh g)) = some (s, [])) := by
  constructor
  · intro h
    simp [cancelCB, handleEq, hgoal, h, onHandle, emptyTrajectory]
    exact ⟨rfl, rfl⟩
  · intro h
    have h1 : cancelCB n s gh g = some (s, []) := by
      have h2 : ¬ a.goal_id = gh.goal_id := fun e => h e.symm
      simp [cancelCB, handleEq, hgoal, h2]
    refine ⟨h1, fun k => ?_⟩
    induction k with
    | zero => rfl
    | succ k ih => simp [List.replicate_succ, run, step, h1, ih]

theorem cancelCB_active_witness :
    cancelCB Scenario.node Scenario.sActive Scenario.gh1 0 =
      some ({ Scenario.sActive with
                has_active_goal_map :=
                  Function.update Scenario.sActive.has_active_goal_map 0 false },
            [Effect.publish 0 { header := default, joint_names := ["j1", "j2"], points := [] },
             Effect.setCanceled Scenario.gh1]) ∧
    run Scenario.node Scenario.sActive (List.replicate 3 (Event.cancel Scenario.gh2 0)) =
      some (Scenario.sActive, []) :=
  ⟨(cancelCB_active Scenario.node Scenario.sActive Scenario.gh1 Scenario.gh1 0 rfl).1 rfl,
   ((cancelCB_active Scenario.node Scenario.sActive Scenario.gh1 Scenario.gh2 0 rfl).2
      (by decide)).2 3⟩

/-- C8: motion reply.  For an ACTIVE group with active goal `a`, a reply with
`val` equal to `INVALID` or `NOT_READY` marks `a` rejected and makes the group
IDLE without publishing; a reply with any other `val` than `SUCCESS` performs
the abort action (one empty trajectory published on the group's topic, `a`
marked aborted, group IDLE); a reply with `val = SUCCESS` makes no call and
changes nothing.  For an IDLE group every reply makes no call and changes
nothing. -/
theorem motionReplyCB_cases (s : State) (msg : MotionReplyResult) (g : Nat) :
    (∀ a, s.has_active_goal_map g = true → s.active_goal_map g = some a →
      ((msg.val = MotionReplyResult.INVALID ∨ msg.val = MotionReplyResult.NOT_READY) →
        motionReplyCB s msg g =
          some ({ s with has_active_goal_map :=
                    Function.update s.has_active_goal_map g false },
                [Effect.setRejected a FollowJointTrajectoryResult.SUCCESSFUL ""])) ∧
      (msg.val ≠ MotionReplyResult.INVALID → msg.val ≠ MotionReplyResult.NOT_READY →
        msg.val ≠ MotionReplyResult.SUCCESS →
        motionReplyCB s msg g =
          some ({ s with has_active_goal_map :=
                    Function.update s.has_active_goal_map g false },
                [Effect.publish g emptyTrajectory, Effect.setAborted a]) ∧
        emptyTrajectory.points = []) ∧
      (msg.val = MotionReplyResult.SUCCESS → motionReplyCB s msg g = some (s, []))) ∧
    (s.has_active_goal_map g = false → motionReplyCB s msg g = some (s, [])) := by
  refine ⟨fun a hact hgoal => ⟨?_, ?_, ?_⟩, ?_⟩
  · intro h
    simp [motionReplyCB, hact, hgoal, h, onHandle]
  · intro h1 h2 h3
    simp [motionReplyCB, hact, hgoal, h1, h2, h3, onHandle, abortGoal]
    rfl
  · intro h
    simp [motionReplyCB, hact, h, MotionReplyResult.SUCCESS, MotionReplyResult.INVALID,
      MotionReplyResult.NOT_READY]
  · intro h
    simp [motionReplyCB, h]

theorem motionReplyCB_cases_witness :
    motionReplyCB Scenario.sActive ⟨MotionReplyResult.NOT_READY⟩ 0 =
      some ({ Scenario.sActive with
                has_active_goal_map :=
                  Function.update Scenario.sActive.has_active_goal_map 0 false },
            [Effect.setRejected Scenario.gh1 FollowJointTrajectoryResult.SUCCESSFUL ""]) ∧
    motionReplyCB Scenario.sFed ⟨MotionReplyResult.NOT_READY⟩ 0 = some (Scenario.sFed, []) :=
  ⟨((motionReplyCB_cases Scenario.sActive ⟨MotionReplyResult.NOT_READY⟩ 0).1 Scenario.gh1
      (by decide) (by decide)).1 (Or.inr rfl),
   (motionReplyCB_cases Scenario.sFed ⟨MotionReplyResult.NOT_READY⟩ 0).2 (by decide)⟩

/-! ## Fan-out goal callback -/

theorem Node.getElem?_group (n : Node) (j : Nat) (h : j < n.robot_groups.length) :
    n.robot_groups[j]? = some (n.group j) := by
  simp [Node.group, List.getD_eq_getElem?_getD, List.getElem?_eq_getElem h]

theorem Node.group_mem (n : Node) (j : Nat) (h : j < n.robot_groups.length) :
    n.group j ∈ n.robot_groups := by
  have h1 := n.getElem?_group j h
  rw [List.getElem?_eq_getElem h, Option.some.injEq] at h1
  rw [← h1]
  exact List.getElem_mem h

theorem FanOut.channel_length (num_joints ros_idx : Nat) (c r : List Scalar)
    (h : FanOut.channel num_joints ros_idx num_joints c = some r) : r.length = num_joints := by
  unfold FanOut.channel at h
  split at h
  · simp only [Option.some.injEq] at h
    subst h
    simp [zeros]
  · unfold FanOut.sliceRange at h
    split at h
    · simp only [Option.some.injEq] at h
      subst h
      simp only [List.length_take, List.length_drop]
      omega
    · simp at h

theorem FanOut.channel_total (num_joints ros_idx len : Nat) (c : List Scalar)
    (hc : c = [] ∨ c.length = len) (hk : ros_idx + num_joints ≤ len) :
    ∃ r, FanOut.channel num_joints ros_idx num_joints c = some r := by
  unfold FanOut.channel
  split
  · exact ⟨_, rfl⟩
  · rename_i hne
    rcases hc with hc | hc
    · simp [hc] at hne
    · unfold FanOut.sliceRange
      rw [if_pos (by omega)]
      exact ⟨_, rfl⟩

theorem FanOut.dynGroupOf_lengths (n : Node) (traj : JointTrajectory)
    (p : JointTrajectoryPoint) (j : Nat) (grp : DynamicJointsGroup)
    (h : FanOut.dynGroupOf n traj p j = some grp) :
    grp.positions.length = (n.group j).joint_names.length ∧
    grp.velocities.length = (n.group j).joint_names.length ∧
    grp.accelerations.length = (n.group j).joint_names.length ∧
    grp.effort.length = (n.group j).joint_names.length := by
  unfold FanOut.dynGroupOf at h
  split at h
  · simp at h
  · simp only at h
    split at h
    · split at h
      · rename_i h1 h2 h3 h4
        simp only [Option.some.injEq] at h
        subst h
        exact ⟨FanOut.channel_length _ _ _ _ h1, FanOut.channel_length _ _ _ _ h2,
          FanOut.channel_length _ _ _ _ h3, FanOut.channel_length _ _ _ _ h4⟩
      · simp at h
    · simp only [Option.some.injEq] at h
      subst h
      simp [zeros]

theorem FanOut.dynGroupOf_total (n : Node) (traj : JointTrajectory)
    (p : JointTrajectoryPoint) (j : Nat)
    (hname : (n.group j).joint_names ≠ [])
    (hp : (p.positions = [] ∨ p.positions.length = traj.joint_names.length) ∧
          (p.velocities = [] ∨ p.velocities.length = traj.joint_names.length) ∧
          (p.accelerations = [] ∨ p.accelerations.length = traj.joint_names.length) ∧
          (p.effort = [] ∨ p.effort.length = traj.joint_names.length))
    (hk : ∀ first ∈ traj.joint_names, (n.group j).joint_names.head? = some first →
          traj.joint_names.indexOf first + (n.group j).joint_names.length
            ≤ traj.joint_names.length) :
    ∃ grp, FanOut.dynGroupOf n traj p j = some grp := by
  unfold FanOut.dynGroupOf
  split
  · rename_i hnone
    simp only [List.head?_eq_none_iff] at hnone
    exact absurd hnone hname
  · rename_i first hfirst
    simp only
    split
    · rename_i hfound
      have hmem : first ∈ traj.joint_names :=
        List.indexOf_lt_length.mp (of_decide_eq_true hfound)
      have hb := hk first hmem hfirst
      obtain ⟨r1, h1⟩ := FanOut.channel_total _ _ _ p.positions hp.1 hb
      obtain ⟨r2, h2⟩ := FanOut.channel_total _ _ _ p.velocities hp.2.1 hb
      obtain ⟨r3, h3⟩ := FanOut.channel_total _ _ _ p.accelerations hp.2.2.1 hb
      obtain ⟨r4, h4⟩ := FanOut.channel_total _ _ _ p.effort hp.2.2.2 hb
      rw [h1, h2, h3, h4]
      exact ⟨_, rfl⟩
    · exact ⟨_, rfl⟩

/-- C2: fan-out dimensionality.  Whenever `goalCB(gh)` publishes for an input
trajectory with `n` points and a registry of `m` groups, it accepts the goal and
publishes one trajectory with exactly `n` points, each with exactly `m` groups
and `num_groups = m`, and in the `j`-th group of a point each of positions,
velocities, accelerations and effort has the length of the joint count of the
`j`-th registry group.  It does publish for every input that meets the data
model: every group has a joint, every channel of every point is empty or as
long as `joint_names`, and the joints of a group whose first joint is named
fit into `joint_names` from that index on. -/
theorem FanOut.goalCB_dimensions (n : Node) (s : State) (now : Nat) (gh : GoalHandle) :
    (∀ s1 effs, FanOut.goalCB n s now gh = some (s1, effs) →
      ∃ out, effs = [Effect.setAccepted gh, Effect.publishCommand out] ∧
        out.points.length = gh.getGoal.trajectory.points.length ∧
        ∀ pt ∈ out.points,
          pt.groups.length = n.robot_groups.length ∧
          pt.num_groups = n.robot_groups.length ∧
          ∀ (j : Nat) (grp : DynamicJointsGroup), pt.groups[j]? = some grp →
            ∃ rg, n.robot_groups[j]? = some rg ∧
              grp.positions.length = rg.joint_names.length ∧
              grp.velocities.length = rg.joint_names.length ∧
              grp.accelerations.length = rg.joint_names.length ∧
              grp.effort.length = rg.joint_names.length) ∧
    ((∀ rg ∈ n.robot_groups, rg.joint_names ≠ []) →
     (∀ p ∈ gh.getGoal.trajectory.points,
        (p.positions = [] ∨ p.positions.length = gh.getGoal.trajectory.joint_names.length) ∧
        (p.velocities = [] ∨ p.velocities.length = gh.getGoal.trajectory.joint_names.length) ∧
        (p.accelerations = [] ∨
          p.accelerations.length = gh.getGoal.trajectory.joint_names.length) ∧
        (p.effort = [] ∨ p.effort.length = gh.getGoal.trajectory.joint_names.length)) →
     (∀ rg ∈ n.robot_groups, ∀ first ∈ gh.getGoal.trajectory.joint_names,
        rg.joint_names.head? = some first →
        gh.getGoal.trajectory.joint_names.indexOf first + rg.joint_names.length
          ≤ gh.getGoal.trajectory.joint_names.length) →
     ∃ s1 effs, FanOut.goalCB n s now gh = some (s1, effs)) := by
  constructor
  · intro s1 effs h
    unfold FanOut.goalCB at h
    split at h
    · simp at h
    · rename_i out hout
      simp only [Option.some.injEq, Prod.mk.injEq] at h
      refine ⟨out, h.2.symm, ?_⟩
      unfold FanOut.dynTrajOf at hout
      split at hout
      · simp at hout
      · rename_i pts hpts
        simp only [Option.some.injEq] at hout
        subst hout
        obtain ⟨hlen, hget⟩ := forPush_some _ _ _ hpts
        refine ⟨hlen, ?_⟩
        intro pt hpt
        obtain ⟨i, hi⟩ := List.getElem?_of_mem hpt
        obtain ⟨p, -, hp⟩ := hget i pt hi
        unfold FanOut.dynPointOf at hp
        split at hp
        · simp at hp
        · rename_i grps hgrps
          simp only [Option.some.injEq] at hp
          subst hp
          obtain ⟨hl, hg⟩ := forPush_some _ _ _ hgrps
          simp only [List.length_range] at hl
          refine ⟨hl, hl, ?_⟩
          intro j grp hj
          obtain ⟨x, hx, hbody⟩ := hg j grp hj
          have hjlt : j < n.robot_groups.length := by
            have := (List.getElem?_eq_some_iff.mp hx).1
            simpa using this
          have hxj : x = j := by
            have := (List.getElem?_eq_some_iff.mp hx).2
            simpa using this.symm
          subst hxj
          exact ⟨n.group x, n.getElem?_group x hjlt, FanOut.dynGroupOf_lengths n _ p x grp hbody⟩
  · intro hname hchan hfit
    have hpts : ∃ pts, forPush (FanOut.dynPointOf n gh.getGoal.trajectory)
        gh.getGoal.trajectory.points = some pts := by
      apply forPush_total
      intro p hp
      have hgr : ∃ grps, forPush (FanOut.dynGroupOf n gh.getGoal.trajectory p)
          (List.range n.robot_groups.length) = some grps := by
        apply forPush_total
        intro j hj
        have hjlt : j < n.robot_groups.length := List.mem_range.mp hj
        have hmem := n.group_mem j hjlt
        exact FanOut.dynGroupOf_total n _ p j (hname _ hmem) (hchan p hp) (hfit _ hmem)
      obtain ⟨grps, hgrps⟩ := hgr
      exact ⟨{ num_groups := grps.length, groups := grps },
        by simp [FanOut.dynPointOf, hgrps]⟩
    obtain ⟨pts, hpts⟩ := hpts
    exact ⟨s, [Effect.setAccepted gh,
        Effect.publishCommand
          { header := { gh.getGoal.trajectory.header with stamp := now }
            joint_names := n.all_joint_names
            points := pts }],
      by simp [FanOut.goalCB, FanOut.dynTrajOf, hpts]⟩

theorem FanOut.goalCB_dimensions_witness :
    ∃ s1 effs, FanOut.goalCB Scenario.node2 State.init 7 Scenario.ghFan = some (s1, effs) ∧
      ∃ out, effs = [Effect.setAccepted Scenario.ghFan, Effect.publishCommand out] ∧
        out.points.length = 1 ∧
        ∀ pt ∈ out.points, pt.groups.length = 2 ∧ pt.num_groups = 2 ∧
          ∀ (j : Nat) (grp : DynamicJointsGroup), pt.groups[j]? = some grp →
            ∃ rg, Scenario.node2.robot_groups[j]? = some rg ∧
              grp.positions.length = rg.joint_names.length ∧
              grp.velocities.length = rg.joint_names.length ∧
              grp.accelerations.length = rg.joint_names.length ∧
              grp.effort.length = rg.joint_names.length := by
  obtain ⟨s1, effs, h⟩ :=
    (FanOut.goalCB_dimensions Scenario.node2 State.init 7 Scenario.ghFan).2
      (by decide) (by decide) (by decide)
  exact ⟨s1, effs, h,
    (FanOut.goalCB_dimensions Scenario.node2 State.init 7 Scenario.ghFan).1 s1 effs h⟩

/-! ## Watchdog -/

/-- C9: the run that the claim excludes.  Group 0 receives one feedback
message, then the goal `gh1` (accepted, ACTIVE), then two watchdog ticks with
no event in between: after the second tick the group is still ACTIVE with
`gh1`, no abort was made and nothing but the goal's translation was published;
the feedback flag of the group is still set, because the tick clears the
member `trajectory_state_recvd_` instead. -/
theorem watchdog_second_tick_keeps_goal :
    ∃ s, run Scenario.node State.init
          [Event.feedback Scenario.fbStart 0, Event.goal Scenario.gh1 0,
           Event.watchdog 0, Event.watchdog 0] =
        some (s, [Effect.setAccepted Scenario.gh1,
                  Effect.publish 0 (dynTrajOf Scenario.node Scenario.gh1 0)]) ∧
      s.has_active_goal_map 0 = true ∧
      s.active_goal_map 0 = some Scenario.gh1 ∧
      s.trajectory_state_recvd_map 0 = true := by
  have h : (run Scenario.node State.init
          [Event.feedback Scenario.fbStart 0, Event.goal Scenario.gh1 0,
           Event.watchdog 0, Event.watchdog 0]).map
        (fun r => (r.2, r.1.has_active_goal_map 0, r.1.active_goal_map 0,
                   r.1.trajectory_state_recvd_map 0)) =
      some ([Effect.setAccepted Scenario.gh1,
             Effect.publish 0 (dynTrajOf Scenario.node Scenario.gh1 0)],
            true, some Scenario.gh1, true) := by decide!
  match hr : run Scenario.node State.init
          [Event.feedback Scenario.fbStart 0, Event.goal Scenario.gh1 0,
           Event.watchdog 0, Event.watchdog 0], h with
  | some (s, tr), h =>
      simp only [Option.map_some', Option.some.injEq, Prod.mk.injEq] at h
      obtain ⟨h1, h2, h3, h4⟩ := h
      subst h1
      exact ⟨s, rfl, h2, h3, h4⟩

/-! ## Call histories of goal handles -/

theorem history_append (h : Nat) (tr e : List Effect) :
    history h (tr ++ e) = history h tr ++ history h e := by
  simp [history, List.filter_append]

theorem TraceInv.init : TraceInv (fun _ => false) (fun _ => none) [] [] where
  stored_of_active := by intro g h; simp at h
  stored_hist := by intro g a h; simp at h
  stored_inj := by intro g1 g2 a1 a2 h; simp at h
  unseen := by intro h _; rfl
  life := by intro h; exact Or.inl rfl

theorem TraceInv.stored_ne_nil {has : Nat → Bool} {stored : Nat → Option GoalHandle}
    {tr : List Effect} {seen : List Nat} (inv : TraceInv has stored tr seen)
    (g : Nat) (a : GoalHandle) (ha : stored g = some a) : history a.goal_id tr ≠ [] := by
  rcases inv.stored_hist g a ha with ⟨-, h⟩ | ⟨-, t, -, h⟩ <;> simp [h]

theorem TraceInv.stored_seen {has : Nat → Bool} {stored : Nat → Option GoalHandle}
    {tr : List Effect} {seen : List Nat} (inv : TraceInv has stored tr seen)
    (g : Nat) (a : GoalHandle) (ha : stored g = some a) : a.goal_id ∈ seen := by
  by_contra hn
  exact inv.stored_ne_nil g a ha (inv.unseen _ hn)

/-- Calls that are made on no goal handle, and more submitted ids, keep the
invariant. -/
theorem TraceInv.frame {has : Nat → Bool} {stored : Nat → Option GoalHandle}
    {tr : List Effect} {seen : List Nat} (inv : TraceInv has stored tr seen)
    (e1 : List Effect) (seen1 : List Nat) (he : ∀ h, history h e1 = [])
    (hs : ∀ h, h ∈ seen → h ∈ seen1) : TraceInv has stored (tr ++ e1) seen1 where
  stored_of_active := inv.stored_of_active
  stored_hist := by
    intro g a ha
    simpa [history_append, he] using inv.stored_hist g a ha
  stored_inj := inv.stored_inj
  unseen := by
    intro h hh
    simpa [history_append, he] using inv.unseen h (fun hm => hh (hs h hm))
  life := by
    intro h
    simpa [history_append, he] using inv.life h

/-- A terminal call on the active goal of group `g`, with the active flag
cleared, keeps the invariant. -/
theorem TraceInv.terminate {has : Nat → Bool} {stored : Nat → Option GoalHandle}
    {tr : List Effect} {seen : List Nat} (inv : TraceInv has stored tr seen)
    (g : Nat) (a : GoalHandle) (t : Effect) (e1 : List Effect)
    (hact : has g = true) (ha : stored g = some a) (ht : t ∈ terminalsOf a)
    (he : ∀ h, history h e1 = if h = a.goal_id then [t] else []) :
    TraceInv (Function.update has g false) stored (tr ++ e1) seen where
  stored_of_active := by
    intro g1 h1
    by_cases hg : g1 = g
    · subst hg; simp at h1
    · rw [Function.update_noteq hg] at h1
      exact inv.stored_of_active g1 h1
  stored_hist := by
    intro g1 a1 ha1
    by_cases hg : g1 = g
    · subst hg
      rw [ha] at ha1
      simp only [Option.some.injEq] at ha1
      subst ha1
      right
      rcases inv.stored_hist g1 a ha with ⟨-, h⟩ | ⟨hf, -⟩
      · exact ⟨by simp, t, ht, by simp [history_append, h, he]⟩
      · rw [hact] at hf; simp at hf
    · have hid : a1.goal_id ≠ a.goal_id := fun e => hg (inv.stored_inj g1 g a1 a ha1 ha e)
      rw [Function.update_noteq hg]
      simpa [history_append, he, hid] using inv.stored_hist g1 a1 ha1
  stored_inj := inv.stored_inj
  unseen := by
    intro h hh
    have hid : h ≠ a.goal_id := fun e => hh (e ▸ inv.stored_seen g a ha)
    simpa [history_append, he, hid] using inv.unseen h hh
  life := by
    intro h
    by_cases hid : h = a.goal_id
    · subst hid
      right; right; right
      rcases inv.stored_hist g a ha with ⟨-, h1⟩ | ⟨hf, -⟩
      · exact ⟨a, t, rfl, ht, by simp [history_append, h1, he]⟩
      · rw [hact] at hf; simp at hf
    · rcases inv.life h with h1 | h1 | ⟨gh, g1, h1, h2, h3, h4⟩ | h1
      · left; simpa [history_append, he, hid] using h1
      · right; left; simpa [history_append, he, hid] using h1
      · right; right; left
        have hg : g1 ≠ g := by
          intro e
          subst e
          rw [ha] at h4
          simp only [Option.some.injEq] at h4
          subst h4
          exact hid h1.symm
        exact ⟨gh, g1, h1, by simpa [history_append, he, hid] using h2,
          by rw [Function.update_noteq hg]; exact h3, h4⟩
      · right; right; right; simpa [history_append, he, hid] using h1

/-- Calls on a fresh handle that is not stored keep the invariant when they
give the handle one of the histories of `life` that need no active group. -/
theorem TraceInv.fresh_done {has : Nat → Bool} {stored : Nat → Option GoalHandle}
    {tr : List Effect} {seen : List Nat} (inv : TraceInv has stored tr seen)
    (gh : GoalHandle) (e1 hist : List Effect) (hfresh : gh.goal_id ∉ seen)
    (he : ∀ h, history h e1 = if h = gh.goal_id then hist else [])
    (hhist : (∃ code text, hist = [Effect.setRejected gh code text] ∧
                (code = FollowJointTrajectoryResult.INVALID_GOAL ∨
                 code = FollowJointTrajectoryResult.INVALID_JOINTS)) ∨
             (∃ t, t ∈ terminalsOf gh ∧ hist = [Effect.setAccepted gh, t])) :
    TraceInv has stored (tr ++ e1) (gh.goal_id :: seen) where
  stored_of_active := inv.stored_of_active
  stored_hist := by
    intro g a ha
    have hid : a.goal_id ≠ gh.goal_id := fun e => hfresh (e ▸ inv.stored_seen g a ha)
    simpa [history_append, he, hid] using inv.stored_hist g a ha
  stored_inj := inv.stored_inj
  unseen := by
    intro h hh
    simp only [List.mem_cons, not_or] at hh
    simpa [history_append, he, hh.1] using inv.unseen h hh.2
  life := by
    intro h
    by_cases hid : h = gh.goal_id
    · subst hid
      have h0 := inv.unseen _ hfresh
      rcases hhist with ⟨code, text, h1, h2⟩ | ⟨t, h1, h2⟩
      · right; left
        exact ⟨gh, code, text, rfl, by simp [history_append, he, h0, h1], h2⟩
      · right; right; right
        exact ⟨gh, t, rfl, h1, by simp [history_append, he, h0, h2]⟩
    · simpa [history_append, he, hid] using inv.life h

/-- Accepting a fresh handle and storing it as the active goal of an idle group
keeps the invariant. -/
theorem TraceInv.activate {has : Nat → Bool} {stored : Nat → Option GoalHandle}
    {tr : List Effect} {seen : List Nat} (inv : TraceInv has stored tr seen)
    (g : Nat) (gh : GoalHandle) (e1 : List Effect) (hfresh : gh.goal_id ∉ seen)
    (hidle : has g = false)
    (he : ∀ h, history h e1 = if h = gh.goal_id then [Effect.setAccepted gh] else []) :
    TraceInv (Function.update has g true) (Function.update stored g (some gh))
      (tr ++ e1) (gh.goal_id :: seen) where
  stored_of_active := by
    intro g1 h1
    by_cases hg : g1 = g
    · subst hg; exact ⟨gh, by simp⟩
    · rw [Function.update_noteq hg] at h1 ⊢
      exact inv.stored_of_active g1 h1
  stored_hist := by
    intro g1 a1 ha1
    by_cases hg : g1 = g
    · subst hg
      simp only [Function.update_same, Option.some.injEq] at ha1
      subst ha1
      left
      exact ⟨by simp, by simp [history_append, he, inv.unseen _ hfresh]⟩
    · rw [Function.update_noteq hg] at ha1 ⊢
      have hid : a1.goal_id ≠ gh.goal_id := fun e => hfresh (e ▸ inv.stored_seen g1 a1 ha1)
      simpa [history_append, he, hid] using inv.stored_hist g1 a1 ha1
  stored_inj := by
    intro g1 g2 a1 a2 h1 h2 hid
    by_cases hg1 : g1 = g <;> by_cases hg2 : g2 = g
    · rw [hg1, hg2]
    · subst hg1
      simp only [Function.update_same, Option.some.injEq] at h1
      subst h1
      rw [Function.update_noteq hg2] at h2
      exact absurd (hid ▸ inv.stored_seen g2 a2 h2) hfresh
    · subst hg2
      simp only [Function.update_same, Option.some.injEq] at h2
      subst h2
      rw [Function.update_noteq hg1] at h1
      exact absurd (hid ▸ inv.stored_seen g1 a1 h1) hfresh
    · rw [Function.update_noteq hg1] at h1
      rw [Function.update_noteq hg2] at h2
      exact inv.stored_inj g1 g2 a1 a2 h1 h2 hid
  unseen := by
    intro h hh
    simp only [List.mem_cons, not_or] at hh
    simpa [history_append, he, hh.1] using inv.unseen h hh.2
  life := by
    intro h
    by_cases hid : h = gh.goal_id
    · subst hid
      right; right; left
      exact ⟨gh, g, rfl, by simp [history_append, he, inv.unseen _ hfresh], by simp, by simp⟩
    · rcases inv.life h with h1 | h1 | ⟨a, g1, h1, h2, h3, h4⟩ | h1
      · left; simpa [history_append, he, hid] using h1
      · right; left; simpa [history_append, he, hid] using h1
      · right; right; left
        have hg : g1 ≠ g := by
          intro e
          subst e
          rw [hidle] at h3
          simp at h3
        exact ⟨a, g1, h1, by simpa [history_append, he, hid] using h2,
          by rw [Function.update_noteq hg]; exact h3,
          by rw [Function.update_noteq hg]; exact h4⟩
      · right; right; right; simpa [history_append, he, hid] using h1

theorem history_terminal (h : Nat) (a : GoalHandle) (t : Effect) (pre : List Effect)
    (ht : t ∈ terminalsOf a) (hpre : ∀ e ∈ pre, e.goalId? = none) :
    history h (pre ++ [t]) = if h = a.goal_id then [t] else [] := by
  have hpre0 : history h pre = [] := by
    simp only [history, List.filter_eq_nil_iff]
    intro e he
    simp [hpre e he]
  have hid : t.goalId? = some a.goal_id := by
    simp only [terminalsOf, List.mem_cons, List.mem_singleton, List.not_mem_nil, or_false] at ht
    rcases ht with rfl | rfl | rfl | rfl <;> rfl
  rw [history_append, hpre0]
  by_cases hh : h = a.goal_id
  · simp [history, hid, hh]
  · simp [history, hid, hh, Ne.symm hh]

theorem abortGoal_inv (s : State) (g : Nat) (tr : List Effect) (seen : List Nat)
    (inv : TraceInv s.has_active_goal_map s.active_goal_map tr seen)
    (hact : s.has_active_goal_map g = true) :
    TraceInv (abortGoal s g).1.has_active_goal_map (abortGoal s g).1.active_goal_map
      (tr ++ (abortGoal s g).2) seen := by
  obtain ⟨a, ha⟩ := inv.stored_of_active g hact
  have ht : Effect.setAborted a ∈ terminalsOf a := by simp [terminalsOf]
  have h := inv.terminate g a (Effect.setAborted a) (abortGoal s g).2 hact ha ht
    (by
      intro h
      have := history_terminal h a (Effect.setAborted a) [Effect.publish g emptyTrajectory] ht
        (by intro e he; simp only [List.mem_singleton] at he; subst he; rfl)
      simpa [abortGoal, ha, onHandle] using this)
  exact h

theorem goalCB_inv (n : Node) (s s1 : State) (gh : GoalHandle) (g : Nat)
    (tr e1 : List Effect) (seen : List Nat)
    (inv : TraceInv s.has_active_goal_map s.active_goal_map tr seen)
    (hfresh : gh.goal_id ∉ seen)
    (hstep : goalCB n s gh g = some (s1, e1)) :
    TraceInv s1.has_active_goal_map s1.active_goal_map (tr ++ e1) (gh.goal_id :: seen) := by
  have hrej : ∀ code text,
      (code = FollowJointTrajectoryResult.INVALID_GOAL ∨
        code = FollowJointTrajectoryResult.INVALID_JOINTS) →
      TraceInv s.has_active_goal_map s.active_goal_map
        (tr ++ [Effect.setRejected gh code text]) (gh.goal_id :: seen) := by
    intro code text hc
    refine inv.fresh_done gh _ [Effect.setRejected gh code text] hfresh ?_
      (Or.inl ⟨code, text, rfl, hc⟩)
    intro h
    by_cases hh : h = gh.goal_id
    · simp [history, Effect.goalId?, hh]
    · simp [history, Effect.goalId?, hh, Ne.symm hh]
  by_cases hpts : gh.getGoal.trajectory.points = []
  · have h1 := goalCB_of_no_points n s gh g hpts
    rw [h1] at hstep
    simp only [Option.some.injEq, Prod.mk.injEq] at hstep
    obtain ⟨rfl, rfl⟩ := hstep
    exact hrej _ _ (Or.inl rfl)
  · cases hsim : n.lib.isSimilar (n.group g).joint_names gh.getGoal.trajectory.joint_names
    · have h1 := goalCB_of_other_joints n s gh g hpts hsim
      rw [h1] at hstep
      simp only [Option.some.injEq, Prod.mk.injEq] at hstep
      obtain ⟨rfl, rfl⟩ := hstep
      exact hrej _ _ (Or.inr rfl)
    · -- the goal is valid: an active goal is aborted first
      have hacc : ∀ h, history h [Effect.setAccepted gh, Effect.setSucceeded gh] =
          if h = gh.goal_id then [Effect.setAccepted gh, Effect.setSucceeded gh] else [] := by
        intro h
        by_cases hh : h = gh.goal_id
        · simp [history, Effect.goalId?, hh]
        · simp [history, Effect.goalId?, hh, Ne.symm hh]
      have hpub : ∀ h, history h [Effect.setAccepted gh,
            Effect.publish g (dynTrajOf n gh g)] =
          if h = gh.goal_id then [Effect.setAccepted gh] else [] := by
        intro h
        by_cases hh : h = gh.goal_id
        · simp [history, Effect.goalId?, hh]
        · simp [history, Effect.goalId?, hh, Ne.symm hh]
      have hsucc : Effect.setSucceeded gh ∈ terminalsOf gh := by simp [terminalsOf]
      cases hw : withinGoalConstraints n s (s.last_trajectory_state_map g)
          gh.getGoal.trajectory g with
      | none =>
        have h1 : gh.getGoal.trajectory.points.isEmpty = false := by
          simpa [List.isEmpty_iff] using hpts
        have hw1 : withinGoalConstraints n
            { s with has_active_goal_map := Function.update s.has_active_goal_map g false }
            (s.last_trajectory_state_map g) gh.getGoal.trajectory g = none := by
          simp only [withinGoalConstraints] at hw ⊢
          exact hw
        cases hact : s.has_active_goal_map g <;>
          simp [goalCB, abortGoal, h1, hsim, hact, hw, hw1] at hstep
      | some b =>
        cases hact : s.has_active_goal_map g
        · rw [goalCB_valid_idle n s gh g hpts hsim hact b hw] at hstep
          cases b
          · simp only [Bool.false_eq_true, if_false, Option.some.injEq, Prod.mk.injEq] at hstep
            obtain ⟨rfl, rfl⟩ := hstep
            exact inv.activate g gh _ hfresh hact hpub
          · simp only [if_true, Option.some.injEq, Prod.mk.injEq] at hstep
            obtain ⟨rfl, rfl⟩ := hstep
            have := inv.fresh_done gh _ _ hfresh hacc (Or.inr ⟨_, hsucc, rfl⟩)
            simp only [update_same_value s.has_active_goal_map g false hact]
            exact this
        · have inv0 := abortGoal_inv s g tr seen inv hact
          have hidle0 : (abortGoal s g).1.has_active_goal_map g = false := by
            simp [abortGoal]
          rw [goalCB_valid_active n s gh g hpts hsim hact b hw] at hstep
          cases b
          · simp only [Bool.false_eq_true, if_false, Option.some.injEq, Prod.mk.injEq] at hstep
            obtain ⟨rfl, rfl⟩ := hstep
            have := inv0.activate g gh _ hfresh hidle0 hpub
            rw [List.append_assoc] at this
            exact this
          · simp only [if_true, Option.some.injEq, Prod.mk.injEq] at hstep
            obtain ⟨rfl, rfl⟩ := hstep
            have := inv0.fresh_done gh _ _ hfresh hacc (Or.inr ⟨_, hsucc, rfl⟩)
            rw [List.append_assoc] at this
            simp only [Function.update_idem]
            exact this

theorem terminate_inv (s : State) (g : Nat) (tr pre : List Effect) (seen : List Nat)
    (call : GoalHandle → Effect)
    (inv : TraceInv s.has_active_goal_map s.active_goal_map tr seen)
    (hact : s.has_active_goal_map g = true)
    (hcall : ∀ a, call a ∈ terminalsOf a)
    (hpre : ∀ e ∈ pre, e.goalId? = none) :
    TraceInv (Function.update s.has_active_goal_map g false) s.active_goal_map
      (tr ++ (pre ++ onHandle (s.active_goal_map g) call)) seen := by
  obtain ⟨a, ha⟩ := inv.stored_of_active g hact
  refine inv.terminate g a (call a) _ hact ha (hcall a) ?_
  intro h
  have := history_terminal h a (call a) pre (hcall a) hpre
  simpa [ha, onHandle] using this

theorem cancelCB_inv (n : Node) (s s1 : State) (gh : GoalHandle) (g : Nat)
    (tr e1 : List Effect) (seen : List Nat)
    (inv : TraceInv s.has_active_goal_map s.active_goal_map tr seen)
    (hadm : (history gh.goal_id tr).all (fun x => !x.isTerminal) = true)
    (hstep : cancelCB n s gh g = some (s1, e1)) :
    TraceInv s1.has_active_goal_map s1.active_goal_map (tr ++ e1) seen := by
  unfold cancelCB at hstep
  split at hstep
  · rename_i heq
    simp only [Option.some.injEq, Prod.mk.injEq] at hstep
    obtain ⟨rfl, rfl⟩ := hstep
    cases ha : s.active_goal_map g with
    | none => simp [handleEq, ha] at heq
    | some a =>
      have hid : a.goal_id = gh.goal_id := by simpa [handleEq, ha] using heq
      have hact : s.has_active_goal_map g = true := by
        rcases inv.stored_hist g a ha with ⟨h1, -⟩ | ⟨-, t, ht, h2⟩
        · exact h1
        · rw [← hid, h2] at hadm
          simp only [terminalsOf, List.mem_cons, List.mem_singleton, List.not_mem_nil,
            or_false] at ht
          rcases ht with rfl | rfl | rfl | rfl <;> simp [Effect.isTerminal] at hadm
      have := terminate_inv s g tr
        [Effect.publish g { emptyTrajectory with joint_names := (n.group g).joint_names }]
        seen Effect.setCanceled inv hact (by intro a; simp [terminalsOf])
        (by intro e he; simp only [List.mem_singleton] at he; subst he; rfl)
      rw [ha] at this
      exact this
  · simp only [Option.some.injEq, Prod.mk.injEq] at hstep
    obtain ⟨rfl, rfl⟩ := hstep
    simpa using inv

theorem motionReplyCB_inv (s s1 : State) (msg : MotionReplyResult) (g : Nat)
    (tr e1 : List Effect) (seen : List Nat)
    (inv : TraceInv s.has_active_goal_map s.active_goal_map tr seen)
    (hstep : motionReplyCB s msg g = some (s1, e1)) :
    TraceInv s1.has_active_goal_map s1.active_goal_map (tr ++ e1) seen := by
  unfold motionReplyCB at hstep
  cases hact : s.has_active_goal_map g
  · simp only [hact, Bool.not_false, if_true, Option.some.injEq, Prod.mk.injEq] at hstep
    obtain ⟨rfl, rfl⟩ := hstep
    simpa using inv
  · simp only [hact, Bool.not_true, Bool.false_eq_true, if_false] at hstep
    split at hstep
    · simp only [Option.some.injEq, Prod.mk.injEq] at hstep
      obtain ⟨rfl, rfl⟩ := hstep
      have := terminate_inv s g tr [] seen
        (fun a => Effect.setRejected a FollowJointTrajectoryResult.SUCCESSFUL "")
        inv hact (by intro a; simp [terminalsOf]) (by intro e he; simp at he)
      simpa using this
    · split at hstep
      · simp only [Option.some.injEq, Prod.mk.injEq] at hstep
        obtain ⟨rfl, rfl⟩ := hstep
        exact abortGoal_inv s g tr seen inv hact
      · simp only [Option.some.injEq, Prod.mk.injEq] at hstep
        obtain ⟨rfl, rfl⟩ := hstep
        simpa using inv

theorem watchdog_inv (s s1 : State) (g : Nat)
    (tr e1 : List Effect) (seen : List Nat)
    (inv : TraceInv s.has_active_goal_map s.active_goal_map tr seen)
    (hstep : watchdog s g = some (s1, e1)) :
    TraceInv s1.has_active_goal_map s1.active_goal_map (tr ++ e1) seen := by
  unfold watchdog at hstep
  cases hact : s.has_active_goal_map g
  · simp only [hact, Bool.false_eq_true, if_false, Option.some.injEq, Prod.mk.injEq] at hstep
    obtain ⟨rfl, rfl⟩ := hstep
    simpa using inv
  · cases hrec : s.trajectory_state_recvd_map g
    · simp only [hact, hrec, if_true, Bool.not_false, Option.some.injEq,
        Prod.mk.injEq] at hstep
      obtain ⟨rfl, rfl⟩ := hstep
      exact abortGoal_inv s g tr seen inv hact
    · simp only [hact, hrec, if_true, Bool.not_true, Bool.false_eq_true, if_false,
        Option.some.injEq, Prod.mk.injEq] at hstep
      obtain ⟨rfl, rfl⟩ := hstep
      simpa using inv

theorem controllerStateCB_inv (n : Node) (s s1 : State)
    (msg : FollowJointTrajectoryFeedback) (g : Nat)
    (tr e1 : List Effect) (seen : List Nat)
    (inv : TraceInv s.has_active_goal_map s.active_goal_map tr seen)
    (hstep : controllerStateCB n s msg g = some (s1, e1)) :
    TraceInv s1.has_active_goal_map s1.active_goal_map (tr ++ e1) seen := by
  cases hact : s.has_active_goal_map g
  · simp only [controllerStateCB, hact, Bool.not_false, if_true, Option.some.injEq,
      Prod.mk.injEq] at hstep
    obtain ⟨rfl, rfl⟩ := hstep
    simpa using inv
  · have hsucc := terminate_inv s g tr [] seen Effect.setSucceeded inv hact
      (by intro a; simp [terminalsOf]) (by intro e he; simp at he)
    simp only [List.nil_append] at hsucc
    unfold controllerStateCB at hstep
    simp only [hact, Bool.not_true, Bool.false_eq_true, if_false] at hstep
    split at hstep
    · simp only [Option.some.injEq, Prod.mk.injEq] at hstep
      obtain ⟨rfl, rfl⟩ := hstep
      simpa using inv
    · split at hstep
      · simp only [Option.some.injEq, Prod.mk.injEq] at hstep
        obtain ⟨rfl, rfl⟩ := hstep
        simpa using inv
      · split at hstep
        · simp at hstep
        · simp only [Option.some.injEq, Prod.mk.injEq] at hstep
          obtain ⟨rfl, rfl⟩ := hstep
          simpa using inv
        · split at hstep
          · split at hstep
            · simp only [Option.some.injEq, Prod.mk.injEq] at hstep
              obtain ⟨rfl, rfl⟩ := hstep
              exact hsucc
            · split at hstep
              · simp only [Option.some.injEq, Prod.mk.injEq] at hstep
                obtain ⟨rfl, rfl⟩ := hstep
                exact hsucc
              · simp only [Option.some.injEq, Prod.mk.injEq] at hstep
                obtain ⟨rfl, rfl⟩ := hstep
                simpa using inv
          · simp only [Option.some.injEq, Prod.mk.injEq] at hstep
            obtain ⟨rfl, rfl⟩ := hstep
            exact hsucc

theorem step_inv (n : Node) (s s1 : State) (e : Event)
    (tr e1 : List Effect) (seen : List Nat)
    (inv : TraceInv s.has_active_goal_map s.active_goal_map tr seen)
    (hadm : admissible n s tr seen [e] = true)
    (hstep : step n s e = some (s1, e1)) :
    TraceInv s1.has_active_goal_map s1.active_goal_map (tr ++ e1) (e.goalIds ++ seen) := by
  cases e with
  | goal gh g =>
    have hfresh : gh.goal_id ∉ seen := by
      simp only [admissible, Bool.and_eq_true, decide_eq_true_eq] at hadm
      exact hadm.1
    exact goalCB_inv n s s1 gh g tr e1 seen inv hfresh hstep
  | cancel gh g =>
    have hc : (history gh.goal_id tr).all (fun x => !x.isTerminal) = true := by
      simp only [admissible, Bool.and_eq_true] at hadm
      exact hadm.1
    exact cancelCB_inv n s s1 gh g tr e1 seen inv hc hstep
  | feedback msg g => exact controllerStateCB_inv n s s1 msg g tr e1 seen inv hstep
  | motionReply msg g => exact motionReplyCB_inv s s1 msg g tr e1 seen inv hstep
  | robotStatus msg =>
    simp only [step, robotStatusCB, Option.some.injEq, Prod.mk.injEq] at hstep
    obtain ⟨rfl, rfl⟩ := hstep
    simpa [Event.goalIds] using inv
  | watchdog g => exact watchdog_inv s s1 g tr e1 seen inv hstep

theorem run_inv (n : Node) (evs : List Event) :
    ∀ (s s2 : State) (tr tr2 : List Effect) (seen : List Nat),
      TraceInv s.has_active_goal_map s.active_goal_map tr seen →
      admissible n s tr seen evs = true →
      run n s evs = some (s2, tr2) →
      ∃ seen2, TraceInv s2.has_active_goal_map s2.active_goal_map (tr ++ tr2) seen2 := by
  induction evs with
  | nil =>
    intro s s2 tr tr2 seen inv _ hrun
    simp only [run, Option.some.injEq, Prod.mk.injEq] at hrun
    obtain ⟨rfl, rfl⟩ := hrun
    exact ⟨seen, by simpa using inv⟩
  | cons e es ih =>
    intro s s2 tr tr2 seen inv hadm hrun
    cases hstep : step n s e with
    | none => simp [run, hstep] at hrun
    | some r =>
      obtain ⟨s1, e1⟩ := r
      cases hrest : run n s1 es with
      | none => simp [run, hstep, hrest] at hrun
      | some r2 =>
        obtain ⟨s3, e3⟩ := r2
        simp only [run, hstep, hrest, Option.some.injEq, Prod.mk.injEq] at hrun
        obtain ⟨rfl, rfl⟩ := hrun
        have hadm1 : admissible n s tr seen [e] = true := by
          simp only [admissible, hstep, Bool.and_eq_true] at hadm ⊢
          exact ⟨hadm.1, trivial⟩
        have hadm2 : admissible n s1 (tr ++ e1) (e.goalIds ++ seen) es = true := by
          simp only [admissible, hstep, Bool.and_eq_true] at hadm
          exact hadm.2
        have inv1 := step_inv n s s1 e tr e1 seen inv hadm1 hstep
        obtain ⟨seen2, inv2⟩ := ih s1 s3 (tr ++ e1) e3 (e.goalIds ++ seen) inv1 hadm2 hrest
        exact ⟨seen2, by rw [← List.append_assoc]; exact inv2⟩

/-- C10, as the code has it: two runs against "exactly one of
succeed/abort/cancel for an accepted goal, and a rejected goal is never
accepted".  In the first, the accepted goal `gh1` is ended by a motion reply
`INVALID`: the group is IDLE and the calls on `gh1` are accept and reject.  In
the second, `gh1` succeeds on feedback and a cancel for the same handle
follows: the calls on `gh1` are accept, succeed and cancel. -/
theorem accepted_goal_rejected_or_ended_twice :
    (∃ s tr, run Scenario.node State.init
          [Event.feedback Scenario.fbStart 0, Event.goal Scenario.gh1 0,
           Event.motionReply ⟨MotionReplyResult.INVALID⟩ 0] = some (s, tr) ∧
        s.has_active_goal_map 0 = false ∧
        history 1 tr =
          [Effect.setAccepted Scenario.gh1,
           Effect.setRejected Scenario.gh1 FollowJointTrajectoryResult.SUCCESSFUL ""]) ∧
    (∃ s tr, run Scenario.node State.init
          [Event.feedback Scenario.fbStart 0, Event.goal Scenario.gh1 0,
           Event.feedback Scenario.fbEnd 0, Event.cancel Scenario.gh1 0] = some (s, tr) ∧
        history 1 tr =
          [Effect.setAccepted Scenario.gh1, Effect.setSucceeded Scenario.gh1,
           Effect.setCanceled Scenario.gh1]) := by
  constructor
  · have h : (run Scenario.node State.init
          [Event.feedback Scenario.fbStart 0, Event.goal Scenario.gh1 0,
           Event.motionReply ⟨MotionReplyResult.INVALID⟩ 0]).map
          (fun r => (r.1.has_active_goal_map 0, history 1 r.2)) =
        some (false, [Effect.setAccepted Scenario.gh1,
           Effect.setRejected Scenario.gh1 FollowJointTrajectoryResult.SUCCESSFUL ""]) := by
      decide!
    match hr : run Scenario.node State.init
          [Event.feedback Scenario.fbStart 0, Event.goal Scenario.gh1 0,
           Event.motionReply ⟨MotionReplyResult.INVALID⟩ 0], h with
    | some (s, tr), h =>
        simp only [Option.map_some', Option.some.injEq, Prod.mk.injEq] at h
        exact ⟨s, tr, rfl, h.1, h.2⟩
  · have h : (run Scenario.node State.init
          [Event.feedback Scenario.fbStart 0, Event.goal Scenario.gh1 0,
           Event.feedback Scenario.fbEnd 0, Event.cancel Scenario.gh1 0]).map
          (fun r => history 1 r.2) =
        some [Effect.setAccepted Scenario.gh1, Effect.setSucceeded Scenario.gh1,
           Effect.setCanceled Scenario.gh1] := by
      decide!
    match hr : run Scenario.node State.init
          [Event.feedback Scenario.fbStart 0, Event.goal Scenario.gh1 0,
           Event.feedback Scenario.fbEnd 0, Event.cancel Scenario.gh1 0], h with
    | some (s, tr), h =>
        simp only [Option.map_some', Option.some.injEq] at h
        exact ⟨s, tr, rfl, h⟩

/-- C10, amended: one terminal call per goal.  For every run of an event
sequence in which each goal arrives with a fresh handle and a cancel arrives
only for a handle without a terminal call so far, the calls made on any one
goal handle are: none; or exactly one reject with `INVALID_GOAL` or
`INVALID_JOINTS` and no accept; or exactly the accept, the handle being the
active goal of a group; or the accept followed by exactly one of succeed,
abort, cancel and the reject of a motion reply, the handle being the active
goal of no group. -/
theorem one_terminal_call (n : Node) (evs : List Event) (s : State) (tr : List Effect)
    (hadm : admissible n State.init [] [] evs = true)
    (hrun : run n State.init evs = some (s, tr)) (h : Nat) :
    history h tr = [] ∨
    (∃ gh code text, gh.goal_id = h ∧ history h tr = [Effect.setRejected gh code text] ∧
      (code = FollowJointTrajectoryResult.INVALID_GOAL ∨
       code = FollowJointTrajectoryResult.INVALID_JOINTS)) ∨
    (∃ gh g, gh.goal_id = h ∧ history h tr = [Effect.setAccepted gh] ∧
      s.has_active_goal_map g = true ∧ s.active_goal_map g = some gh) ∨
    (∃ gh t, gh.goal_id = h ∧ history h tr = [Effect.setAccepted gh, t] ∧
      (t = Effect.setSucceeded gh ∨ t = Effect.setAborted gh ∨ t = Effect.setCanceled gh ∨
       t = Effect.setRejected gh FollowJointTrajectoryResult.SUCCESSFUL "") ∧
      ∀ g a, s.has_active_goal_map g = true → s.active_goal_map g = some a →
        a.goal_id ≠ h) := by
  obtain ⟨seen, inv⟩ := run_inv n evs State.init s [] tr [] TraceInv.init hadm hrun
  simp only [List.nil_append] at inv
  rcases inv.life h with h1 | h1 | h1 | ⟨gh, t, h1, h2, h3⟩
  · exact Or.inl h1
  · exact Or.inr (Or.inl h1)
  · exact Or.inr (Or.inr (Or.inl h1))
  · refine Or.inr (Or.inr (Or.inr ⟨gh, t, h1, h3, ?_, ?_⟩))
    · simpa [terminalsOf] using h2
    · intro g a hact ha hid
      rcases inv.stored_hist g a ha with ⟨-, h4⟩ | ⟨hf, -⟩
      · rw [hid, h3] at h4
        simp at h4
      · rw [hact] at hf
        simp at hf

theorem one_terminal_call_witness :
    ∃ s tr, run Scenario.node State.init
        [Event.feedback Scenario.fbStart 0, Event.goal Scenario.gh1 0,
         Event.goal Scenario.ghJx 0, Event.feedback Scenario.fbEnd 0] = some (s, tr) ∧
      (history 1 tr = [] ∨
       (∃ gh code text, gh.goal_id = 1 ∧ history 1 tr = [Effect.setRejected gh code text] ∧
         (code = FollowJointTrajectoryResult.INVALID_GOAL ∨
          code = FollowJointTrajectoryResult.INVALID_JOINTS)) ∨
       (∃ gh g, gh.goal_id = 1 ∧ history 1 tr = [Effect.setAccepted gh] ∧
         s.has_active_goal_map g = true ∧ s.active_goal_map g = some gh) ∨
       (∃ gh t, gh.goal_id = 1 ∧ history 1 tr = [Effect.setAccepted gh, t] ∧
         (t = Effect.setSucceeded gh ∨ t = Effect.setAborted gh ∨ t = Effect.setCanceled gh ∨
          t = Effect.setRejected gh FollowJointTrajectoryResult.SUCCESSFUL "") ∧
         ∀ g a, s.has_active_goal_map g = true → s.active_goal_map g = some a →
           a.goal_id ≠ 1)) := by
  have h : (run Scenario.node State.init
        [Event.feedback Scenario.fbStart 0, Event.goal Scenario.gh1 0,
         Event.goal Scenario.ghJx 0, Event.feedback Scenario.fbEnd 0]).isSome = true := by
    decide!
  match hr : run Scenario.node State.init
        [Event.feedback Scenario.fbStart 0, Event.goal Scenario.gh1 0,
         Event.goal Scenario.ghJx 0, Event.feedback Scenario.fbEnd 0], h with
  | some (s, tr), _ =>
      exact ⟨s, tr, rfl, one_terminal_call Scenario.node _ s tr (by decide!) hr 1⟩

/-! ## Fan-out: the group of one point -/

theorem forPush_getElem {α β : Type} (body : α → Option β) (l : List α) (r : List β)
    (h : forPush body l = some r) (i : Nat) (x : α) (hx : l[i]? = some x) :
    ∃ y, r[i]? = some y ∧ body x = some y := by
  obtain ⟨hlen, hget⟩ := forPush_some body l r h
  have hi : i < r.length := by
    rw [hlen]
    exact (List.getElem?_eq_some_iff.mp hx).1
  obtain ⟨x1, hx1, hb⟩ := hget i r[i] (List.getElem?_eq_getElem hi)
  rw [hx] at hx1
  simp only [Option.some.injEq] at hx1
  subst hx1
  exact ⟨r[i], List.getElem?_eq_getElem hi, hb⟩

theorem FanOut.goalCB_out (n : Node) (s s1 : State) (now : Nat) (gh : GoalHandle)
    (effs : List Effect) (h : FanOut.goalCB n s now gh = some (s1, effs)) :
    ∃ out, effs = [Effect.setAccepted gh, Effect.publishCommand out] ∧
      forPush (FanOut.dynPointOf n gh.getGoal.trajectory) gh.getGoal.trajectory.points
        = some out.points := by
  unfold FanOut.goalCB at h
  split at h
  · simp at h
  · rename_i out hout
    simp only [Option.some.injEq, Prod.mk.injEq] at h
    refine ⟨out, h.2.symm, ?_⟩
    unfold FanOut.dynTrajOf at hout
    split at hout
    · simp at hout
    · rename_i pts hpts
      simp only [Option.some.injEq] at hout
      subst hout
      exact hpts

/-- The group at position `j` of the output point at position `i` is the
result of the loop body for the input point at `i` and the registry group at
`j`. -/
theorem FanOut.out_group (n : Node) (traj : JointTrajectory) (pts : List DynamicJointPoint)
    (h : forPush (FanOut.dynPointOf n traj) traj.points = some pts)
    (i j : Nat) (p : JointTrajectoryPoint) (pt : DynamicJointPoint) (grp : DynamicJointsGroup)
    (hp : traj.points[i]? = some p) (hpt : pts[i]? = some pt)
    (hgrp : pt.groups[j]? = some grp) :
    j < n.robot_groups.length ∧ FanOut.dynGroupOf n traj p j = some grp := by
  obtain ⟨-, hget⟩ := forPush_some _ _ _ h
  obtain ⟨p1, hp1, hbody⟩ := hget i pt hpt
  rw [hp] at hp1
  simp only [Option.some.injEq] at hp1
  subst hp1
  unfold FanOut.dynPointOf at hbody
  split at hbody
  · simp at hbody
  · rename_i grps hgrps
    simp only [Option.some.injEq] at hbody
    subst hbody
    obtain ⟨-, hg⟩ := forPush_some _ _ _ hgrps
    obtain ⟨x, hx, hb⟩ := hg j grp hgrp
    have h1 := List.getElem?_eq_some_iff.mp hx
    have hjlt : j < n.robot_groups.length := by simpa using h1.1
    have hxj : x = j := by simpa using h1.2.symm
    subst hxj
    exact ⟨hjlt, hb⟩

theorem FanOut.out_group_exists (n : Node) (traj : JointTrajectory)
    (pts : List DynamicJointPoint)
    (h : forPush (FanOut.dynPointOf n traj) traj.points = some pts)
    (i j : Nat) (p : JointTrajectoryPoint)
    (hp : traj.points[i]? = some p) (hj : j < n.robot_groups.length) :
    ∃ pt grp, pts[i]? = some pt ∧ pt.groups[j]? = some grp ∧
      FanOut.dynGroupOf n traj p j = some grp := by
  obtain ⟨pt, hpt, hbody⟩ := forPush_getElem _ _ _ h i p hp
  unfold FanOut.dynPointOf at hbody
  split at hbody
  · simp at hbody
  · rename_i grps hgrps
    simp only [Option.some.injEq] at hbody
    subst hbody
    have hr : (List.range n.robot_groups.length)[j]? = some j := by
      simp [List.getElem?_range hj]
    obtain ⟨grp, hgrp, hb⟩ := forPush_getElem _ _ _ hgrps j j hr
    exact ⟨_, grp, hpt, hgrp, hb⟩

theorem FanOut.channel_empty (num_joints ros_idx size : Nat) :
    FanOut.channel num_joints ros_idx size [] = some (List.replicate num_joints 0) := by
  simp [FanOut.channel, zeros]

theorem FanOut.channel_slice (num_joints ros_idx size : Nat) (c : List Scalar)
    (hne : c ≠ []) (hfit : ros_idx + size ≤ c.length) :
    FanOut.channel num_joints ros_idx size c = some ((c.drop ros_idx).take size) := by
  have h1 : c.isEmpty = false := by simpa [List.isEmpty_iff] using hne
  simp [FanOut.channel, FanOut.sliceRange, h1, hfit]

theorem Node.group_eq (n : Node) (j : Nat) (rg : RobotGroup)
    (h : n.robot_groups[j]? = some rg) : n.group j = rg := by
  simp [Node.group, List.getD_eq_getElem?_getD, h]

theorem FanOut.channel_of_model (size ros_idx len : Nat) (c : List Scalar)
    (hc : c = [] ∨ c.length = len) (hfit : ros_idx + size ≤ len) :
    FanOut.channel size ros_idx size c =
      some (if c = [] then List.replicate size 0 else (c.drop ros_idx).take size) := by
  by_cases h : c = []
  · subst h
    simp [FanOut.channel_empty]
  · rcases hc with hc | hc
    · exact absurd hc h
    · rw [FanOut.channel_slice size ros_idx size c h (by omega)]
      simp [h]

/-- C13: fan-out slice extraction.  For an input point whose channels are each
empty or as long as `joint_names`, and a registry group `rg` at position `j`
whose first joint name occurs in the input `joint_names`, at first index `k`
with `k + |rg| ≤ |joint_names|`: the loop body is defined (every access is in
bounds) and yields a group whose channels are the slice `c[k .. k + |rg|)` of
each non-empty input channel `c` and a zero vector of length `|rg|` for each
empty one, with the input point's `time_from_start`; and this is the group at
position `j` of the point at the same index in whatever `goalCB(gh)`
publishes. -/
theorem FanOut.slice_extraction (n : Node) (traj : JointTrajectory)
    (p : JointTrajectoryPoint) (j : Nat) (rg : RobotGroup) (first : String)
    (hrg : n.robot_groups[j]? = some rg)
    (hfirst : rg.joint_names.head? = some first)
    (hmem : first ∈ traj.joint_names)
    (hfit : traj.joint_names.indexOf first + rg.joint_names.length ≤ traj.joint_names.length)
    (hpos : p.positions = [] ∨ p.positions.length = traj.joint_names.length)
    (hvel : p.velocities = [] ∨ p.velocities.length = traj.joint_names.length)
    (hacc : p.accelerations = [] ∨ p.accelerations.length = traj.joint_names.length)
    (heff : p.effort = [] ∨ p.effort.length = traj.joint_names.length) :
    ∃ grp : DynamicJointsGroup, FanOut.dynGroupOf n traj p j = some grp ∧
      grp.positions =
        (if p.positions = [] then List.replicate rg.joint_names.length 0
         else (p.positions.drop (traj.joint_names.indexOf first)).take rg.joint_names.length) ∧
      grp.velocities =
        (if p.velocities = [] then List.replicate rg.joint_names.length 0
         else (p.velocities.drop (traj.joint_names.indexOf first)).take rg.joint_names.length) ∧
      grp.accelerations =
        (if p.accelerations = [] then List.replicate rg.joint_names.length 0
         else (p.accelerations.drop (traj.joint_names.indexOf first)).take
                rg.joint_names.length) ∧
      grp.effort =
        (if p.effort = [] then List.replicate rg.joint_names.length 0
         else (p.effort.drop (traj.joint_names.indexOf first)).take rg.joint_names.length) ∧
      grp.time_from_start = p.time_from_start ∧
      ∀ (s s1 : State) (now : Nat) (gh : GoalHandle) (effs : List Effect) (i : Nat),
        gh.getGoal.trajectory = traj → traj.points[i]? = some p →
        FanOut.goalCB n s now gh = some (s1, effs) →
        ∃ out pt, effs = [Effect.setAccepted gh, Effect.publishCommand out] ∧
          out.points[i]? = some pt ∧ pt.groups[j]? = some grp := by
  have hg := n.group_eq j rg hrg
  have hj : j < n.robot_groups.length := (List.getElem?_eq_some_iff.mp hrg).1
  have hfound : decide (traj.joint_names.indexOf first < traj.joint_names.length) = true :=
    decide_eq_true (List.indexOf_lt_length.mpr hmem)
  have hbody : FanOut.dynGroupOf n traj p j =
      some { group_number := j
             num_joints :=
               (if p.positions = [] then List.replicate rg.joint_names.length 0
                else (p.positions.drop (traj.joint_names.indexOf first)).take
                       rg.joint_names.length).length
             positions :=
               if p.positions = [] then List.replicate rg.joint_names.length 0
               else (p.positions.drop (traj.joint_names.indexOf first)).take
                      rg.joint_names.length
             velocities :=
               if p.velocities = [] then List.replicate rg.joint_names.length 0
               else (p.velocities.drop (traj.joint_names.indexOf first)).take
                      rg.joint_names.length
             accelerations :=
               if p.accelerations = [] then List.replicate rg.joint_names.length 0
               else (p.accelerations.drop (traj.joint_names.indexOf first)).take
                      rg.joint_names.length
             effort :=
               if p.effort = [] then List.replicate rg.joint_names.length 0
               else (p.effort.drop (traj.joint_names.indexOf first)).take
                      rg.joint_names.length
             time_from_start := p.time_from_start } := by
    simp only [FanOut.dynGroupOf, hg, hfirst, hfound, if_true]
    rw [FanOut.channel_of_model _ _ _ p.positions hpos hfit,
      FanOut.channel_of_model _ _ _ p.velocities hvel hfit,
      FanOut.channel_of_model _ _ _ p.accelerations hacc hfit,
      FanOut.channel_of_model _ _ _ p.effort heff hfit]
  refine ⟨_, hbody, rfl, rfl, rfl, rfl, rfl, ?_⟩
  intro s s1 now gh effs i htraj hp hcall
  obtain ⟨out, hout, hpts⟩ := FanOut.goalCB_out n s s1 now gh effs hcall
  rw [htraj] at hpts
  obtain ⟨pt, grp, hpt, hgrp, hb⟩ := FanOut.out_group_exists n traj out.points hpts i j p hp hj
  rw [hbody] at hb
  simp only [Option.some.injEq] at hb
  subst hb
  exact ⟨out, pt, hout, hpt, hgrp⟩

theorem FanOut.slice_extraction_witness :
    ∃ grp : DynamicJointsGroup,
      FanOut.dynGroupOf Scenario.node2 Scenario.Tfan
        ⟨[1 / 2, 3 / 5], [], [], [], 1000000000⟩ 0 = some grp ∧
      grp.positions = [1 / 2, 3 / 5] ∧ grp.velocities = [0, 0] ∧
      grp.accelerations = [0, 0] ∧ grp.effort = [0, 0] ∧
      grp.time_from_start = 1000000000 := by
  obtain ⟨grp, h1, h2, h3, h4, h5, h6, -⟩ :=
    FanOut.slice_extraction Scenario.node2 Scenario.Tfan
      ⟨[1 / 2, 3 / 5], [], [], [], 1000000000⟩ 0 Scenario.G0 "j1"
      (by decide) (by decide) (by decide) (by decide)
      (by decide) (by decide) (by decide) (by decide)
  refine ⟨grp, h1, ?_, ?_, ?_, ?_, h6⟩
  · rw [h2]; decide!
  · rw [h3]; decide!
  · rw [h4]; decide!
  · rw [h5]; decide!

/-- C14: fan-out idle fill.  For an input point and a registry group `rg` at
position `j` whose first joint name does not occur in the input `joint_names`,
the loop body yields, whatever the input channels hold, a group whose
positions, velocities, accelerations and effort are zero vectors of the length
of `rg`'s joint count, whose `num_joints` is that count and whose
`time_from_start` is the input point's; and this is the group at position `j`
of the point at the same index in whatever `goalCB(gh)` publishes. -/
theorem FanOut.idle_fill (n : Node) (traj : JointTrajectory)
    (p : JointTrajectoryPoint) (j : Nat) (rg : RobotGroup) (first : String)
    (hrg : n.robot_groups[j]? = some rg)
    (hfirst : rg.joint_names.head? = some first)
    (habs : first ∉ traj.joint_names) :
    ∃ grp : DynamicJointsGroup, FanOut.dynGroupOf n traj p j = some grp ∧
      grp.positions = List.replicate rg.joint_names.length 0 ∧
      grp.velocities = List.replicate rg.joint_names.length 0 ∧
      grp.accelerations = List.replicate rg.joint_names.length 0 ∧
      grp.effort = List.replicate rg.joint_names.length 0 ∧
      grp.num_joints = rg.joint_names.length ∧
      grp.time_from_start = p.time_from_start ∧
      ∀ (s s1 : State) (now : Nat) (gh : GoalHandle) (effs : List Effect) (i : Nat),
        gh.getGoal.trajectory = traj → traj.points[i]? = some p →
        FanOut.goalCB n s now gh = some (s1, effs) →
        ∃ out pt, effs = [Effect.setAccepted gh, Effect.publishCommand out] ∧
          out.points[i]? = some pt ∧ pt.groups[j]? = some grp := by
  have hg := n.group_eq j rg hrg
  have hj : j < n.robot_groups.length := (List.getElem?_eq_some_iff.mp hrg).1
  have hnot : decide (traj.joint_names.indexOf first < traj.joint_names.length) = false := by
    apply decide_eq_false
    intro h
    exact habs (List.indexOf_lt_length.mp h)
  have hbody : FanOut.dynGroupOf n traj p j =
      some { group_number := j
             num_joints := rg.joint_names.length
             positions := List.replicate rg.joint_names.length 0
             velocities := List.replicate rg.joint_names.length 0
             accelerations := List.replicate rg.joint_names.length 0
             effort := List.replicate rg.joint_names.length 0
             time_from_start := p.time_from_start } := by
    simp [FanOut.dynGroupOf, hg, hfirst, hnot, zeros]
  refine ⟨_, hbody, rfl, rfl, rfl, rfl, rfl, rfl, ?_⟩
  intro s s1 now gh effs i htraj hp hcall
  obtain ⟨out, hout, hpts⟩ := FanOut.goalCB_out n s s1 now gh effs hcall
  rw [htraj] at hpts
  obtain ⟨pt, grp, hpt, hgrp, hb⟩ := FanOut.out_group_exists n traj out.points hpts i j p hp hj
  rw [hbody] at hb
  simp only [Option.some.injEq] at hb
  subst hb
  exact ⟨out, pt, hout, hpt, hgrp⟩

theorem FanOut.idle_fill_witness :
    ∃ grp : DynamicJointsGroup,
      FanOut.dynGroupOf Scenario.node2 Scenario.Tfan
        ⟨[1 / 2, 3 / 5], [], [], [], 1000000000⟩ 1 = some grp ∧
      grp.positions = [0] ∧ grp.velocities = [0] ∧ grp.accelerations = [0] ∧
      grp.effort = [0] ∧ grp.num_joints = 1 ∧ grp.time_from_start = 1000000000 := by
  obtain ⟨grp, h0, h1, h2, h3, h4, h5, h6, -⟩ :=
    FanOut.idle_fill Scenario.node2 Scenario.Tfan
      ⟨[1 / 2, 3 / 5], [], [], [], 1000000000⟩ 1 Scenario.G1 "k1"
      (by decide) (by decide) (by decide)
  exact ⟨grp, h0, h1, h2, h3, h4, h5, h6⟩

theorem FanOut.dynGroupOf_zero_fill (n : Node) (traj : JointTrajectory)
    (p : JointTrajectoryPoint) (j : Nat) (grp : DynamicJointsGroup)
    (h : FanOut.dynGroupOf n traj p j = some grp) :
    (p.positions = [] → grp.positions = List.replicate (n.group j).joint_names.length 0) ∧
    (p.velocities = [] → grp.velocities = List.replicate (n.group j).joint_names.length 0) ∧
    (p.accelerations = [] →
      grp.accelerations = List.replicate (n.group j).joint_names.length 0) ∧
    (p.effort = [] → grp.effort = List.replicate (n.group j).joint_names.length 0) := by
  unfold FanOut.dynGroupOf at h
  split at h
  · simp at h
  · simp only at h
    split at h
    · split at h
      · rename_i h1 h2 h3 h4
        simp only [Option.some.injEq] at h
        subst h
        refine ⟨fun e => ?_, fun e => ?_, fun e => ?_, fun e => ?_⟩
        · rw [e, FanOut.channel_empty] at h1
          simpa using h1.symm
        · rw [e, FanOut.channel_empty] at h2
          simpa using h2.symm
        · rw [e, FanOut.channel_empty] at h3
          simpa using h3.symm
        · rw [e, FanOut.channel_empty] at h4
          simpa using h4.symm
      · simp at h
    · simp only [Option.some.injEq] at h
      subst h
      simp [zeros]

/-- The loop over the points is defined for every input that meets the data
model: every group has a joint, every channel of every point is empty or as
long as `joint_names`, and the joints of a group whose first joint is named fit
into `joint_names` from that index on. -/
theorem FanOut.goalCB_defined (n : Node) (s : State) (now : Nat) (gh : GoalHandle)
    (hname : ∀ rg ∈ n.robot_groups, rg.joint_names ≠ [])
    (hchan : ∀ p ∈ gh.getGoal.trajectory.points,
        (p.positions = [] ∨ p.positions.length = gh.getGoal.trajectory.joint_names.length) ∧
        (p.velocities = [] ∨ p.velocities.length = gh.getGoal.trajectory.joint_names.length) ∧
        (p.accelerations = [] ∨
          p.accelerations.length = gh.getGoal.trajectory.joint_names.length) ∧
        (p.effort = [] ∨ p.effort.length = gh.getGoal.trajectory.joint_names.length))
    (hfit : ∀ rg ∈ n.robot_groups, ∀ first ∈ gh.getGoal.trajectory.joint_names,
        rg.joint_names.head? = some first →
        gh.getGoal.trajectory.joint_names.indexOf first + rg.joint_names.length
          ≤ gh.getGoal.trajectory.joint_names.length) :
    ∃ s1 effs, FanOut.goalCB n s now gh = some (s1, effs) := by
  have hpts : ∃ pts, forPush (FanOut.dynPointOf n gh.getGoal.trajectory)
      gh.getGoal.trajectory.points = some pts := by
    apply forPush_total
    intro p hp
    have hgr : ∃ grps, forPush (FanOut.dynGroupOf n gh.getGoal.trajectory p)
        (List.range n.robot_groups.length) = some grps := by
      apply forPush_total
      intro j hj
      have hjlt : j < n.robot_groups.length := List.mem_range.mp hj
      have hmem := n.group_mem j hjlt
      exact FanOut.dynGroupOf_total n _ p j (hname _ hmem) (hchan p hp) (hfit _ hmem)
    obtain ⟨grps, hgrps⟩ := hgr
    exact ⟨{ num_groups := grps.length, groups := grps },
      by simp [FanOut.dynPointOf, hgrps]⟩
  obtain ⟨pts, hpts⟩ := hpts
  exact ⟨s, [Effect.setAccepted gh,
      Effect.publishCommand
        { header := { gh.getGoal.trajectory.header with stamp := now }
          joint_names := n.all_joint_names
          points := pts }],
    by simp [FanOut.goalCB, FanOut.dynTrajOf, hpts]⟩

/-- In a published trajectory there is, for the input point at index `i`, an
output point at index `i`, with one group for each registry group, and the
group at position `j` is the result of the loop body for that point and the
registry group at `j`. -/
theorem FanOut.out_point (n : Node) (traj : JointTrajectory) (pts : List DynamicJointPoint)
    (h : forPush (FanOut.dynPointOf n traj) traj.points = some pts)
    (i : Nat) (p : JointTrajectoryPoint) (hp : traj.points[i]? = some p) :
    ∃ pt, pts[i]? = some pt ∧ pt.groups.length = n.robot_groups.length ∧
      ∀ (j : Nat) (rg : RobotGroup), n.robot_groups[j]? = some rg →
        ∃ grp, pt.groups[j]? = some grp ∧ FanOut.dynGroupOf n traj p j = some grp := by
  obtain ⟨pt, hpt, hbody⟩ := forPush_getElem _ _ _ h i p hp
  refine ⟨pt, hpt, ?_, ?_⟩
  · unfold FanOut.dynPointOf at hbody
    split at hbody
    · simp at hbody
    · rename_i grps hgrps
      simp only [Option.some.injEq] at hbody
      subst hbody
      simpa using (forPush_some _ _ _ hgrps).1
  · intro j rg hrg
    have hj : j < n.robot_groups.length := (List.getElem?_eq_some_iff.mp hrg).1
    obtain ⟨pt1, grp, hpt1, hgrp, hb⟩ := FanOut.out_group_exists n traj pts h i j p hp hj
    rw [hpt] at hpt1
    simp only [Option.some.injEq] at hpt1
    subst hpt1
    exact ⟨grp, hgrp, hb⟩

/-- C15: channel zero-filling in fan-out.  Whenever `goalCB(gh)` publishes, the
published trajectory has, for every input point, an output point at the same
index with exactly one group for each registry group, and for each channel
(positions, velocities, accelerations, effort) that is empty in the input
point, that channel of the group at every position `j` is a zero vector whose
length is the joint count of the registry group at `j`, whether or not the
group is named in the goal.  And `goalCB(gh)` does publish for every input
that meets the data model. -/
theorem FanOut.zero_filling (n : Node) (s : State) (now : Nat) (gh : GoalHandle) :
    (∀ s1 effs, FanOut.goalCB n s now gh = some (s1, effs) →
      ∃ out, effs = [Effect.setAccepted gh, Effect.publishCommand out] ∧
        out.points.length = gh.getGoal.trajectory.points.length ∧
        ∀ (i : Nat) (p : JointTrajectoryPoint), gh.getGoal.trajectory.points[i]? = some p →
          ∃ pt, out.points[i]? = some pt ∧
            pt.groups.length = n.robot_groups.length ∧
            ∀ (j : Nat) (rg : RobotGroup), n.robot_groups[j]? = some rg →
              ∃ grp, pt.groups[j]? = some grp ∧
                (p.positions = [] →
                  grp.positions = List.replicate rg.joint_names.length 0) ∧
                (p.velocities = [] →
                  grp.velocities = List.replicate rg.joint_names.length 0) ∧
                (p.accelerations = [] →
                  grp.accelerations = List.replicate rg.joint_names.length 0) ∧
                (p.effort = [] → grp.effort = List.replicate rg.joint_names.length 0)) ∧
    ((∀ rg ∈ n.robot_groups, rg.joint_names ≠ []) →
     (∀ p ∈ gh.getGoal.trajectory.points,
        (p.positions = [] ∨ p.positions.length = gh.getGoal.trajectory.joint_names.length) ∧
        (p.velocities = [] ∨ p.velocities.length = gh.getGoal.trajectory.joint_names.length) ∧
        (p.accelerations = [] ∨
          p.accelerations.length = gh.getGoal.trajectory.joint_names.length) ∧
        (p.effort = [] ∨ p.effort.length = gh.getGoal.trajectory.joint_names.length)) →
     (∀ rg ∈ n.robot_groups, ∀ first ∈ gh.getGoal.trajectory.joint_names,
        rg.joint_names.head? = some first →
        gh.getGoal.trajectory.joint_names.indexOf first + rg.joint_names.length
          ≤ gh.getGoal.trajectory.joint_names.length) →
     ∃ s1 effs, FanOut.goalCB n s now gh = some (s1, effs)) := by
  constructor
  · intro s1 effs hcall
    obtain ⟨out, hout, hpts⟩ := FanOut.goalCB_out n s s1 now gh effs hcall
    refine ⟨out, hout, (forPush_some _ _ _ hpts).1, ?_⟩
    intro i p hp
    obtain ⟨pt, hpt, hlen, hgrps⟩ := FanOut.out_point n _ out.points hpts i p hp
    refine ⟨pt, hpt, hlen, ?_⟩
    intro j rg hrg
    obtain ⟨grp, hgrp, hb⟩ := hgrps j rg hrg
    have hz := FanOut.dynGroupOf_zero_fill n _ p j grp hb
    rw [n.group_eq j rg hrg] at hz
    exact ⟨grp, hgrp, hz⟩
  · exact FanOut.goalCB_defined n s now gh

theorem FanOut.zero_filling_witness :
    ∃ s1 effs out pt grp0 grp1,
      FanOut.goalCB Scenario.node2 State.init 7 Scenario.ghFan = some (s1, effs) ∧
      effs = [Effect.setAccepted Scenario.ghFan, Effect.publishCommand out] ∧
      out.points.length = 1 ∧ out.points[0]? = some pt ∧ pt.groups.length = 2 ∧
      pt.groups[0]? = some grp0 ∧ grp0.velocities = [0, 0] ∧
      grp0.accelerations = [0, 0] ∧ grp0.effort = [0, 0] ∧
      pt.groups[1]? = some grp1 ∧ grp1.velocities = [0] ∧
      grp1.accelerations = [0] ∧ grp1.effort = [0] := by
  obtain ⟨s1, effs, hcall⟩ :=
    (FanOut.zero_filling Scenario.node2 State.init 7 Scenario.ghFan).2
      (by decide) (by decide) (by decide)
  obtain ⟨out, h1, h2, h3⟩ :=
    (FanOut.zero_filling Scenario.node2 State.init 7 Scenario.ghFan).1 s1 effs hcall
  obtain ⟨pt, hpt, hlen, hg⟩ := h3 0 ⟨[1 / 2, 3 / 5], [], [], [], 1000000000⟩ rfl
  obtain ⟨grp0, hg0, -, a2, a3, a4⟩ := hg 0 Scenario.G0 rfl
  obtain ⟨grp1, hg1, -, b2, b3, b4⟩ := hg 1 Scenario.G1 rfl
  exact ⟨s1, effs, out, pt, grp0, grp1, hcall, h1, h2, hpt, hlen,
    hg0, a2 rfl, a3 rfl, a4 rfl, hg1, b2 rfl, b3 rfl, b4 rfl⟩

theorem FanOut.dynGroupOf_identity (n : Node) (traj : JointTrajectory)
    (p : JointTrajectoryPoint) (j : Nat) (grp : DynamicJointsGroup)
    (h : FanOut.dynGroupOf n traj p j = some grp) :
    grp.group_number = j ∧ grp.num_joints = (n.group j).joint_names.length := by
  have hlen := (FanOut.dynGroupOf_lengths n traj p j grp h).1
  unfold FanOut.dynGroupOf at h
  split at h
  · simp at h
  · simp only at h
    split at h
    · split at h
      · simp only [Option.some.injEq] at h
        subst h
        exact ⟨rfl, hlen⟩
      · simp at h
    · simp only [Option.some.injEq] at h
      subst h
      exact ⟨rfl, rfl⟩

theorem group_id_of_key (n : Node)
    (hkey : n.robot_groups.map RobotGroup.group_id = List.range n.robot_groups.length)
    (j : Nat) (rg : RobotGroup) (hrg : n.robot_groups[j]? = some rg) : rg.group_id = j := by
  have hj : j < n.robot_groups.length := (List.getElem?_eq_some_iff.mp hrg).1
  have h1 : (n.robot_groups.map RobotGroup.group_id)[j]? = some rg.group_id := by
    simp [List.getElem?_map, hrg]
  rw [hkey, List.getElem?_range hj] at h1
  simpa using h1.symm

/-- C16: fan-out group identity.  For every registry that holds each group
under its group id, as the per-group callbacks look it up (the ids are
`0 .. m-1` in key order): whenever `goalCB(gh)` publishes, the published
trajectory has one point for each input point, and the point at every index
has exactly one group for each registry group, in registry order, where the
group at position `j` has `group_number` equal to the `group_id` of the
registry group at `j` and `num_joints` equal to that group's joint count.  And
`goalCB(gh)` does publish for every input that meets the data model. -/
theorem FanOut.group_identity (n : Node) (s : State) (now : Nat) (gh : GoalHandle)
    (hkey : n.robot_groups.map RobotGroup.group_id = List.range n.robot_groups.length) :
    (∀ s1 effs, FanOut.goalCB n s now gh = some (s1, effs) →
      ∃ out, effs = [Effect.setAccepted gh, Effect.publishCommand out] ∧
        out.points.length = gh.getGoal.trajectory.points.length ∧
        ∀ (i : Nat) (p : JointTrajectoryPoint), gh.getGoal.trajectory.points[i]? = some p →
          ∃ pt, out.points[i]? = some pt ∧
            pt.groups.length = n.robot_groups.length ∧
            ∀ (j : Nat) (rg : RobotGroup), n.robot_groups[j]? = some rg →
              ∃ grp, pt.groups[j]? = some grp ∧
                grp.group_number = rg.group_id ∧
                grp.num_joints = rg.joint_names.length) ∧
    ((∀ rg ∈ n.robot_groups, rg.joint_names ≠ []) →
     (∀ p ∈ gh.getGoal.trajectory.points,
        (p.positions = [] ∨ p.positions.length = gh.getGoal.trajectory.joint_names.length) ∧
        (p.velocities = [] ∨ p.velocities.length = gh.getGoal.trajectory.joint_names.length) ∧
        (p.accelerations = [] ∨
          p.accelerations.length = gh.getGoal.trajectory.joint_names.length) ∧
        (p.effort = [] ∨ p.effort.length = gh.getGoal.trajectory.joint_names.length)) →
     (∀ rg ∈ n.robot_groups, ∀ first ∈ gh.getGoal.trajectory.joint_names,
        rg.joint_names.head? = some first →
        gh.getGoal.trajectory.joint_names.indexOf first + rg.joint_names.length
          ≤ gh.getGoal.trajectory.joint_names.length) →
     ∃ s1 effs, FanOut.goalCB n s now gh = some (s1, effs)) := by
  constructor
  · intro s1 effs hcall
    obtain ⟨out, hout, hpts⟩ := FanOut.goalCB_out n s s1 now gh effs hcall
    refine ⟨out, hout, (forPush_some _ _ _ hpts).1, ?_⟩
    intro i p hp
    obtain ⟨pt, hpt, hlen, hgrps⟩ := FanOut.out_point n _ out.points hpts i p hp
    refine ⟨pt, hpt, hlen, ?_⟩
    intro j rg hrg
    obtain ⟨grp, hgrp, hb⟩ := hgrps j rg hrg
    obtain ⟨h1, h2⟩ := FanOut.dynGroupOf_identity n _ p j grp hb
    rw [n.group_eq j rg hrg] at h2
    exact ⟨grp, hgrp, by rw [h1, group_id_of_key n hkey j rg hrg], h2⟩
  · exact FanOut.goalCB_defined n s now gh

theorem FanOut.group_identity_witness :
    ∃ s1 effs out pt grp0 grp1,
      FanOut.goalCB Scenario.node2 State.init 7 Scenario.ghFan = some (s1, effs) ∧
      effs = [Effect.setAccepted Scenario.ghFan, Effect.publishCommand out] ∧
      out.points.length = 1 ∧ out.points[0]? = some pt ∧ pt.groups.length = 2 ∧
      pt.groups[0]? = some grp0 ∧ grp0.group_number = 0 ∧ grp0.num_joints = 2 ∧
      pt.groups[1]? = some grp1 ∧ grp1.group_number = 1 ∧ grp1.num_joints = 1 := by
  obtain ⟨s1, effs, hcall⟩ :=
    (FanOut.group_identity Scenario.node2 State.init 7 Scenario.ghFan (by decide)).2
      (by decide) (by decide) (by decide)
  obtain ⟨out, h1, h2, h3⟩ :=
    (FanOut.group_identity Scenario.node2 State.init 7 Scenario.ghFan (by decide)).1
      s1 effs hcall
  obtain ⟨pt, hpt, hlen, hg⟩ := h3 0 ⟨[1 / 2, 3 / 5], [], [], [], 1000000000⟩ rfl
  obtain ⟨grp0, hg0, a1, a2⟩ := hg 0 Scenario.G0 rfl
  obtain ⟨grp1, hg1, b1, b2⟩ := hg 1 Scenario.G1 rfl
  exact ⟨s1, effs, out, pt, grp0, grp1, hcall, h1, h2, hpt, hlen,
    hg0, a1, a2, hg1, b1, b2⟩

/-! ## Runs in which the code departs from the specification -/

/-- C3: two goals on an IDLE group that the claim covers.  (i) The valid goal
`gh2` arrives before any feedback: `goalCB` does not return (the latest
feedback is read through the null pointer), so no accept and no publication is
made.  (ii) The only feedback received is at the last point of the goal `gh1`,
listed as `j2 = 2, j1 = 1`, and `gh1` arrives on the IDLE group: `goalCB` does
not succeed the goal; it accepts it, publishes its trajectory and the group is
ACTIVE. -/
theorem goalCB_idle_departs :
    State.init.has_active_goal_map 0 = false ∧
    State.init.last_trajectory_state_map 0 = none ∧
    Scenario.gh2.getGoal.trajectory.points ≠ [] ∧
    Scenario.node.lib.isSimilar (Scenario.node.group 0).joint_names
      Scenario.gh2.getGoal.trajectory.joint_names = true ∧
    goalCB Scenario.node State.init Scenario.gh2 0 = none ∧
    ∃ s1 tr, run Scenario.node State.init
          [Event.feedback Scenario.fbEndSwapped 0, Event.goal Scenario.gh1 0] =
        some (s1, tr) ∧
      tr = [Effect.setAccepted Scenario.gh1,
            Effect.publish 0
              { header := ⟨0, 0, "base"⟩
                joint_names := ["j1", "j2"]
                points :=
                  [{ num_groups := 1
                     groups := [{ group_number := 0, num_joints := 2, positions := [0, 0]
                                  velocities := [0, 0], accelerations := [0, 0]
                                  effort := [0, 0], time_from_start := 0 }] },
                   { num_groups := 1
                     groups := [{ group_number := 0, num_joints := 2, positions := [1, 2]
                                  velocities := [0, 0], accelerations := [0, 0]
                                  effort := [0, 0], time_from_start := 2000000000 }] }] }] ∧
      s1.has_active_goal_map 0 = true ∧ s1.active_goal_map 0 = some Scenario.gh1 := by
  refine ⟨rfl, rfl, by decide, by decide, ?_, ?_⟩
  · have h : (goalCB Scenario.node State.init Scenario.gh2 0).isNone = true := by decide!
    exact Option.isNone_iff_eq_none.mp h
  · have h : (run Scenario.node State.init
          [Event.feedback Scenario.fbEndSwapped 0, Event.goal Scenario.gh1 0]).map
          (fun r => (r.2, r.1.has_active_goal_map 0, r.1.active_goal_map 0)) =
        some ([Effect.setAccepted Scenario.gh1,
            Effect.publish 0
              { header := ⟨0, 0, "base"⟩
                joint_names := ["j1", "j2"]
                points :=
                  [{ num_groups := 1
                     groups := [{ group_number := 0, num_joints := 2, positions := [0, 0]
                                  velocities := [0, 0], accelerations := [0, 0]
                                  effort := [0, 0], time_from_start := 0 }] },
                   { num_groups := 1
                     groups := [{ group_number := 0, num_joints := 2, positions := [1, 2]
                                  velocities := [0, 0], accelerations := [0, 0]
                                  effort := [0, 0], time_from_start := 2000000000 }] }] }],
          true, some Scenario.gh1) := by decide!
    match hr : run Scenario.node State.init
          [Event.feedback Scenario.fbEndSwapped 0, Event.goal Scenario.gh1 0], h with
    | some (s1, tr), h =>
        simp only [Option.map_some', Option.some.injEq, Prod.mk.injEq] at h
        exact ⟨s1, tr, rfl, h.1, h.2.1, h.2.2⟩

/-- C5: two feedback messages for the ACTIVE group 0 with goal `gh1`, whose
trajectory ends at `j1 = 1, j2 = 2`, no robot status received.  (i) The
message at that end, listed as `j2 = 2, j1 = 1`, has joint names similar to
the group's and is within tolerance of the last point, yet no succeed is made
and the group stays ACTIVE.  (ii) The message `j2 = 1, j1 = 2`, away from the
end by 1 in each joint, marks the goal succeeded and the group becomes IDLE. -/
theorem controllerStateCB_swapped_feedback :
    Scenario.node.lib.isSimilar (Scenario.node.group 0).joint_names
      Scenario.fbEndSwapped.joint_names = true ∧
    (∃ s tr, run Scenario.node State.init
          [Event.feedback Scenario.fbStart 0, Event.goal Scenario.gh1 0,
           Event.feedback Scenario.fbEndSwapped 0] = some (s, tr) ∧
        history 1 tr = [Effect.setAccepted Scenario.gh1] ∧
        s.has_active_goal_map 0 = true ∧ s.active_goal_map 0 = some Scenario.gh1 ∧
        s.last_robot_status = none) ∧
    (∃ s tr, run Scenario.node State.init
          [Event.feedback Scenario.fbStart 0, Event.goal Scenario.gh1 0,
           Event.feedback Scenario.fbCross 0] = some (s, tr) ∧
        history 1 tr = [Effect.setAccepted Scenario.gh1, Effect.setSucceeded Scenario.gh1] ∧
        s.has_active_goal_map 0 = false) := by
  refine ⟨by decide, ?_, ?_⟩
  · have h : (run Scenario.node State.init
          [Event.feedback Scenario.fbStart 0, Event.goal Scenario.gh1 0,
           Event.feedback Scenario.fbEndSwapped 0]).map
          (fun r => (history 1 r.2, r.1.has_active_goal_map 0, r.1.active_goal_map 0,
                     r.1.last_robot_status)) =
        some ([Effect.setAccepted Scenario.gh1], true, some Scenario.gh1, none) := by
      decide!
    match hr : run Scenario.node State.init
          [Event.feedback Scenario.fbStart 0, Event.goal Scenario.gh1 0,
           Event.feedback Scenario.fbEndSwapped 0], h with
    | some (s, tr), h =>
        simp only [Option.map_some', Option.some.injEq, Prod.mk.injEq] at h
        exact ⟨s, tr, rfl, h.1, h.2.1, h.2.2.1, h.2.2.2⟩
  · have h : (run Scenario.node State.init
          [Event.feedback Scenario.fbStart 0, Event.goal Scenario.gh1 0,
           Event.feedback Scenario.fbCross 0]).map
          (fun r => (history 1 r.2, r.1.has_active_goal_map 0)) =
        some ([Effect.setAccepted Scenario.gh1, Effect.setSucceeded Scenario.gh1],
              false) := by
      decide!
    match hr : run Scenario.node State.init
          [Event.feedback Scenario.fbStart 0, Event.goal Scenario.gh1 0,
           Event.feedback Scenario.fbCross 0], h with
    | some (s, tr), h =>
        simp only [Option.map_some', Option.some.injEq, Prod.mk.injEq] at h
        exact ⟨s, tr, rfl, h.1, h.2⟩

/-- C6: a preemption that the claim covers.  Group 0 is ACTIVE with goal `gh2`
and its latest feedback is `j2 = 1, j1 = 2`; the valid goal `gh3` arrives,
whose trajectory ends at `j1 = 1, j2 = 2`, so the feedback is away from its
last point by 1 in each joint.  The calls of `goalCB` are: an empty trajectory
published, `gh2` aborted, `gh3` accepted, `gh3` succeeded; the trajectory of
`gh3` is not published and the group is IDLE. -/
theorem goalCB_preempt_departs :
    (∃ s0 tr0, run Scenario.node State.init
          [Event.feedback Scenario.fbStart 0, Event.goal Scenario.gh2 0,
           Event.feedback Scenario.fbCross 0] = some (s0, tr0) ∧
        s0.has_active_goal_map 0 = true ∧ s0.active_goal_map 0 = some Scenario.gh2 ∧
        s0.last_trajectory_state_map 0 = some Scenario.fbCross ∧
        ∃ s1 tr1, goalCB Scenario.node s0 Scenario.gh3 0 = some (s1, tr1) ∧
          tr1 = [Effect.publish 0 emptyTrajectory, Effect.setAborted Scenario.gh2,
                 Effect.setAccepted Scenario.gh3, Effect.setSucceeded Scenario.gh3] ∧
          s1.has_active_goal_map 0 = false) := by
  have h : (run Scenario.node State.init
          [Event.feedback Scenario.fbStart 0, Event.goal Scenario.gh2 0,
           Event.feedback Scenario.fbCross 0]).bind
        (fun r => (goalCB Scenario.node r.1 Scenario.gh3 0).map
          (fun q => (r.1.has_active_goal_map 0, r.1.active_goal_map 0,
                     r.1.last_trajectory_state_map 0, q.2, q.1.has_active_goal_map 0))) =
      some (true, some Scenario.gh2, some Scenario.fbCross,
            [Effect.publish 0 emptyTrajectory, Effect.setAborted Scenario.gh2,
             Effect.setAccepted Scenario.gh3, Effect.setSucceeded Scenario.gh3],
            false) := by
    decide!
  match hr : run Scenario.node State.init
          [Event.feedback Scenario.fbStart 0, Event.goal Scenario.gh2 0,
           Event.feedback Scenario.fbCross 0], h with
  | some (s0, tr0), h =>
      simp only [Option.some_bind] at h
      match hq : goalCB Scenario.node s0 Scenario.gh3 0, h with
      | some (s1, tr1), h =>
          simp only [Option.map_some', Option.some.injEq, Prod.mk.injEq] at h
          exact ⟨s0, tr0, rfl, h.1, h.2.1, h.2.2.1, s1, tr1, hq, h.2.2.2.1, h.2.2.2.2⟩

/-- C17: the tick that the claim excludes.  After one feedback message for
group 0 the feedback flag of the group is set, and a watchdog tick for group 0
leaves it set: the tick makes no call and clears only the member
`trajectory_state_recvd_`. -/
theorem watchdog_leaves_group_flag :
    Scenario.sFed.trajectory_state_recvd_map 0 = true ∧
    watchdog Scenario.sFed 0 =
      some ({ Scenario.sFed with trajectory_state_recvd := false }, []) ∧
    ∀ s1 e1, watchdog Scenario.sFed 0 = some (s1, e1) →
      s1.trajectory_state_recvd_map 0 = true := by
  have h2 : watchdog Scenario.sFed 0 =
      some ({ Scenario.sFed with trajectory_state_recvd := false }, []) := by
    simp [watchdog, Scenario.sFed, State.init]
  refine ⟨by decide, h2, ?_⟩
  intro s1 e1 h
  rw [h2] at h
  simp only [Option.some.injEq, Prod.mk.injEq] at h
  rw [← h.1]
  decide

/-- C12: the cancel that the claim excludes.  Group 0 accepts `gh1`, a motion
reply `NOT_READY` ends it and the group is IDLE; a cancel for `gh1` then
publishes a trajectory without points on the group's topic and marks `gh1`
canceled. -/
theorem cancelCB_after_goal_ended :
    ∃ s tr, run Scenario.node State.init
          [Event.feedback Scenario.fbStart 0, Event.goal Scenario.gh1 0,
           Event.motionReply ⟨MotionReplyResult.NOT_READY⟩ 0] = some (s, tr) ∧
      s.has_active_goal_map 0 = false ∧
      ∃ s1, cancelCB Scenario.node s Scenario.gh1 0 =
        some (s1, [Effect.publish 0 { header := default, joint_names := ["j1", "j2"]
                                      points := [] },
                   Effect.setCanceled Scenario.gh1]) := by
  have h : (run Scenario.node State.init
          [Event.feedback Scenario.fbStart 0, Event.goal Scenario.gh1 0,
           Event.motionReply ⟨MotionReplyResult.NOT_READY⟩ 0]).map
        (fun r => (r.1.has_active_goal_map 0, r.1.active_goal_map 0)) =
      some (false, some Scenario.gh1) := by decide!
  match hr : run Scenario.node State.init
          [Event.feedback Scenario.fbStart 0, Event.goal Scenario.gh1 0,
           Event.motionReply ⟨MotionReplyResult.NOT_READY⟩ 0], h with
  | some (s, tr), h =>
      simp only [Option.map_some', Option.some.injEq, Prod.mk.injEq] at h
      refine ⟨s, tr, rfl, h.1,
        { s with has_active_goal_map := Function.update s.has_active_goal_map 0 false }, ?_⟩
      simp only [cancelCB, handleEq, h.2, beq_self_eq_true, if_true, onHandle]
      rfl

/-- C19: the feedback that the claim excludes.  For the group `[j1, j2]` and
the trajectory `T1` ending at `j1 = 1, j2 = 2`, the feedback `j1 = 1, j2 = 2`
is within the goal constraints, and the same feedback listed as
`j2 = 2, j1 = 1` is not: its positions are paired with the group's joint
names by array position, and its joint names are not read. -/
theorem withinGoalConstraints_reads_positions_by_index :
    Scenario.fbEndSwapped.joint_names = [Scenario.fbEnd.joint_names[1]!,
                                         Scenario.fbEnd.joint_names[0]!] ∧
    Scenario.fbEndSwapped.actual.positions = [Scenario.fbEnd.actual.positions[1]!,
                                              Scenario.fbEnd.actual.positions[0]!] ∧
    withinGoalConstraints Scenario.node (Scenario.sWith Scenario.fbEnd)
        (some Scenario.fbEnd) Scenario.T1 0 = some true ∧
    withinGoalConstraints Scenario.node (Scenario.sWith Scenario.fbEndSwapped)
        (some Scenario.fbEndSwapped) Scenario.T1 0 = some false := by
  refine ⟨by decide!, by decide!, by decide!, by decide!⟩

/-! ## Sessions of the groups along a run -/

theorem accepted_append (h : Nat) (tr e : List Effect) :
    accepted h (tr ++ e) = (accepted h tr || accepted h e) := by
  simp [accepted, List.any_append]

theorem terminated_append (h : Nat) (tr e : List Effect) :
    terminated h (tr ++ e) = (terminated h tr || terminated h e) := by
  simp [terminated, List.any_append]

theorem endCount_append (h : Nat) (tr e : List Effect) :
    endCount h (tr ++ e) = endCount h tr + endCount h e := by
  simp [endCount, List.countP_append]

theorem endCount_eq_zero (h : Nat) (tr : List Effect) (ht : terminated h tr = false) :
    endCount h tr = 0 := by
  simp only [endCount, List.countP_eq_zero]
  intro e he hc
  have hne : (e.isTerminal && e.onGoal h) = false := by
    simp only [terminated, List.any_eq_false] at ht
    simpa using ht e he
  cases e <;> simp_all [Effect.isEnd, Effect.isTerminal]

theorem goalIdsOf_append (sub : List (GoalHandle × Nat)) (gh : GoalHandle) (g : Nat) :
    goalIdsOf (sub ++ [(gh, g)]) = goalIdsOf sub ++ [gh.goal_id] := by
  simp [goalIdsOf]

theorem mem_goalIdsOf (sub : List (GoalHandle × Nat)) (gh : GoalHandle) (g : Nat)
    (h : (gh, g) ∈ sub) : gh.goal_id ∈ goalIdsOf sub :=
  List.mem_map.mpr ⟨(gh, g), h, rfl⟩

theorem SessionInv.initial : SessionInv (fun _ => false) (fun _ => none) [] [] where
  stored_of_active := by intro g h; simp at h
  stored_sub := by intro g a h; simp at h
  stored_acc := by intro g a h; simp at h
  stored_term := by intro g a h; simp at h
  sub_nodup := List.nodup_nil
  clean := by intro h _; exact ⟨rfl, rfl⟩
  pending_stored := by intro gh g h; simp at h
  end_le := by intro h; simp [endCount]

/-- Two groups never store handles with the same goal id. -/
theorem SessionInv.stored_group_unique {has : Nat → Bool} {stored : Nat → Option GoalHandle}
    {tr : List Effect} {sub : List (GoalHandle × Nat)} (inv : SessionInv has stored tr sub)
    (g1 g2 : Nat) (a1 a2 : GoalHandle) (h1 : stored g1 = some a1) (h2 : stored g2 = some a2)
    (hid : a1.goal_id = a2.goal_id) : g1 = g2 := by
  have := List.inj_on_of_nodup_map inv.sub_nodup (inv.stored_sub g1 a1 h1)
    (inv.stored_sub g2 a2 h2) hid
  exact (Prod.mk.inj this).2

/-- Calls that accept nothing, end nothing that was not ended, and are no
succeed, abort or reject keep the invariant. -/
theorem SessionInv.keep {has : Nat → Bool} {stored : Nat → Option GoalHandle}
    {tr : List Effect} {sub : List (GoalHandle × Nat)} (inv : SessionInv has stored tr sub)
    (e1 : List Effect) (hacc : ∀ h, accepted h e1 = false)
    (hterm : ∀ h, terminated h e1 = true → terminated h tr = true)
    (hend : ∀ h, endCount h e1 = 0) : SessionInv has stored (tr ++ e1) sub := by
  have ha : ∀ h, accepted h (tr ++ e1) = accepted h tr := by
    intro h; simp [accepted_append, hacc]
  have ht : ∀ h, terminated h (tr ++ e1) = terminated h tr := by
    intro h
    rw [terminated_append]
    cases h1 : terminated h e1
    · simp
    · simp [hterm h h1]
  have hc : ∀ h, endCount h (tr ++ e1) = endCount h tr := by
    intro h; simp [endCount_append, hend]
  exact {
    stored_of_active := inv.stored_of_active
    stored_sub := inv.stored_sub
    stored_acc := by intro g a h; rw [ha]; exact inv.stored_acc g a h
    stored_term := by intro g a h; rw [ht]; exact inv.stored_term g a h
    sub_nodup := inv.sub_nodup
    clean := by intro h hh; rw [ha, ht]; exact inv.clean h hh
    pending_stored := by
      intro gh g hm h1 h2
      rw [ha] at h1
      rw [ht] at h2
      exact inv.pending_stored gh g hm h1 h2
    end_le := by intro h; rw [hc]; exact inv.end_le h }

/-- A terminal call on the active goal of group `g`, with the active flag
cleared, keeps the invariant. -/
theorem SessionInv.end_active {has : Nat → Bool} {stored : Nat → Option GoalHandle}
    {tr : List Effect} {sub : List (GoalHandle × Nat)} (inv : SessionInv has stored tr sub)
    (g : Nat) (a : GoalHandle) (e1 : List Effect)
    (hact : has g = true) (hst : stored g = some a)
    (hacc : ∀ h, accepted h e1 = false)
    (hterm : ∀ h, terminated h e1 = decide (h = a.goal_id))
    (hend : ∀ h, endCount h e1 ≤ if h = a.goal_id then 1 else 0) :
    SessionInv (Function.update has g false) stored (tr ++ e1) sub := by
  have ha : ∀ h, accepted h (tr ++ e1) = accepted h tr := by
    intro h; simp [accepted_append, hacc]
  have ht : ∀ h, h ≠ a.goal_id → terminated h (tr ++ e1) = terminated h tr := by
    intro h hh; simp [terminated_append, hterm, hh]
  have hta : terminated a.goal_id (tr ++ e1) = true := by
    simp [terminated_append, hterm]
  have ht0 : terminated a.goal_id tr = false := by
    have := inv.stored_term g a hst
    simpa [hact] using this
  exact {
    stored_of_active := by
      intro g1 h1
      by_cases hg : g1 = g
      · subst hg; simp at h1
      · rw [Function.update_noteq hg] at h1
        exact inv.stored_of_active g1 h1
    stored_sub := inv.stored_sub
    stored_acc := by intro g1 a1 h; rw [ha]; exact inv.stored_acc g1 a1 h
    stored_term := by
      intro g1 a1 h1
      by_cases hg : g1 = g
      · subst hg
        rw [hst] at h1
        simp only [Option.some.injEq] at h1
        subst h1
        simp [hta]
      · have hid : a1.goal_id ≠ a.goal_id := fun e => hg (inv.stored_group_unique g1 g a1 a h1 hst e)
        rw [ht _ hid, Function.update_noteq hg]
        exact inv.stored_term g1 a1 h1
    sub_nodup := inv.sub_nodup
    clean := by
      intro h hh
      have hid : h ≠ a.goal_id := fun e => hh (e ▸ mem_goalIdsOf sub a g (inv.stored_sub g a hst))
      rw [ha, ht h hid]
      exact inv.clean h hh
    pending_stored := by
      intro gh g1 hm h1 h2
      have hid : gh.goal_id ≠ a.goal_id := by
        intro e
        rw [e, hta] at h2
        simp at h2
      rw [ha] at h1
      rw [ht _ hid] at h2
      obtain ⟨h3, h4⟩ := inv.pending_stored gh g1 hm h1 h2
      have hg : g1 ≠ g := by
        intro e
        subst e
        rw [hst] at h4
        simp only [Option.some.injEq] at h4
        subst h4
        exact hid rfl
      exact ⟨by rw [Function.update_noteq hg]; exact h3, h4⟩
    end_le := by
      intro h
      rw [endCount_append]
      by_cases hid : h = a.goal_id
      · subst hid
        have h0 := endCount_eq_zero _ tr ht0
        have h1 := hend a.goal_id
        simp only [if_true] at h1
        omega
      · have h1 := hend h
        simp only [hid, if_false] at h1
        have h2 := inv.end_le h
        omega }

/-- Calls on a fresh handle that end it at once (a reject, or an accept with a
succeed) keep the invariant. -/
theorem SessionInv.fresh_ended {has : Nat → Bool} {stored : Nat → Option GoalHandle}
    {tr : List Effect} {sub : List (GoalHandle × Nat)} (inv : SessionInv has stored tr sub)
    (gh : GoalHandle) (g : Nat) (e1 : List Effect)
    (hfresh : gh.goal_id ∉ goalIdsOf sub)
    (hacc : ∀ h, accepted h e1 = true → h = gh.goal_id)
    (hterm : ∀ h, terminated h e1 = decide (h = gh.goal_id))
    (hend : ∀ h, endCount h e1 ≤ if h = gh.goal_id then 1 else 0) :
    SessionInv has stored (tr ++ e1) (sub ++ [(gh, g)]) := by
  have ha : ∀ h, h ≠ gh.goal_id → accepted h (tr ++ e1) = accepted h tr := by
    intro h hh
    rw [accepted_append]
    cases h1 : accepted h e1
    · simp
    · exact absurd (hacc h h1) hh
  have ht : ∀ h, h ≠ gh.goal_id → terminated h (tr ++ e1) = terminated h tr := by
    intro h hh; simp [terminated_append, hterm, hh]
  have hta : terminated gh.goal_id (tr ++ e1) = true := by
    simp [terminated_append, hterm]
  have hne : ∀ g1 a1, stored g1 = some a1 → a1.goal_id ≠ gh.goal_id := by
    intro g1 a1 h1 e
    exact hfresh (e ▸ mem_goalIdsOf sub a1 g1 (inv.stored_sub g1 a1 h1))
  exact {
    stored_of_active := inv.stored_of_active
    stored_sub := by
      intro g1 a1 h1
      exact List.mem_append_left _ (inv.stored_sub g1 a1 h1)
    stored_acc := by
      intro g1 a1 h1
      rw [ha _ (hne g1 a1 h1)]
      exact inv.stored_acc g1 a1 h1
    stored_term := by
      intro g1 a1 h1
      rw [ht _ (hne g1 a1 h1)]
      exact inv.stored_term g1 a1 h1
    sub_nodup := by
      rw [goalIdsOf_append]
      exact List.Nodup.append inv.sub_nodup (List.nodup_singleton _)
        (by
          intro x hx hx1
          simp only [List.mem_singleton] at hx1
          exact hfresh (hx1 ▸ hx))
    clean := by
      intro h hh
      rw [goalIdsOf_append] at hh
      simp only [List.mem_append, List.mem_singleton, not_or] at hh
      rw [ha h hh.2, ht h hh.2]
      exact inv.clean h hh.1
    pending_stored := by
      intro gh1 g1 hm h1 h2
      rcases List.mem_append.mp hm with hm | hm
      · have hid : gh1.goal_id ≠ gh.goal_id := fun e => hfresh (e ▸ mem_goalIdsOf sub gh1 g1 hm)
        rw [ha _ hid] at h1
        rw [ht _ hid] at h2
        exact inv.pending_stored gh1 g1 hm h1 h2
      · simp only [List.mem_singleton, Prod.mk.injEq] at hm
        rw [hm.1, hta] at h2
        simp at h2
    end_le := by
      intro h
      rw [endCount_append]
      by_cases hid : h = gh.goal_id
      · subst hid
        have h0 := endCount_eq_zero _ tr (inv.clean _ hfresh).2
        have h1 := hend gh.goal_id
        simp only [if_true] at h1
        omega
      · have h1 := hend h
        simp only [hid, if_false] at h1
        have h2 := inv.end_le h
        omega }

/-- Accepting a fresh handle and storing it as the active goal of an idle group
keeps the invariant. -/
theorem SessionInv.store_active {has : Nat → Bool} {stored : Nat → Option GoalHandle}
    {tr : List Effect} {sub : List (GoalHandle × Nat)} (inv : SessionInv has stored tr sub)
    (gh : GoalHandle) (g : Nat) (e1 : List Effect)
    (hfresh : gh.goal_id ∉ goalIdsOf sub) (hidle : has g = false)
    (hacc : ∀ h, accepted h e1 = decide (h = gh.goal_id))
    (hterm : ∀ h, terminated h e1 = false)
    (hend : ∀ h, endCount h e1 = 0) :
    SessionInv (Function.update has g true) (Function.update stored g (some gh))
      (tr ++ e1) (sub ++ [(gh, g)]) := by
  have ha : ∀ h, h ≠ gh.goal_id → accepted h (tr ++ e1) = accepted h tr := by
    intro h hh; simp [accepted_append, hacc, hh]
  have haa : accepted gh.goal_id (tr ++ e1) = true := by
    simp [accepted_append, hacc]
  have ht : ∀ h, terminated h (tr ++ e1) = terminated h tr := by
    intro h; simp [terminated_append, hterm]
  have hne : ∀ g1 a1, stored g1 = some a1 → a1.goal_id ≠ gh.goal_id := by
    intro g1 a1 h1 e
    exact hfresh (e ▸ mem_goalIdsOf sub a1 g1 (inv.stored_sub g1 a1 h1))
  exact {
    stored_of_active := by
      intro g1 h1
      by_cases hg : g1 = g
      · subst hg; exact ⟨gh, by simp⟩
      · rw [Function.update_noteq hg] at h1 ⊢
        exact inv.stored_of_active g1 h1
    stored_sub := by
      intro g1 a1 h1
      by_cases hg : g1 = g
      · subst hg
        simp only [Function.update_same, Option.some.injEq] at h1
        subst h1
        simp
      · rw [Function.update_noteq hg] at h1
        exact List.mem_append_left _ (inv.stored_sub g1 a1 h1)
    stored_acc := by
      intro g1 a1 h1
      by_cases hg : g1 = g
      · subst hg
        simp only [Function.update_same, Option.some.injEq] at h1
        subst h1
        exact haa
      · rw [Function.update_noteq hg] at h1
        rw [ha _ (hne g1 a1 h1)]
        exact inv.stored_acc g1 a1 h1
    stored_term := by
      intro g1 a1 h1
      rw [ht]
      by_cases hg : g1 = g
      · subst hg
        simp only [Function.update_same, Option.some.injEq] at h1
        subst h1
        simpa using (inv.clean _ hfresh).2
      · rw [Function.update_noteq hg] at h1 ⊢
        exact inv.stored_term g1 a1 h1
    sub_nodup := by
      rw [goalIdsOf_append]
      exact List.Nodup.append inv.sub_nodup (List.nodup_singleton _)
        (by
          intro x hx hx1
          simp only [List.mem_singleton] at hx1
          exact hfresh (hx1 ▸ hx))
    clean := by
      intro h hh
      rw [goalIdsOf_append] at hh
      simp only [List.mem_append, List.mem_singleton, not_or] at hh
      rw [ha h hh.2, ht h]
      exact inv.clean h hh.1
    pending_stored := by
      intro gh1 g1 hm h1 h2
      rcases List.mem_append.mp hm with hm | hm
      · have hid : gh1.goal_id ≠ gh.goal_id := fun e => hfresh (e ▸ mem_goalIdsOf sub gh1 g1 hm)
        rw [ha _ hid] at h1
        rw [ht] at h2
        obtain ⟨h3, h4⟩ := inv.pending_stored gh1 g1 hm h1 h2
        have hg : g1 ≠ g := by
          intro e
          subst e
          rw [hidle] at h3
          simp at h3
        exact ⟨by rw [Function.update_noteq hg]; exact h3,
          by rw [Function.update_noteq hg]; exact h4⟩
      · simp only [List.mem_singleton, Prod.mk.injEq] at hm
        obtain ⟨rfl, rfl⟩ := hm
        exact ⟨by simp, by simp⟩
    end_le := by
      intro h
      rw [endCount_append, hend]
      exact inv.end_le h }

theorem no_handle_summary (pre : List Effect) (hpre : ∀ e ∈ pre, e.goalId? = none) (h : Nat) :
    accepted h pre = false ∧ terminated h pre = false ∧ endCount h pre = 0 := by
  have h0 : ∀ e ∈ pre, e.onGoal h = false := by
    intro e he
    simp [Effect.onGoal, hpre e he]
  refine ⟨?_, ?_, ?_⟩
  · simp only [accepted, List.any_eq_false]
    intro e he
    simp [h0 e he]
  · simp only [terminated, List.any_eq_false]
    intro e he
    simp [h0 e he]
  · simp only [endCount, List.countP_eq_zero]
    intro e he
    simp [h0 e he]

theorem terminal_summary (a : GoalHandle) (t : Effect) (pre : List Effect)
    (ht : t ∈ terminalsOf a) (hpre : ∀ e ∈ pre, e.goalId? = none) (h : Nat) :
    accepted h (pre ++ [t]) = false ∧
    terminated h (pre ++ [t]) = decide (h = a.goal_id) ∧
    endCount h (pre ++ [t]) ≤ (if h = a.goal_id then 1 else 0) ∧
    (t = Effect.setCanceled a → endCount h (pre ++ [t]) = 0) := by
  obtain ⟨h1, h2, h3⟩ := no_handle_summary pre hpre h
  rw [accepted_append, terminated_append, endCount_append, h1, h2, h3]
  simp only [terminalsOf, List.mem_cons, List.mem_singleton, List.not_mem_nil, or_false] at ht
  by_cases hh : h = a.goal_id
  · rcases ht with rfl | rfl | rfl | rfl <;>
      simp [accepted, terminated, endCount, Effect.isAccept, Effect.isTerminal, Effect.isEnd,
        Effect.onGoal, Effect.goalId?, hh]
  · rcases ht with rfl | rfl | rfl | rfl <;>
      simp [accepted, terminated, endCount, Effect.isAccept, Effect.isTerminal, Effect.isEnd,
        Effect.onGoal, Effect.goalId?, hh, Ne.symm hh]

theorem terminate_sinv (s : State) (g : Nat) (tr pre : List Effect)
    (sub : List (GoalHandle × Nat)) (call : GoalHandle → Effect)
    (inv : SessionInv s.has_active_goal_map s.active_goal_map tr sub)
    (hact : s.has_active_goal_map g = true)
    (hcall : ∀ a, call a ∈ terminalsOf a)
    (hpre : ∀ e ∈ pre, e.goalId? = none) :
    SessionInv (Function.update s.has_active_goal_map g false) s.active_goal_map
      (tr ++ (pre ++ onHandle (s.active_goal_map g) call)) sub := by
  obtain ⟨a, ha⟩ := inv.stored_of_active g hact
  rw [ha]
  exact inv.end_active g a _ hact ha
    (fun h => (terminal_summary a (call a) pre (hcall a) hpre h).1)
    (fun h => (terminal_summary a (call a) pre (hcall a) hpre h).2.1)
    (fun h => (terminal_summary a (call a) pre (hcall a) hpre h).2.2.1)

theorem abortGoal_sinv (s : State) (g : Nat) (tr : List Effect)
    (sub : List (GoalHandle × Nat))
    (inv : SessionInv s.has_active_goal_map s.active_goal_map tr sub)
    (hact : s.has_active_goal_map g = true) :
    SessionInv (abortGoal s g).1.has_active_goal_map (abortGoal s g).1.active_goal_map
      (tr ++ (abortGoal s g).2) sub :=
  terminate_sinv s g tr [Effect.publish g emptyTrajectory] sub Effect.setAborted inv hact
    (by intro a; simp [terminalsOf])
    (by intro e he; simp only [List.mem_singleton] at he; subst he; rfl)

theorem cancelCB_sinv (n : Node) (s s1 : State) (gh : GoalHandle) (g : Nat)
    (tr e1 : List Effect) (sub : List (GoalHandle × Nat))
    (inv : SessionInv s.has_active_goal_map s.active_goal_map tr sub)
    (hstep : cancelCB n s gh g = some (s1, e1)) :
    SessionInv s1.has_active_goal_map s1.active_goal_map (tr ++ e1) sub := by
  have hnil : SessionInv s.has_active_goal_map s.active_goal_map (tr ++ []) sub := by
    simpa using inv
  unfold cancelCB at hstep
  split at hstep
  · rename_i heq
    simp only [Option.some.injEq, Prod.mk.injEq] at hstep
    obtain ⟨rfl, rfl⟩ := hstep
    cases ha : s.active_goal_map g with
    | none => simp [handleEq, ha] at heq
    | some a =>
      have hpre : ∀ e ∈ [Effect.publish g
          { emptyTrajectory with joint_names := (n.group g).joint_names }],
          e.goalId? = none := by
        intro e he; simp only [List.mem_singleton] at he; subst he; rfl
      have hcan : Effect.setCanceled a ∈ terminalsOf a := by simp [terminalsOf]
      cases hact : s.has_active_goal_map g
      · -- the stored goal has ended before: the cancel changes nothing of the invariant
        have hterm0 : terminated a.goal_id tr = true := by
          simpa [hact] using inv.stored_term g a ha
        have := inv.keep
          ([Effect.publish g { emptyTrajectory with joint_names := (n.group g).joint_names }]
            ++ [Effect.setCanceled a])
          (fun h => (terminal_summary a _ _ hcan hpre h).1)
          (by
            intro h h1
            rw [(terminal_summary a _ _ hcan hpre h).2.1] at h1
            simp only [decide_eq_true_eq] at h1
            rw [h1]; exact hterm0)
          (fun h => (terminal_summary a _ _ hcan hpre h).2.2.2 rfl)
        simp only [onHandle, update_same_value s.has_active_goal_map g false hact]
        exact this
      · have := terminate_sinv s g tr _ sub Effect.setCanceled inv hact
          (by intro a; simp [terminalsOf]) hpre
        rw [ha] at this
        exact this
  · simp only [Option.some.injEq, Prod.mk.injEq] at hstep
    obtain ⟨rfl, rfl⟩ := hstep
    exact hnil

theorem motionReplyCB_sinv (s s1 : State) (msg : MotionReplyResult) (g : Nat)
    (tr e1 : List Effect) (sub : List (GoalHandle × Nat))
    (inv : SessionInv s.has_active_goal_map s.active_goal_map tr sub)
    (hstep : motionReplyCB s msg g = some (s1, e1)) :
    SessionInv s1.has_active_goal_map s1.active_goal_map (tr ++ e1) sub := by
  unfold motionReplyCB at hstep
  cases hact : s.has_active_goal_map g
  · simp only [hact, Bool.not_false, if_true, Option.some.injEq, Prod.mk.injEq] at hstep
    obtain ⟨rfl, rfl⟩ := hstep
    simpa using inv
  · simp only [hact, Bool.not_true, Bool.false_eq_true, if_false] at hstep
    split at hstep
    · simp only [Option.some.injEq, Prod.mk.injEq] at hstep
      obtain ⟨rfl, rfl⟩ := hstep
      have := terminate_sinv s g tr [] sub
        (fun a => Effect.setRejected a FollowJointTrajectoryResult.SUCCESSFUL "")
        inv hact (by intro a; simp [terminalsOf]) (by intro e he; simp at he)
      simpa using this
    · split at hstep
      · simp only [Option.some.injEq, Prod.mk.injEq] at hstep
        obtain ⟨rfl, rfl⟩ := hstep
        exact abortGoal_sinv s g tr sub inv hact
      · simp only [Option.some.injEq, Prod.mk.injEq] at hstep
        obtain ⟨rfl, rfl⟩ := hstep
        simpa using inv

theorem watchdog_sinv (s s1 : State) (g : Nat)
    (tr e1 : List Effect) (sub : List (GoalHandle × Nat))
    (inv : SessionInv s.has_active_goal_map s.active_goal_map tr sub)
    (hstep : watchdog s g = some (s1, e1)) :
    SessionInv s1.has_active_goal_map s1.active_goal_map (tr ++ e1) sub := by
  unfold watchdog at hstep
  cases hact : s.has_active_goal_map g
  · simp only [hact, Bool.false_eq_true, if_false, Option.some.injEq, Prod.mk.injEq] at hstep
    obtain ⟨rfl, rfl⟩ := hstep
    simpa using inv
  · cases hrec : s.trajectory_state_recvd_map g
    · simp only [hact, hrec, if_true, Bool.not_false, Option.some.injEq,
        Prod.mk.injEq] at hstep
      obtain ⟨rfl, rfl⟩ := hstep
      exact abortGoal_sinv s g tr sub inv hact
    · simp only [hact, hrec, if_true, Bool.not_true, Bool.false_eq_true, if_false,
        Option.some.injEq, Prod.mk.injEq] at hstep
      obtain ⟨rfl, rfl⟩ := hstep
      simpa using inv

theorem controllerStateCB_sinv (n : Node) (s s1 : State)
    (msg : FollowJointTrajectoryFeedback) (g : Nat)
    (tr e1 : List Effect) (sub : List (GoalHandle × Nat))
    (inv : SessionInv s.has_active_goal_map s.active_goal_map tr sub)
    (hstep : controllerStateCB n s msg g = some (s1, e1)) :
    SessionInv s1.has_active_goal_map s1.active_goal_map (tr ++ e1) sub := by
  cases hact : s.has_active_goal_map g
  · simp only [controllerStateCB, hact, Bool.not_false, if_true, Option.some.injEq,
      Prod.mk.injEq] at hstep
    obtain ⟨rfl, rfl⟩ := hstep
    simpa using inv
  · have hsucc := terminate_sinv s g tr [] sub Effect.setSucceeded inv hact
      (by intro a; simp [terminalsOf]) (by intro e he; simp at he)
    simp only [List.nil_append] at hsucc
    unfold controllerStateCB at hstep
    simp only [hact, Bool.not_true, Bool.false_eq_true, if_false] at hstep
    split at hstep
    · simp only [Option.some.injEq, Prod.mk.injEq] at hstep
      obtain ⟨rfl, rfl⟩ := hstep
      simpa using inv
    · split at hstep
      · simp only [Option.some.injEq, Prod.mk.injEq] at hstep
        obtain ⟨rfl, rfl⟩ := hstep
        simpa using inv
      · split at hstep
        · simp at hstep
        · simp only [Option.some.injEq, Prod.mk.injEq] at hstep
          obtain ⟨rfl, rfl⟩ := hstep
          simpa using inv
        · split at hstep
          · split at hstep
            · simp only [Option.some.injEq, Prod.mk.injEq] at hstep
              obtain ⟨rfl, rfl⟩ := hstep
              exact hsucc
            · split at hstep
              · simp only [Option.some.injEq, Prod.mk.injEq] at hstep
                obtain ⟨rfl, rfl⟩ := hstep
                exact hsucc
              · simp only [Option.some.injEq, Prod.mk.injEq] at hstep
                obtain ⟨rfl, rfl⟩ := hstep
                simpa using inv
          · simp only [Option.some.injEq, Prod.mk.injEq] at hstep
            obtain ⟨rfl, rfl⟩ := hstep
            exact hsucc

theorem goalCB_sinv (n : Node) (s s1 : State) (gh : GoalHandle) (g : Nat)
    (tr e1 : List Effect) (sub : List (GoalHandle × Nat))
    (inv : SessionInv s.has_active_goal_map s.active_goal_map tr sub)
    (hfresh : gh.goal_id ∉ goalIdsOf sub)
    (hstep : goalCB n s gh g = some (s1, e1)) :
    SessionInv s1.has_active_goal_map s1.active_goal_map (tr ++ e1) (sub ++ [(gh, g)]) := by
  have hrej : ∀ code text,
      SessionInv s.has_active_goal_map s.active_goal_map
        (tr ++ [Effect.setRejected gh code text]) (sub ++ [(gh, g)]) := by
    intro code text
    refine inv.fresh_ended gh g _ hfresh ?_ ?_ ?_
    · intro h; simp [accepted, Effect.isAccept]
    · intro h
      by_cases hh : h = gh.goal_id
      · simp [terminated, Effect.isTerminal, Effect.onGoal, Effect.goalId?, hh]
      · simp [terminated, Effect.isTerminal, Effect.onGoal, Effect.goalId?, hh, Ne.symm hh]
    · intro h
      by_cases hh : h = gh.goal_id
      · simp [endCount, Effect.isEnd, Effect.onGoal, Effect.goalId?, hh]
      · simp [endCount, Effect.isEnd, Effect.onGoal, Effect.goalId?, hh, Ne.symm hh]
  have hdone : ∀ (has : Nat → Bool) (tr0 : List Effect),
      SessionInv has s.active_goal_map tr0 sub →
      SessionInv has s.active_goal_map
        (tr0 ++ [Effect.setAccepted gh, Effect.setSucceeded gh]) (sub ++ [(gh, g)]) := by
    intro has tr0 inv0
    refine inv0.fresh_ended gh g _ hfresh ?_ ?_ ?_
    · intro h
      by_cases hh : h = gh.goal_id
      · simp [hh]
      · simp [accepted, Effect.isAccept, Effect.onGoal, Effect.goalId?, hh, Ne.symm hh]
    · intro h
      by_cases hh : h = gh.goal_id
      · simp [terminated, Effect.isTerminal, Effect.onGoal, Effect.goalId?, hh]
      · simp [terminated, Effect.isTerminal, Effect.onGoal, Effect.goalId?, hh, Ne.symm hh]
    · intro h
      by_cases hh : h = gh.goal_id
      · simp [endCount, Effect.isEnd, Effect.onGoal, Effect.goalId?, hh]
      · simp [endCount, Effect.isEnd, Effect.onGoal, Effect.goalId?, hh, Ne.symm hh]
  have hactv : ∀ (has : Nat → Bool) (tr0 : List Effect),
      SessionInv has s.active_goal_map tr0 sub → has g = false →
      SessionInv (Function.update has g true) (Function.update s.active_goal_map g (some gh))
        (tr0 ++ [Effect.setAccepted gh, Effect.publish g (dynTrajOf n gh g)])
        (sub ++ [(gh, g)]) := by
    intro has tr0 inv0 hidle
    refine inv0.store_active gh g _ hfresh hidle ?_ ?_ ?_
    · intro h
      by_cases hh : h = gh.goal_id
      · simp [accepted, Effect.isAccept, Effect.onGoal, Effect.goalId?, hh]
      · simp [accepted, Effect.isAccept, Effect.onGoal, Effect.goalId?, hh, Ne.symm hh]
    · intro h; simp [terminated, Effect.isTerminal]
    · intro h; simp [endCount, Effect.isEnd]
  by_cases hpts : gh.getGoal.trajectory.points = []
  · rw [goalCB_of_no_points n s gh g hpts] at hstep
    simp only [Option.some.injEq, Prod.mk.injEq] at hstep
    obtain ⟨rfl, rfl⟩ := hstep
    exact hrej _ _
  · cases hsim : n.lib.isSimilar (n.group g).joint_names gh.getGoal.trajectory.joint_names
    · rw [goalCB_of_other_joints n s gh g hpts hsim] at hstep
      simp only [Option.some.injEq, Prod.mk.injEq] at hstep
      obtain ⟨rfl, rfl⟩ := hstep
      exact hrej _ _
    · cases hw : withinGoalConstraints n s (s.last_trajectory_state_map g)
          gh.getGoal.trajectory g with
      | none =>
        have h1 : gh.getGoal.trajectory.points.isEmpty = false := by
          simpa [List.isEmpty_iff] using hpts
        have hw1 : withinGoalConstraints n
            { s with has_active_goal_map := Function.update s.has_active_goal_map g false }
            (s.last_trajectory_state_map g) gh.getGoal.trajectory g = none := by
          simp only [withinGoalConstraints] at hw ⊢
          exact hw
        cases hact : s.has_active_goal_map g <;>
          simp [goalCB, abortGoal, h1, hsim, hact, hw, hw1] at hstep
      | some b =>
        cases hact : s.has_active_goal_map g
        · rw [goalCB_valid_idle n s gh g hpts hsim hact b hw] at hstep
          cases b
          · simp only [Bool.false_eq_true, if_false, Option.some.injEq, Prod.mk.injEq] at hstep
            obtain ⟨rfl, rfl⟩ := hstep
            exact hactv _ _ inv hact
          · simp only [if_true, Option.some.injEq, Prod.mk.injEq] at hstep
            obtain ⟨rfl, rfl⟩ := hstep
            simp only [update_same_value s.has_active_goal_map g false hact]
            exact hdone _ _ inv
        · have inv0 := abortGoal_sinv s g tr sub inv hact
          have hidle0 : (abortGoal s g).1.has_active_goal_map g = false := by
            simp [abortGoal]
          rw [goalCB_valid_active n s gh g hpts hsim hact b hw] at hstep
          cases b
          · simp only [Bool.false_eq_true, if_false, Option.some.injEq, Prod.mk.injEq] at hstep
            obtain ⟨rfl, rfl⟩ := hstep
            have := hactv _ _ inv0 hidle0
            rw [List.append_assoc] at this
            exact this
          · simp only [if_true, Option.some.injEq, Prod.mk.injEq] at hstep
            obtain ⟨rfl, rfl⟩ := hstep
            have := hdone _ _ inv0
            rw [List.append_assoc] at this
            simp only [Function.update_idem]
            exact this

theorem step_sinv (n : Node) (s s1 : State) (e : Event)
    (tr e1 : List Effect) (sub : List (GoalHandle × Nat))
    (inv : SessionInv s.has_active_goal_map s.active_goal_map tr sub)
    (hfresh : (goalIdsOf (sub ++ submitted [e])).Nodup)
    (hstep : step n s e = some (s1, e1)) :
    SessionInv s1.has_active_goal_map s1.active_goal_map (tr ++ e1)
      (sub ++ submitted [e]) := by
  cases e with
  | goal gh g =>
    have hf : gh.goal_id ∉ goalIdsOf sub := by
      simp only [submitted, goalIdsOf_append] at hfresh
      intro hm
      have := List.disjoint_of_nodup_append hfresh hm
      simp at this
    exact goalCB_sinv n s s1 gh g tr e1 sub inv hf hstep
  | cancel gh g =>
    simpa [submitted] using cancelCB_sinv n s s1 gh g tr e1 sub inv hstep
  | feedback msg g =>
    simpa [submitted] using controllerStateCB_sinv n s s1 msg g tr e1 sub inv hstep
  | motionReply msg g =>
    simpa [submitted] using motionReplyCB_sinv s s1 msg g tr e1 sub inv hstep
  | robotStatus msg =>
    simp only [step, robotStatusCB, Option.some.injEq, Prod.mk.injEq] at hstep
    obtain ⟨rfl, rfl⟩ := hstep
    simpa [submitted] using inv
  | watchdog g =>
    simpa [submitted] using watchdog_sinv s s1 g tr e1 sub inv hstep

theorem submitted_cons (e : Event) (es : List Event) :
    submitted (e :: es) = submitted [e] ++ submitted es := by
  cases e <;> simp [submitted]

theorem submitted_append (es fs : List Event) :
    submitted (es ++ fs) = submitted es ++ submitted fs := by
  induction es with
  | nil => simp [submitted]
  | cons e es ih =>
    rw [List.cons_append, submitted_cons, ih, submitted_cons e es, List.append_assoc]

theorem run_sinv (n : Node) (evs : List Event) :
    ∀ (s s2 : State) (tr tr2 : List Effect) (sub : List (GoalHandle × Nat)),
      SessionInv s.has_active_goal_map s.active_goal_map tr sub →
      (goalIdsOf (sub ++ submitted evs)).Nodup →
      run n s evs = some (s2, tr2) →
      SessionInv s2.has_active_goal_map s2.active_goal_map (tr ++ tr2)
        (sub ++ submitted evs) := by
  induction evs with
  | nil =>
    intro s s2 tr tr2 sub inv _ hrun
    simp only [run, Option.some.injEq, Prod.mk.injEq] at hrun
    obtain ⟨rfl, rfl⟩ := hrun
    simpa [submitted] using inv
  | cons e es ih =>
    intro s s2 tr tr2 sub inv hfresh hrun
    cases hstep : step n s e with
    | none => simp [run, hstep] at hrun
    | some r =>
      obtain ⟨s1, e1⟩ := r
      cases hrest : run n s1 es with
      | none => simp [run, hstep, hrest] at hrun
      | some r2 =>
        obtain ⟨s3, e3⟩ := r2
        simp only [run, hstep, hrest, Option.some.injEq, Prod.mk.injEq] at hrun
        obtain ⟨rfl, rfl⟩ := hrun
        rw [submitted_cons, ← List.append_assoc] at hfresh ⊢
        have hf1 : (goalIdsOf (sub ++ submitted [e])).Nodup := by
          have : goalIdsOf (sub ++ submitted [e] ++ submitted es) =
              goalIdsOf (sub ++ submitted [e]) ++ goalIdsOf (submitted es) := by
            simp [goalIdsOf]
          rw [this] at hfresh
          exact (List.nodup_append.mp hfresh).1
        have inv1 := step_sinv n s s1 e tr e1 sub inv hf1 hstep
        have inv2 := ih s1 s3 (tr ++ e1) e3 (sub ++ submitted [e]) inv1 hfresh hrest
        rw [← List.append_assoc]
        exact inv2

/-- C11: at most one active goal per group.  After every run from the initial
state in which every goal arrives with a fresh handle (the goal ids submitted
are pairwise distinct; every prefix of such a sequence is one), for every group
`g`: a handle submitted to `g` that has been accepted and has not received
succeed, abort, cancel or reject is the stored active goal handle of `g` and
the active flag of `g` is set, so there is at most one such handle; and when
the active flag of `g` is set, the stored handle is such a handle. -/
theorem at_most_one_active_goal (n : Node) (evs : List Event) (s : State)
    (tr : List Effect) (hfresh : (goalIdsOf (submitted evs)).Nodup)
    (hrun : run n State.init evs = some (s, tr)) (g : Nat) :
    (∀ gh, (gh, g) ∈ submitted evs → accepted gh.goal_id tr = true →
      terminated gh.goal_id tr = false →
      s.has_active_goal_map g = true ∧ s.active_goal_map g = some gh) ∧
    (s.has_active_goal_map g = true →
      ∃ gh, (gh, g) ∈ submitted evs ∧ s.active_goal_map g = some gh ∧
        accepted gh.goal_id tr = true ∧ terminated gh.goal_id tr = false) := by
  have inv := run_sinv n evs State.init s [] tr [] SessionInv.initial
    (by simpa using hfresh) hrun
  simp only [List.nil_append] at inv
  constructor
  · intro gh hm h1 h2
    exact inv.pending_stored gh g hm h1 h2
  · intro hact
    obtain ⟨a, ha⟩ := inv.stored_of_active g hact
    refine ⟨a, inv.stored_sub g a ha, ha, inv.stored_acc g a ha, ?_⟩
    simpa [hact] using inv.stored_term g a ha

theorem at_most_one_active_goal_witness :
    ∃ s tr, run Scenario.node State.init
        [Event.feedback Scenario.fbStart 0, Event.goal Scenario.ghJx 0,
         Event.goal Scenario.gh1 0, Event.goal Scenario.gh2 0] = some (s, tr) ∧
      (∀ gh, (gh, 0) ∈ [(Scenario.ghJx, 0), (Scenario.gh1, 0), (Scenario.gh2, 0)] →
        accepted gh.goal_id tr = true → terminated gh.goal_id tr = false →
        s.has_active_goal_map 0 = true ∧ s.active_goal_map 0 = some gh) ∧
      (s.has_active_goal_map 0 = true →
        ∃ gh, (gh, 0) ∈ [(Scenario.ghJx, 0), (Scenario.gh1, 0), (Scenario.gh2, 0)] ∧
          s.active_goal_map 0 = some gh ∧
          accepted gh.goal_id tr = true ∧ terminated gh.goal_id tr = false) := by
  have h : (run Scenario.node State.init
        [Event.feedback Scenario.fbStart 0, Event.goal Scenario.ghJx 0,
         Event.goal Scenario.gh1 0, Event.goal Scenario.gh2 0]).isSome = true := by
    decide!
  match hr : run Scenario.node State.init
        [Event.feedback Scenario.fbStart 0, Event.goal Scenario.ghJx 0,
         Event.goal Scenario.gh1 0, Event.goal Scenario.gh2 0], h with
  | some (s, tr), _ =>
      exact ⟨s, tr, rfl,
        at_most_one_active_goal Scenario.node _ s tr (by decide) hr 0⟩

/-- C18: at most one succeed/abort/reject per goal.  After every run from the
initial state in which every goal arrives with a fresh handle, the number of
succeed, abort and reject calls made on any one goal handle, accepted or not,
is at most one. -/
theorem end_calls_at_most_one (n : Node) (evs : List Event) (s : State)
    (tr : List Effect) (hfresh : (goalIdsOf (submitted evs)).Nodup)
    (hrun : run n State.init evs = some (s, tr)) (h : Nat) :
    endCount h tr ≤ 1 := by
  have inv := run_sinv n evs State.init s [] tr [] SessionInv.initial
    (by simpa using hfresh) hrun
  simp only [List.nil_append] at inv
  exact inv.end_le h

theorem end_calls_at_most_one_witness :
    ∃ s tr, run Scenario.node State.init
        [Event.feedback Scenario.fbStart 0, Event.goal Scenario.gh1 0,
         Event.motionReply ⟨MotionReplyResult.INVALID⟩ 0, Event.cancel Scenario.gh1 0,
         Event.goal Scenario.gh2 0, Event.watchdog 0] = some (s, tr) ∧
      endCount 1 tr ≤ 1 := by
  have h : (run Scenario.node State.init
        [Event.feedback Scenario.fbStart 0, Event.goal Scenario.gh1 0,
         Event.motionReply ⟨MotionReplyResult.INVALID⟩ 0, Event.cancel Scenario.gh1 0,
         Event.goal Scenario.gh2 0, Event.watchdog 0]).isSome = true := by
    decide!
  match hr : run Scenario.node State.init
        [Event.feedback Scenario.fbStart 0, Event.goal Scenario.gh1 0,
         Event.motionReply ⟨MotionReplyResult.INVALID⟩ 0, Event.cancel Scenario.gh1 0,
         Event.goal Scenario.gh2 0, Event.watchdog 0], h with
  | some (s, tr), _ =>
      exact ⟨s, tr, rfl, end_calls_at_most_one Scenario.node _ s tr (by decide) hr 1⟩

/-! ## Group isolation -/

theorem watchdog_framed (s s1 : State) (g g' : Nat) (e1 : List Effect) (hne : g' ≠ g)
    (hstep : watchdog s g = some (s1, e1)) : Framed s s1 e1 g g' := by
  unfold watchdog at hstep
  unfold Framed
  cases hs : s.active_goal_map g <;>
  cases hact : s.has_active_goal_map g <;> cases hrec : s.trajectory_state_recvd_map g <;>
    simp [hact, hrec, abortGoal, hs, onHandle] at hstep <;>
    obtain ⟨rfl, rfl⟩ := hstep <;>
    simp [Function.update_noteq hne]

theorem motionReplyCB_framed (s s1 : State) (msg : MotionReplyResult) (g g' : Nat)
    (e1 : List Effect) (hne : g' ≠ g)
    (hstep : motionReplyCB s msg g = some (s1, e1)) : Framed s s1 e1 g g' := by
  unfold motionReplyCB at hstep
  unfold Framed
  cases hs : s.active_goal_map g <;>
  cases hact : s.has_active_goal_map g <;>
    simp only [hact, Bool.not_false, Bool.not_true, if_true, Bool.false_eq_true, if_false,
      abortGoal, hs, onHandle] at hstep <;>
    (try split at hstep) <;> (try split at hstep) <;>
    simp only [Option.some.injEq, Prod.mk.injEq] at hstep <;>
    obtain ⟨rfl, rfl⟩ := hstep <;>
    simp [Function.update_noteq hne]

theorem cancelCB_framed (n : Node) (s s1 : State) (gh : GoalHandle) (g g' : Nat)
    (e1 : List Effect) (hne : g' ≠ g)
    (hstep : cancelCB n s gh g = some (s1, e1)) : Framed s s1 e1 g g' := by
  unfold cancelCB at hstep
  unfold Framed
  cases hs : s.active_goal_map g <;>
    simp only [hs, onHandle] at hstep <;>
    split at hstep <;>
    simp only [Option.some.injEq, Prod.mk.injEq] at hstep <;>
    obtain ⟨rfl, rfl⟩ := hstep <;>
    simp [Function.update_noteq hne]


theorem controllerStateCB_framed (n : Node) (s s1 : State)
    (msg : FollowJointTrajectoryFeedback) (g g' : Nat)
    (e1 : List Effect) (hne : g' ≠ g)
    (hstep : controllerStateCB n s msg g = some (s1, e1)) : Framed s s1 e1 g g' := by
  unfold controllerStateCB at hstep
  unfold Framed
  cases hs : s.active_goal_map g <;>
    simp only [hs, onHandle] at hstep <;>
    (repeat' split at hstep) <;>
    (try simp at hstep) <;>
    obtain ⟨rfl, rfl⟩ := hstep <;>
    simp [Function.update_noteq hne]

theorem goalCB_framed (n : Node) (s s1 : State) (gh : GoalHandle) (g g' : Nat)
    (e1 : List Effect) (hne : g' ≠ g)
    (hstep : goalCB n s gh g = some (s1, e1)) : Framed s s1 e1 g g' := by
  unfold goalCB at hstep
  unfold Framed
  cases hs : s.active_goal_map g <;>
    simp only [abortGoal, hs, onHandle] at hstep <;>
    (repeat' split at hstep) <;>
    (try simp at hstep) <;>
    obtain ⟨rfl, rfl⟩ := hstep <;>
    simp [Function.update_noteq hne] <;>
    (intro k m h; rcases h with h | h <;> exact h.1)



theorem step_ownCalls (n : Node) (s s1 : State) (e : Event) (g : Nat) (e1 : List Effect)
    (hg : e.group? = some g) (hstep : step n s e = some (s1, e1)) :
    OwnCalls s g (e.goalIds.head?) e1 := by
  unfold OwnCalls
  cases e with
  | goal gh g0 =>
    simp only [Event.group?, Option.some.injEq] at hg
    subst hg
    simp only [step, goalCB] at hstep
    cases hs : s.active_goal_map g0 <;>
      simp only [abortGoal, hs, onHandle] at hstep <;>
      (repeat' split at hstep) <;>
      (try simp at hstep) <;>
      obtain ⟨rfl, rfl⟩ := hstep <;>
      simp [Effect.goalId?, Event.goalIds]
  | cancel gh g0 =>
    simp only [Event.group?, Option.some.injEq] at hg
    subst hg
    simp only [step, cancelCB] at hstep
    cases hs : s.active_goal_map g0 <;>
      simp only [hs, onHandle] at hstep <;>
      split at hstep <;>
      simp only [Option.some.injEq, Prod.mk.injEq] at hstep <;>
      obtain ⟨rfl, rfl⟩ := hstep <;>
      simp [Effect.goalId?, Event.goalIds]
  | feedback msg g0 =>
    simp only [Event.group?, Option.some.injEq] at hg
    subst hg
    simp only [step, controllerStateCB] at hstep
    cases hs : s.active_goal_map g0 <;>
      simp only [hs, onHandle] at hstep <;>
      (repeat' split at hstep) <;>
      (try simp at hstep) <;>
      obtain ⟨rfl, rfl⟩ := hstep <;>
      simp [Effect.goalId?, Event.goalIds]
  | motionReply msg g0 =>
    simp only [Event.group?, Option.some.injEq] at hg
    subst hg
    simp only [step, motionReplyCB] at hstep
    cases hs : s.active_goal_map g0 <;>
      simp only [abortGoal, hs, onHandle] at hstep <;>
      (repeat' split at hstep) <;>
      (try simp at hstep) <;>
      obtain ⟨rfl, rfl⟩ := hstep <;>
      simp [Effect.goalId?, Event.goalIds]
  | robotStatus msg => simp [Event.group?] at hg
  | watchdog g0 =>
    simp only [Event.group?, Option.some.injEq] at hg
    subst hg
    simp only [step, watchdog] at hstep
    cases hs : s.active_goal_map g0 <;>
      simp only [abortGoal, hs, onHandle] at hstep <;>
      (repeat' split at hstep) <;>
      (try simp at hstep) <;>
      obtain ⟨rfl, rfl⟩ := hstep <;>
      simp [Effect.goalId?, Event.goalIds]

theorem step_framed (n : Node) (s s1 : State) (e : Event) (g g' : Nat) (e1 : List Effect)
    (hg : e.group? = some g) (hne : g' ≠ g) (hstep : step n s e = some (s1, e1)) :
    Framed s s1 e1 g g' := by
  cases e with
  | goal gh g0 =>
    simp only [Event.group?, Option.some.injEq] at hg
    subst hg
    exact goalCB_framed n s s1 gh g0 g' e1 hne hstep
  | cancel gh g0 =>
    simp only [Event.group?, Option.some.injEq] at hg
    subst hg
    exact cancelCB_framed n s s1 gh g0 g' e1 hne hstep
  | feedback msg g0 =>
    simp only [Event.group?, Option.some.injEq] at hg
    subst hg
    exact controllerStateCB_framed n s s1 msg g0 g' e1 hne hstep
  | motionReply msg g0 =>
    simp only [Event.group?, Option.some.injEq] at hg
    subst hg
    exact motionReplyCB_framed s s1 msg g0 g' e1 hne hstep
  | robotStatus msg => simp [Event.group?] at hg
  | watchdog g0 =>
    simp only [Event.group?, Option.some.injEq] at hg
    subst hg
    exact watchdog_framed s s1 g0 g' e1 hne hstep

/-- C20: group isolation.  For a per-group event (goal, cancel, feedback,
motion reply, watchdog tick) addressed to group `g` and another group `g'`:
in every state, the step leaves the active flag, the active goal handle,
`current_traj`, the feedback cache and the feedback flag of `g'` unchanged and
publishes only on the topic of `g`; and after every run from the initial state
in which every goal arrives with a fresh handle, the step makes no call on a
goal handle that was submitted to `g'`. -/
theorem group_isolation (n : Node) (e : Event) (g g' : Nat)
    (hg : e.group? = some g) (hne : g' ≠ g) :
    (∀ s s1 e1, step n s e = some (s1, e1) →
      s1.has_active_goal_map g' = s.has_active_goal_map g' ∧
      s1.active_goal_map g' = s.active_goal_map g' ∧
      s1.current_traj_map g' = s.current_traj_map g' ∧
      s1.last_trajectory_state_map g' = s.last_trajectory_state_map g' ∧
      s1.trajectory_state_recvd_map g' = s.trajectory_state_recvd_map g' ∧
      (∀ k m, Effect.publish k m ∈ e1 → k = g) ∧
      (∀ m, Effect.publishCommand m ∉ e1)) ∧
    (∀ evs s tr s1 e1, (goalIdsOf (submitted (evs ++ [e]))).Nodup →
      run n State.init evs = some (s, tr) → step n s e = some (s1, e1) →
      ∀ gh1, (gh1, g') ∈ submitted evs → ∀ x ∈ e1, x.goalId? ≠ some gh1.goal_id) := by
  constructor
  · intro s s1 e1 hstep
    exact step_framed n s s1 e g g' e1 hg hne hstep
  · intro evs s tr s1 e1 hfresh hrun hstep gh1 hm x hx hid
    have hsplit : goalIdsOf (submitted (evs ++ [e])) =
        goalIdsOf (submitted evs) ++ goalIdsOf (submitted [e]) := by
      simp [submitted_append, goalIdsOf]
    rw [hsplit] at hfresh
    have hnd := (List.nodup_append.mp hfresh).1
    have inv := run_sinv n evs State.init s [] tr [] SessionInv.initial (by simpa using hnd) hrun
    simp only [List.nil_append] at inv
    rcases step_ownCalls n s s1 e g e1 hg hstep x hx gh1.goal_id hid with hown | ⟨a, ha, haid⟩
    · have h1 : gh1.goal_id ∈ goalIdsOf (submitted [e]) := by
        cases e <;> simp_all [Event.goalIds, submitted, goalIdsOf]
      exact List.disjoint_of_nodup_append hfresh (mem_goalIdsOf _ gh1 g' hm) h1
    · have := List.inj_on_of_nodup_map hnd (inv.stored_sub g a ha) hm haid
      exact hne (Prod.mk.inj this).2.symm

theorem group_isolation_witness :
    ∃ s1 e1, step Scenario.node2 Scenario.sActive (Event.goal Scenario.gh2 0) = some (s1, e1) ∧
      s1.has_active_goal_map 1 = Scenario.sActive.has_active_goal_map 1 ∧
      s1.active_goal_map 1 = Scenario.sActive.active_goal_map 1 ∧
      s1.current_traj_map 1 = Scenario.sActive.current_traj_map 1 ∧
      s1.last_trajectory_state_map 1 = Scenario.sActive.last_trajectory_state_map 1 ∧
      s1.trajectory_state_recvd_map 1 = Scenario.sActive.trajectory_state_recvd_map 1 ∧
      (∀ k m, Effect.publish k m ∈ e1 → k = 0) ∧
      (∀ m, Effect.publishCommand m ∉ e1) := by
  have h : (step Scenario.node2 Scenario.sActive (Event.goal Scenario.gh2 0)).isSome = true := by
    decide!
  match hr : step Scenario.node2 Scenario.sActive (Event.goal Scenario.gh2 0), h with
  | some (s1, e1), _ =>
      exact ⟨s1, e1, rfl,
        (group_isolation Scenario.node2 (Event.goal Scenario.gh2 0) 0 1 rfl (by decide)).1
          Scenario.sActive s1 e1 hr⟩

/-! ## One watchdog tick, and a goal before any feedback -/

/-- C21: single watchdog tick.  In every state, a tick for a group that is
ACTIVE with goal `a` and whose feedback flag is false performs the abort
action: exactly one trajectory without points is published on the group's
topic, `a` is marked aborted (no reject is made) and the group becomes IDLE.
In every other case, that is when the group is not ACTIVE or its flag is true,
the tick publishes nothing, makes no goal call and leaves the active flag, the
active goal and `current_traj` unchanged.  Either way the other per-group
members are unchanged. -/
theorem watchdog_single_tick (s : State) (g : Nat) :
    (∀ a, s.has_active_goal_map g = true → s.active_goal_map g = some a →
      s.trajectory_state_recvd_map g = false →
      watchdog s g =
        some ({ s with
                  has_active_goal_map := Function.update s.has_active_goal_map g false
                  trajectory_state_recvd := false },
              [Effect.publish g emptyTrajectory, Effect.setAborted a]) ∧
      emptyTrajectory.points = []) ∧
    ((s.has_active_goal_map g = false ∨ s.trajectory_state_recvd_map g = true) →
      watchdog s g = some ({ s with trajectory_state_recvd := false }, [])) := by
  constructor
  · intro a hact hgoal hrec
    refine ⟨?_, rfl⟩
    simp [watchdog, hact, hrec, abortGoal, hgoal, onHandle]
  · intro h
    cases hact : s.has_active_goal_map g
    · simp [watchdog, hact]
    · rcases h with h | h
      · rw [hact] at h
        simp at h
      · simp [watchdog, hact, h]

theorem watchdog_single_tick_witness :
    watchdog Scenario.sSilent 0 =
        some ({ Scenario.sSilent with
                  has_active_goal_map :=
                    Function.update Scenario.sSilent.has_active_goal_map 0 false
                  trajectory_state_recvd := false },
              [Effect.publish 0 emptyTrajectory, Effect.setAborted Scenario.gh1]) ∧
    watchdog Scenario.sActive 0 =
        some ({ Scenario.sActive with trajectory_state_recvd := false }, []) :=
  ⟨((watchdog_single_tick Scenario.sSilent 0).1 Scenario.gh1
      (by decide) (by decide) (by decide)).1,
   (watchdog_single_tick Scenario.sActive 0).2 (Or.inr (by decide))⟩

/-- C22: the goal that the claim covers.  For a group whose feedback cache is
empty and a valid goal (points non-empty, joint names similar to the group's),
`withinGoalConstraints` does not return: it reads
`last_trajectory_state_map_[group]->actual.positions` through the null
pointer, and so does `goalCB(gh, group)`, which makes no accept and no
publication. -/
theorem goalCB_without_feedback (n : Node) (s : State) (gh : GoalHandle) (g : Nat)
    (hpts : gh.getGoal.trajectory.points ≠ [])
    (hsim : n.lib.isSimilar (n.group g).joint_names gh.getGoal.trajectory.joint_names = true)
    (hnone : s.last_trajectory_state_map g = none) :
    withinGoalConstraints n s (s.last_trajectory_state_map g) gh.getGoal.trajectory g = none ∧
    goalCB n s gh g = none := by
  have h1 : gh.getGoal.trajectory.points.isEmpty = false := by
    simpa [List.isEmpty_iff] using hpts
  have hw : ∀ s0 : State, s0.last_trajectory_state_map g = none →
      ∀ m, withinGoalConstraints n s0 m gh.getGoal.trajectory g = none := by
    intro s0 h0 m
    simp [withinGoalConstraints, h1, h0]
  refine ⟨hw s hnone _, ?_⟩
  cases hact : s.has_active_goal_map g
  · simp [goalCB, h1, hsim, hact, hw s hnone]
  · have h2 := hw (abortGoal s g).1 hnone
    simp only [abortGoal] at h2
    simp [goalCB, h1, hsim, hact, abortGoal, h2]

theorem goalCB_without_feedback_witness :
    withinGoalConstraints Scenario.node State.init (State.init.last_trajectory_state_map 0)
        Scenario.gh1.getGoal.trajectory 0 = none ∧
    goalCB Scenario.node State.init Scenario.gh1 0 = none :=
  goalCB_without_feedback Scenario.node State.init Scenario.gh1 0
    (by decide) (by decide) rfl

end Motoman
